import Mathlib

/-!
# World generation (`services/worldgen`): a shallow embedding

The Go package keeps rooms behind pointers and shares the `Exits` / `Properties`
maps of a room with its mirrored scene.  The embedding therefore threads an explicit
`Heap` through every operation:

* `*Room` / `*Scene` are addresses into `Heap.rooms` / `Heap.scenes`; an address outside
  the heap behaves as the nil pointer (dereferencing it panics), and the tables of a world
  hold addresses, so a nil entry of `Rooms` has no representation of its own;
* a `map[string]string` (`Exits`) is an address into `Heap.exits`, a
  `map[string]interface{}` an address into `Heap.props`; the nil map is `none`;
* the maps owned by the `World` struct itself (`Rooms`, `Scenes`) are stored in the
  world value, `none` being the nil map;
* Go strings are Lean strings, Go `int` is `Int` with 64-bit wrap-around where the code
  multiplies;
* `math/rand`, the description provider, `encoding/json` and `os` are libraries outside
  the package and are taken as parameters; output written with `fmt.Printf` is not part
  of the state;
* of `logging/logger.go` only the buffer of `QuantumLogger` is embedded: the body of
  `processLogs` runs under the mutex, one received entry at a time, and is a function of
  the buffer and the entry.

Every operation returns a `Status` together with the state it leaves behind, so that a
returned `error` and a runtime panic can both be observed with the mutations that
happened before them.
-/

namespace Worldgen

/-! ## Go maps with string keys -/

/-- A Go `map[string]V`, as an association list in insertion order. -/
abbrev GoMap (V : Type) := List (String × V)

/-- The lookup `v, ok := m[k]`. -/
def mapGet {V : Type} : GoMap V → String → Option V
  | [], _ => none
  | (k', v) :: rest, k => if k' = k then some v else mapGet rest k

/-- The assignment `m[k] = v`: overwrite the entry of `k`, or add one. -/
def mapSet {V : Type} : GoMap V → String → V → GoMap V
  | [], k, v => [(k, v)]
  | (k', v') :: rest, k, v =>
    if k' = k then (k, v) :: rest else (k', v') :: mapSet rest k v

/-- The key set of a map, `for k := range m`. -/
def mapKeys {V : Type} (m : GoMap V) : List String := m.map Prod.fst

/-! ## directions.go -/

/-- The Go type `Direction`, a named string type. -/
abbrev Direction := String

/-- The constant `North`. -/
def North : Direction := "north"

/-- The constant `South`. -/
def South : Direction := "south"

/-- The constant `East`. -/
def East : Direction := "east"

/-- The constant `West`. -/
def West : Direction := "west"

/-- Go `func (d Direction) GetOppositeDirection() Direction`. -/
def GetOppositeDirection (d : Direction) : Direction :=
  if d = North then South
  else if d = South then North
  else if d = East then West
  else if d = West then East
  else ""

/-- Go `func IsValidDirection(dir Direction) bool`. -/
def IsValidDirection (dir : Direction) : Bool :=
  if dir = North ∨ dir = South ∨ dir = East ∨ dir = West then true else false

/-! ## types.go, scene.go: the records -/

/-- A value stored behind an empty interface in a property bag: nil, a `bool`, a Go integer
(`int`, `int64`), a `float64` (a finite one, kept as the rational it denotes), a string, a
`[]interface{}` or a `map[string]interface{}`. -/
inductive Value where
  | null
  | bool (b : Bool)
  | int (n : Int)
  | num (x : Rat)
  | str (s : String)
  | list (xs : List Value)
  | obj (kvs : List (String × Value))

/-- Go `type Object struct`. `Properties` is a map reference. -/
structure Object where
  ID : String
  Name : String
  Description : String
  Properties : Option Nat

/-- Go `type Room struct`. `Objects` is a slice (`none` is the nil slice), `Exits` and
`Properties` are map references (`none` is the nil map). -/
structure Room where
  ID : String
  Description : String
  Objects : Option (List Object)
  Exits : Option Nat
  Properties : Option Nat

/-- Go `type Scene struct`, field for field the same as `Room`. -/
structure Scene where
  ID : String
  Description : String
  Objects : Option (List Object)
  Exits : Option Nat
  Properties : Option Nat

/-- The objects reachable through pointers and map references. -/
structure Heap where
  rooms : List Room
  scenes : List Scene
  exits : List (GoMap String)
  props : List (GoMap Value)

/-- The heap in which nothing has been allocated. -/
def Heap.empty : Heap := { rooms := [], scenes := [], exits := [], props := [] }

/-- What an operation reports: a nil `error`, a non-nil `error`, or a runtime panic. -/
inductive Status where
  | ok
  | error (msg : String)
  | panic (msg : String)
deriving DecidableEq, Repr

/-- Whether the status is a returned (non-nil) `error`. -/
def Status.isError : Status → Bool
  | .error _ => true
  | _ => false

/-- Whether the status is a runtime panic. -/
def Status.isPanic : Status → Bool
  | .panic _ => true
  | _ => false

/-! ## math/rand and the description provider, as parameters -/

/-- The operations of `math/rand` used by the package, over a generator state `R`:
`rand.New(rand.NewSource(seed))`, `(*Rand).Int63` and `(*Rand).Intn`. Each draw returns
the value and the advanced generator. -/
structure RandOps (R : Type) where
  NewSource : Int → R
  Int63 : R → Nat × R
  Intn : Nat → R → Nat × R

/-- The package-level `aiProvider`: `none` when no provider is configured, otherwise its
`GenerateDescription`, returning the text or an error. -/
abbrev Provider := Option (String → Except String String)

/-! ## world.go -/

/-- Go `type World struct`. -/
structure World (R : Type) where
  Seed : Int
  Rooms : Option (GoMap Nat)
  Scenes : Option (GoMap Nat)
  rng : R

/-- Go `func NewWorld(seed int64) (*World, error)`; the error is always nil. -/
def NewWorld {R : Type} (ops : RandOps R) (seed : Int) : World R :=
  { Seed := seed, Rooms := some [], Scenes := some [], rng := ops.NewSource seed }

/-- Go `func (w *World) GetRoom(id string) (*Room, bool)`; `none` is `(nil, false)`. -/
def GetRoom {R : Type} (w : World R) (id : String) : Option Nat :=
  match w.Rooms with
  | none => none
  | some m => mapGet m id

/-- The scene literal built in `AddRoom`: it copies the two strings and the slice header
and shares the maps of the room. -/
def sceneOf (r : Room) : Scene :=
  { ID := r.ID, Description := r.Description, Objects := r.Objects,
    Exits := r.Exits, Properties := r.Properties }

/-- Go `func (w *World) AddRoom(room *Room)`. -/
def AddRoom {R : Type} (w : World R) (h : Heap) (room : Nat) : Status × World R × Heap :=
  let w1 : World R :=
    match w.Rooms with
    | none => { w with Rooms := some [] }
    | some _ => w
  match h.rooms[room]? with
  | none => (.panic "nil pointer dereference", w1, h)
  | some r =>
    let w2 : World R := { w1 with Rooms := some (mapSet (w1.Rooms.getD []) r.ID room) }
    let h1 : Heap := { h with scenes := h.scenes ++ [sceneOf r] }
    match w2.Scenes with
    | none => (.panic "assignment to entry in nil map", w2, h1)
    | some sm => (.ok, { w2 with Scenes := some (mapSet sm r.ID h.scenes.length) }, h1)

/-- The statement `room.Exits[k] = v` on a room pointer: `none` when it panics (nil
pointer, or assignment to an entry of the nil map). -/
def exitsAssign (h : Heap) (room : Nat) (k v : String) : Option Heap :=
  match h.rooms[room]? with
  | none => none
  | some r =>
    match r.Exits with
    | none => none
    | some ref =>
      match h.exits[ref]? with
      | none => none
      | some m => some { h with exits := h.exits.set ref (mapSet m k v) }

/-- The lookup `m[k]` with its `ok` flag, for the map behind the reference `ref`. -/
def exitsAt (h : Heap) (ref : Nat) (k : String) : Option String :=
  match h.exits[ref]? with
  | none => none
  | some m => mapGet m k

/-- The expression `room.Exits[k]` with its `ok` flag; reading the nil map finds nothing. -/
def exitsLookup (h : Heap) (r : Room) (k : String) : Option String :=
  match r.Exits with
  | none => none
  | some ref => exitsAt h ref k

/-- Go `func (w *World) ConnectRooms(sourceID string, targetID string, direction Direction) error`. -/
def ConnectRooms {R : Type} (w : World R) (h : Heap) (sourceID targetID : String)
    (direction : Direction) : Status × World R × Heap :=
  match GetRoom w sourceID with
  | none => (.error ("source room " ++ sourceID ++ " not found"), w, h)
  | some sourceRoom =>
    match GetRoom w targetID with
    | none => (.error ("target room " ++ targetID ++ " not found"), w, h)
    | some targetRoom =>
      let oppositeDir := GetOppositeDirection direction
      match exitsAssign h sourceRoom direction targetID with
      | none => (.panic "nil dereference or assignment to entry in nil map", w, h)
      | some h1 =>
        match exitsAssign h1 targetRoom oppositeDir sourceID with
        | none => (.panic "nil dereference or assignment to entry in nil map", w, h1)
        | some h2 => (.ok, w, h2)

/-- Go `func generateDirectionalPrompt(basePrompt string, direction string) string`. -/
def generateDirectionalPrompt (basePrompt : String) (direction : String) : String :=
  if direction = "north" then basePrompt ++ " - Upper Level"
  else if direction = "south" then basePrompt ++ " - Lower Level"
  else if direction = "east" then basePrompt ++ " - Eastern Wing"
  else if direction = "west" then basePrompt ++ " - Western Wing"
  else basePrompt

/-- The description chosen by `generateRoom`: the provider's text, or the input when no
provider is configured or the provider fails. -/
def enhanceDescription (aiProvider : Provider) (description : String) : String :=
  match aiProvider with
  | none => description
  | some generate =>
    match generate description with
    | .error _ => description
    | .ok desc => desc

/-- The record built by `generateRoom`: the ID comes from the next `Int63` draw, the two
maps are the ones allocated next in the heap. -/
def newRoom {R : Type} (ops : RandOps R) (aiProvider : Provider) (w : World R) (h : Heap)
    (description : String) : Room :=
  { ID := "room_" ++ toString (ops.Int63 w.rng).1,
    Description := enhanceDescription aiProvider description,
    Objects := some [], Exits := some h.exits.length, Properties := some h.props.length }

/-- The allocations of `generateRoom`: the room record, its `exitMap` and its empty
property map. -/
def allocRoom (h : Heap) (room : Room) (exitMap : GoMap String) : Heap :=
  { h with rooms := h.rooms ++ [room], exits := h.exits ++ [exitMap],
           props := h.props ++ [[]] }

/-- Go `func (w *World) generateRoom(description string, exits []string) (*Room, error)`. -/
def generateRoom {R : Type} (ops : RandOps R) (aiProvider : Provider) (w : World R)
    (h : Heap) (description : String) (exits : List String) :
    Except String Nat × World R × Heap :=
  if description = "" then (.error "room description cannot be empty", w, h)
  else
    let exitMap : GoMap String := exits.foldl (fun m e => mapSet m e "") []
    (.ok h.rooms.length, { w with rng := (ops.Int63 w.rng).2 },
      allocRoom h (newRoom ops aiProvider w h description) exitMap)

/-- Go `int` arithmetic on a 64-bit platform: wrap into `[-2^63, 2^63)`. -/
def wrapInt64 (x : Int) : Int := (x + 2 ^ 63) % 2 ^ 64 - 2 ^ 63

/-- The local `directions := []Direction{North, South, East, West}`. -/
def directions : List Direction := [North, South, East, West]

/-- The directions of `sourceRoom` that are absent or unresolved. -/
def availableDirections (h : Heap) (sourceRoom : Room) : List Direction :=
  directions.filter (fun dir =>
    match exitsLookup h sourceRoom dir with
    | none => true
    | some targetID => targetID = "")

/-- What `GenerateWorld` returns once its loop has ended. -/
def loopExit {R : Type} (attemptLimit remainingRooms : Int) (w : World R) (h : Heap) :
    Status × World R × Heap :=
  if remainingRooms > 0 then
    (.error ("failed to generate all rooms after " ++ toString attemptLimit ++ " attempts"),
      w, h)
  else (.ok, w, h)

/-- How one pass through the loop body ends: `stop` leaves `GenerateWorld` with a result
(an early `return`, or a panic), `next` goes back to the loop guard with the new values of
`remainingRooms` and `currentRooms`. -/
inductive StepResult (R : Type) where
  | stop (result : Status × World R × Heap)
  | next (remainingRooms : Int) (currentRooms : List Nat) (w : World R) (h : Heap)

/-- The body of the loop of `GenerateWorld` (the statements after `attempts++`). -/
def growStep {R : Type} (ops : RandOps R) (aiProvider : Provider) (basePrompt : String)
    (remainingRooms : Int) (currentRooms : List Nat) (w : World R) (h : Heap) :
    StepResult R :=
  if currentRooms.length = 0 then .stop (.panic "invalid argument to Intn", w, h)
  else
    let w1 : World R := { w with rng := (ops.Intn currentRooms.length w.rng).2 }
    match currentRooms[(ops.Intn currentRooms.length w.rng).1]? with
    | none => .stop (.panic "index out of range", w1, h)
    | some sourcePtr =>
      match h.rooms[sourcePtr]? with
      | none => .stop (.panic "nil pointer dereference", w1, h)
      | some sourceRoom =>
        let available := availableDirections h sourceRoom
        if available.length = 0 then .next remainingRooms currentRooms w1 h
        else
          let w2 : World R := { w1 with rng := (ops.Intn available.length w1.rng).2 }
          match available[(ops.Intn available.length w1.rng).1]? with
          | none => .stop (.panic "index out of range", w2, h)
          | some direction =>
            let oppositeDir := GetOppositeDirection direction
            let roomPrompt := generateDirectionalPrompt basePrompt direction
            match generateRoom ops aiProvider w2 h roomPrompt [oppositeDir] with
            | (.error e, w3, h3) => .stop (.error ("failed to generate room: " ++ e), w3, h3)
            | (.ok newPtr, w3, h3) =>
              match h3.rooms[newPtr]? with
              | none => .stop (.panic "nil pointer dereference", w3, h3)
              | some newRoom =>
                match ConnectRooms w3 h3 sourceRoom.ID newRoom.ID direction with
                | (.error e, w4, h4) =>
                  .stop (.error ("failed to connect rooms: " ++ e), w4, h4)
                | (.panic m, w4, h4) => .stop (.panic m, w4, h4)
                | (.ok, w4, h4) =>
                  match AddRoom w4 h4 newPtr with
                  | (.ok, w5, h5) =>
                    .next (remainingRooms - 1) (currentRooms ++ [newPtr]) w5 h5
                  | (st, w5, h5) => .stop (st, w5, h5)

/-- The loop `for remainingRooms > 0 && attempts < attemptLimit` of `GenerateWorld`,
followed by the check after it. The first numeric argument is `attemptLimit - attempts`,
the number of iterations the guard still allows: `attempts` is read nowhere else. -/
def growLoop {R : Type} (ops : RandOps R) (aiProvider : Provider) (basePrompt : String)
    (attemptLimit : Int) :
    Nat → Int → List Nat → World R → Heap → Status × World R × Heap
  | 0, remainingRooms, _, w, h => loopExit attemptLimit remainingRooms w h
  | budget + 1, remainingRooms, currentRooms, w, h =>
    if remainingRooms ≤ 0 then loopExit attemptLimit remainingRooms w h
    else
      match growStep ops aiProvider basePrompt remainingRooms currentRooms w h with
      | .stop result => result
      | .next remainingRooms1 currentRooms1 w1 h1 =>
        growLoop ops aiProvider basePrompt attemptLimit budget remainingRooms1
          currentRooms1 w1 h1

/-- Go `func (w *World) GenerateWorld(basePrompt string, numRooms int) error`. -/
def GenerateWorld {R : Type} (ops : RandOps R) (aiProvider : Provider) (w : World R)
    (h : Heap) (basePrompt : String) (numRooms : Int) : Status × World R × Heap :=
  if numRooms ≤ 0 then (.error "number of rooms must be positive", w, h)
  else if basePrompt = "" then (.error "base prompt cannot be empty", w, h)
  else
    let w1 : World R := { w with Rooms := some [], Scenes := some [] }
    match generateRoom ops aiProvider w1 h (basePrompt ++ " - Central Hub") [] with
    | (.error e, w2, h2) => (.error ("failed to generate central room: " ++ e), w2, h2)
    | (.ok centralRoom, w2, h2) =>
      match AddRoom w2 h2 centralRoom with
      | (.ok, w3, h3) =>
        let attemptLimit := wrapInt64 (numRooms * 10)
        growLoop ops aiProvider basePrompt attemptLimit attemptLimit.toNat (numRooms - 1)
          [centralRoom] w3 h3
      | (st, w3, h3) => (st, w3, h3)

/-! ## Concrete generators and worlds used to evaluate the operations -/

/-- A generator whose state is a counter: every draw returns the counter and advances it. -/
def counterRand : RandOps Nat :=
  { NewSource := fun seed => seed.toNat, Int63 := fun r => (r, r + 1),
    Intn := fun n r => (r % n, r + 1) }

/-- A heap holding two rooms with initialised, empty `Exits`, as in `TestConnectRooms`. -/
def twoRoomHeap : Heap :=
  { rooms := [{ ID := "room1", Description := "Room 1", Objects := some [],
                Exits := some 0, Properties := some 0 },
              { ID := "room2", Description := "Room 2", Objects := some [],
                Exits := some 1, Properties := some 1 }],
    scenes := [], exits := [[], []], props := [[], []] }

/-- The world of `TestConnectRooms`: `room1` and `room2` registered. -/
def twoRoomWorld : World Nat :=
  { Seed := 42, Rooms := some [("room1", 0), ("room2", 1)],
    Scenes := some [("room1", 0), ("room2", 1)], rng := 42 }

/-! ## Predicates on worlds -/

/-- Mutual consistency of connections: every resolved exit of a room registered under the
ID `a` leads to a registered room whose exit in the opposite direction leads back to `a`. -/
def MutuallyConsistent {R : Type} (w : World R) (h : Heap) : Prop :=
  ∀ (a : String) (pa : Nat) (ra : Room) (d t : String),
    GetRoom w a = some pa → h.rooms[pa]? = some ra →
    exitsLookup h ra d = some t → t ≠ "" →
    ∃ pb rb, GetRoom w t = some pb ∧ h.rooms[pb]? = some rb ∧
      exitsLookup h rb (GetOppositeDirection d) = some a

/-- Rooms registered under different IDs do not share one `Exits` map. -/
def ExitsNotShared {R : Type} (w : World R) (h : Heap) : Prop :=
  ∀ (a b : String) (pa pb : Nat) (ra rb : Room) (e : Nat),
    GetRoom w a = some pa → GetRoom w b = some pb →
    h.rooms[pa]? = some ra → h.rooms[pb]? = some rb →
    ra.Exits = some e → rb.Exits = some e → a = b

/-- A slot that holds no resolved exit: the key is absent, or its value is `""`. -/
def Unresolved (v : Option String) : Prop := v = none ∨ v = some ""

/-- Three rooms `A`, `B`, `C`; `A` and `B` are connected north/south, `C` is isolated. -/
def threeRoomHeap : Heap :=
  { rooms := [{ ID := "A", Description := "a", Objects := some [],
                Exits := some 0, Properties := some 0 },
              { ID := "B", Description := "b", Objects := some [],
                Exits := some 1, Properties := some 1 },
              { ID := "C", Description := "c", Objects := some [],
                Exits := some 2, Properties := some 2 }],
    scenes := [], exits := [[("north", "B")], [("south", "A")], []],
    props := [[], [], []] }

/-- The world registering the rooms of `threeRoomHeap` under their IDs. -/
def threeRoomWorld : World Nat :=
  { Seed := 1, Rooms := some [("A", 0), ("B", 1), ("C", 2)],
    Scenes := some [], rng := 1 }

/-- The state of the room table at every head of the loop of `GenerateWorld`: one room is
registered, and the `Exits` map of its record holds no resolved exit. -/
def SingleFreshRoom {R : Type} (w : World R) (h : Heap) : Prop :=
  ∃ (id : String) (p : Nat) (r : Room) (e : Nat) (m : GoMap String),
    w.Rooms = some [(id, p)] ∧ h.rooms[p]? = some r ∧ r.Exits = some e ∧
    h.exits[e]? = some m ∧ ∀ k v, mapGet m k = some v → v = ""

/-- The ID `generateRoom` gives the central hub: the first `Int63` draw of the call. -/
def hubID {R : Type} (ops : RandOps R) (w : World R) : String :=
  "room_" ++ toString (ops.Int63 w.rng).1

/-- The ID `generateRoom` gives the first additional room: the draw that follows the hub's
ID, the choice among one placed room and the choice among the four open directions of
the hub. -/
def firstAddedID {R : Type} (ops : RandOps R) (w : World R) : String :=
  "room_" ++ toString
    (ops.Int63 (ops.Intn 4 (ops.Intn 1 (ops.Int63 w.rng).2).2).2).1

/-- The record of the central hub created by `GenerateWorld`. -/
def hubRoom {R : Type} (ops : RandOps R) (aiProvider : Provider) (w : World R) (h : Heap)
    (basePrompt : String) : Room :=
  newRoom ops aiProvider w h (basePrompt ++ " - Central Hub")

/-- The world value when `GenerateWorld` enters its loop: both tables hold the hub only. -/
def hubWorld {R : Type} (ops : RandOps R) (w : World R) (h : Heap) : World R :=
  { Seed := w.Seed, Rooms := some [(hubID ops w, h.rooms.length)],
    Scenes := some [(hubID ops w, h.scenes.length)], rng := (ops.Int63 w.rng).2 }

/-- The heap when `GenerateWorld` enters its loop. -/
def hubHeap {R : Type} (ops : RandOps R) (aiProvider : Provider) (w : World R) (h : Heap)
    (basePrompt : String) : Heap :=
  { rooms := h.rooms ++ [hubRoom ops aiProvider w h basePrompt],
    scenes := h.scenes ++ [sceneOf (hubRoom ops aiProvider w h basePrompt)],
    exits := h.exits ++ [[]], props := h.props ++ [[]] }

/-- Go `len(w.Rooms)`: the number of distinct keys of the room table. -/
def roomCount {R : Type} (w : World R) : Nat :=
  match w.Rooms with
  | none => 0
  | some m => (mapKeys m).dedup.length

/-! ## Relocation of a run behind the objects of another heap, and what is observed of a world -/

/-- Relocation of a map of addresses: every value is moved up by `b`. -/
def shiftMap (b : Nat) (m : GoMap Nat) : GoMap Nat := m.map (fun kv => (kv.1, b + kv.2))

/-- Relocation of a room record behind the objects of `pre`. -/
def shiftRoom (pre : Heap) (r : Room) : Room :=
  { r with Exits := r.Exits.map (fun e => pre.exits.length + e),
           Properties := r.Properties.map (fun e => pre.props.length + e) }

/-- Relocation of a scene record behind the objects of `pre`. -/
def shiftScene (pre : Heap) (s : Scene) : Scene :=
  { s with Exits := s.Exits.map (fun e => pre.exits.length + e),
           Properties := s.Properties.map (fun e => pre.props.length + e) }

/-- The heap `h`, laid out behind the objects of `pre`. -/
def shiftHeap (pre h : Heap) : Heap :=
  { rooms := pre.rooms ++ h.rooms.map (shiftRoom pre),
    scenes := pre.scenes ++ h.scenes.map (shiftScene pre),
    exits := pre.exits ++ h.exits, props := pre.props ++ h.props }

/-- The world `w`, its addresses relocated behind the objects of `pre`. -/
def shiftWorld {R : Type} (pre : Heap) (w : World R) : World R :=
  { w with Rooms := w.Rooms.map (shiftMap pre.rooms.length),
           Scenes := w.Scenes.map (shiftMap pre.scenes.length) }

/-- Relocation of a result. -/
def shiftResult {R : Type} (pre : Heap) (res : Status × World R × Heap) :
    Status × World R × Heap :=
  (res.1, shiftWorld pre res.2.1, shiftHeap pre res.2.2)

/-- Relocation of the outcome of one pass through the loop body. -/
def shiftStep {R : Type} (pre : Heap) : StepResult R → StepResult R
  | .stop res => .stop (shiftResult pre res)
  | .next rem cur w h =>
    .next rem (cur.map (fun p => pre.rooms.length + p)) (shiftWorld pre w) (shiftHeap pre h)

/-- The IDs under which rooms are registered. -/
def roomIDs {R : Type} (w : World R) : List String :=
  match w.Rooms with
  | none => []
  | some m => mapKeys m

/-- The `Exits` mapping of the room registered under `id`, read at the key `k`. -/
def exitsOfRoom {R : Type} (w : World R) (h : Heap) (id k : String) : Option String :=
  match GetRoom w id with
  | none => none
  | some p =>
    match h.rooms[p]? with
    | none => none
    | some r => exitsLookup h r k

/-- A description collaborator that returns its input unchanged, or none configured. -/
def ReturnsInput (aiProvider : Provider) : Prop :=
  match aiProvider with
  | none => True
  | some generate => ∀ s, generate s = .ok s

/-! ## Persistence: world.go `Save` and `LoadWorld` -/

/-- What `encoding/json` writes for an `Object`: the fields named by the struct tags, the
property map by value (`none` is `null`). -/
structure ObjectDoc where
  ID : String
  Name : String
  Description : String
  Properties : Option (GoMap Value)

/-- What `encoding/json` writes for a `Room` or a `Scene` (the two structs carry the same
tags): slices and maps by value, `none` being `null`. -/
structure RoomDoc where
  ID : String
  Description : String
  Objects : Option (List ObjectDoc)
  Exits : Option (GoMap String)
  Properties : Option (GoMap Value)

/-- What `encoding/json` writes for a `World`: `seed`, `rooms` and `scenes`; the field `rng`
is tagged `json:"-"` and is left out. -/
structure WorldDoc where
  Seed : Int
  Rooms : Option (GoMap RoomDoc)
  Scenes : Option (GoMap RoomDoc)

/-- The content of a property map reference. -/
def viewProps (h : Heap) : Option Nat → Option (GoMap Value)
  | none => none
  | some e => h.props[e]?

/-- The content of an `Exits` map reference. -/
def viewExits (h : Heap) : Option Nat → Option (GoMap String)
  | none => none
  | some e => h.exits[e]?

/-- The document of an object. -/
def viewObject (h : Heap) (o : Object) : ObjectDoc :=
  { ID := o.ID, Name := o.Name, Description := o.Description,
    Properties := viewProps h o.Properties }

/-- The document of a room record. -/
def viewRoom (h : Heap) (r : Room) : RoomDoc :=
  { ID := r.ID, Description := r.Description,
    Objects := r.Objects.map (List.map (viewObject h)),
    Exits := viewExits h r.Exits, Properties := viewProps h r.Properties }

/-- The document of a scene record. -/
def viewScene (h : Heap) (s : Scene) : RoomDoc :=
  { ID := s.ID, Description := s.Description,
    Objects := s.Objects.map (List.map (viewObject h)),
    Exits := viewExits h s.Exits, Properties := viewProps h s.Properties }

/-- The zero value `Room{}`. -/
def zeroRoom : Room :=
  { ID := "", Description := "", Objects := none, Exits := none, Properties := none }

/-- The zero value `Scene{}`. -/
def zeroScene : Scene :=
  { ID := "", Description := "", Objects := none, Exits := none, Properties := none }

/-- The document of the room behind a pointer. The tables of the model hold allocated
addresses only (a nil `*Room` is not represented); an address outside the heap reads as
the zero value. -/
def viewRoomPtr (h : Heap) (p : Nat) : RoomDoc := viewRoom h (h.rooms.getD p zeroRoom)

/-- The document of the scene behind a pointer. -/
def viewScenePtr (h : Heap) (p : Nat) : RoomDoc := viewScene h (h.scenes.getD p zeroScene)

/-- The document `json.MarshalIndent(w, "", "  ")` encodes. -/
def viewWorld {R : Type} (w : World R) (h : Heap) : WorldDoc :=
  { Seed := w.Seed,
    Rooms := w.Rooms.map (List.map (fun kv => (kv.1, viewRoomPtr h kv.2))),
    Scenes := w.Scenes.map (List.map (fun kv => (kv.1, viewScenePtr h kv.2))) }

/-- Allocation of a decoded property map. -/
def allocProps (h : Heap) : Option (GoMap Value) → Option Nat × Heap
  | none => (none, h)
  | some m => (some h.props.length, { h with props := h.props ++ [m] })

/-- Allocation of a decoded `Exits` map. -/
def allocExits (h : Heap) : Option (GoMap String) → Option Nat × Heap
  | none => (none, h)
  | some m => (some h.exits.length, { h with exits := h.exits ++ [m] })

/-- Decoding of an object document. -/
def buildObject (h : Heap) (d : ObjectDoc) : Object × Heap :=
  ({ ID := d.ID, Name := d.Name, Description := d.Description,
     Properties := (allocProps h d.Properties).1 }, (allocProps h d.Properties).2)

/-- Decoding of the elements of an `objects` array. -/
def buildObjects (h : Heap) : List ObjectDoc → List Object × Heap
  | [] => ([], h)
  | d :: rest =>
    ((buildObject h d).1 :: (buildObjects (buildObject h d).2 rest).1,
      (buildObjects (buildObject h d).2 rest).2)

/-- Decoding of an `objects` field. -/
def buildObjectsField (h : Heap) : Option (List ObjectDoc) → Option (List Object) × Heap
  | none => (none, h)
  | some ds => (some (buildObjects h ds).1, (buildObjects h ds).2)

/-- Decoding of a room document into a record. -/
def buildRoom (h : Heap) (d : RoomDoc) : Room × Heap :=
  let objs := buildObjectsField h d.Objects
  let ex := allocExits objs.2 d.Exits
  let pr := allocProps ex.2 d.Properties
  ({ ID := d.ID, Description := d.Description, Objects := objs.1, Exits := ex.1,
     Properties := pr.1 }, pr.2)

/-- Decoding of a scene document into a record. -/
def buildScene (h : Heap) (d : RoomDoc) : Scene × Heap :=
  let objs := buildObjectsField h d.Objects
  let ex := allocExits objs.2 d.Exits
  let pr := allocProps ex.2 d.Properties
  ({ ID := d.ID, Description := d.Description, Objects := objs.1, Exits := ex.1,
     Properties := pr.1 }, pr.2)

/-- Decoding of the `rooms` object: one fresh `*Room` per entry. -/
def buildRoomTable (h : Heap) : GoMap RoomDoc → GoMap Nat × Heap
  | [] => ([], h)
  | (k, d) :: rest =>
    let r := buildRoom h d
    let h1 : Heap := { r.2 with rooms := r.2.rooms ++ [r.1] }
    ((k, r.2.rooms.length) :: (buildRoomTable h1 rest).1, (buildRoomTable h1 rest).2)

/-- Decoding of the `scenes` object: one fresh `*Scene` per entry. -/
def buildSceneTable (h : Heap) : GoMap RoomDoc → GoMap Nat × Heap
  | [] => ([], h)
  | (k, d) :: rest =>
    let s := buildScene h d
    let h1 : Heap := { s.2 with scenes := s.2.scenes ++ [s.1] }
    ((k, s.2.scenes.length) :: (buildSceneTable h1 rest).1, (buildSceneTable h1 rest).2)

/-- Decoding of a table field: `null` or an absent field leaves the nil map. -/
def buildTableField (build : Heap → GoMap RoomDoc → GoMap Nat × Heap) (h : Heap) :
    Option (GoMap RoomDoc) → Option (GoMap Nat) × Heap
  | none => (none, h)
  | some ds => (some (build h ds).1, (build h ds).2)

/-- The libraries behind `Save` and `LoadWorld`, as parameters: `json.MarshalIndent` and
`json.Unmarshal` on world documents over a type `B` of byte strings, `os.WriteFile` and
`os.ReadFile` over a type `F` of file-system states. -/
structure Env (B F : Type) where
  MarshalIndent : WorldDoc → Except String B
  Unmarshal : B → Except String WorldDoc
  WriteFile : F → String → B → Except String F
  ReadFile : F → String → Except String B

/-- Go `func (w *World) Save(filename string) error`. -/
def Save {R B F : Type} (env : Env B F) (w : World R) (h : Heap) (fs : F)
    (filename : String) : Status × F :=
  match env.MarshalIndent (viewWorld w h) with
  | .error e => (.error ("failed to marshal world: " ++ e), fs)
  | .ok data =>
    match env.WriteFile fs filename data with
    | .error e => (.error ("failed to write world file: " ++ e), fs)
    | .ok fs1 => (.ok, fs1)

/-- Go `func LoadWorld(filename string) (*World, error)`. -/
def LoadWorld {R B F : Type} (env : Env B F) (ops : RandOps R) (fs : F) (h : Heap)
    (filename : String) : Except String (World R) × Heap :=
  match env.ReadFile fs filename with
  | .error e => (.error ("failed to read world file: " ++ e), h)
  | .ok data =>
    match env.Unmarshal data with
    | .error e => (.error ("failed to unmarshal world: " ++ e), h)
    | .ok doc =>
      let rooms := buildTableField buildRoomTable h doc.Rooms
      let scenes := buildTableField buildSceneTable rooms.2 doc.Scenes
      (.ok { Seed := doc.Seed, Rooms := rooms.1, Scenes := scenes.1,
             rng := ops.NewSource doc.Seed }, scenes.2)

/-- The heap `h2` extends `h1`: every store of `h1` is a prefix of the store of `h2`. -/
def Heap.Ext (h1 h2 : Heap) : Prop :=
  h1.rooms <+: h2.rooms ∧ h1.scenes <+: h2.scenes ∧ h1.exits <+: h2.exits ∧
  h1.props <+: h2.props

/-- The property map reference `ref` holds the content `d`. -/
def RepProps (h : Heap) : Option Nat → Option (GoMap Value) → Prop
  | none, none => True
  | some e, some m => h.props[e]? = some m
  | _, _ => False

/-- The `Exits` reference `ref` holds the content `d`. -/
def RepExits (h : Heap) : Option Nat → Option (GoMap String) → Prop
  | none, none => True
  | some e, some m => h.exits[e]? = some m
  | _, _ => False

/-- The object `o` holds the content `d`. -/
def RepObject (h : Heap) (o : Object) (d : ObjectDoc) : Prop :=
  o.ID = d.ID ∧ o.Name = d.Name ∧ o.Description = d.Description ∧
  RepProps h o.Properties d.Properties

/-- The slice `l` holds the content `d`. -/
def RepObjectsField (h : Heap) : Option (List Object) → Option (List ObjectDoc) → Prop
  | none, none => True
  | some l, some ds => List.Forall₂ (RepObject h) l ds
  | _, _ => False

/-- The room record `r` holds the content `d`. -/
def RepRoom (h : Heap) (r : Room) (d : RoomDoc) : Prop :=
  r.ID = d.ID ∧ r.Description = d.Description ∧ RepObjectsField h r.Objects d.Objects ∧
  RepExits h r.Exits d.Exits ∧ RepProps h r.Properties d.Properties

/-- The room table `m` holds the content `ds`, entry by entry. -/
def RepRoomTable (h : Heap) (m : GoMap Nat) (ds : GoMap RoomDoc) : Prop :=
  List.Forall₂ (fun kp kd => kp.1 = kd.1 ∧ ∃ r, h.rooms[kp.2]? = some r ∧ RepRoom h r kd.2)
    m ds

/-- A codec and a file system that keep documents as they are: the bytes of a document are
the document, a file system is the map from names to contents. -/
def plainEnv : Env WorldDoc (GoMap WorldDoc) :=
  { MarshalIndent := fun doc => .ok doc,
    Unmarshal := fun data => .ok data,
    WriteFile := fun fs name data => .ok (mapSet fs name data),
    ReadFile := fun fs name =>
      match mapGet fs name with
      | none => .error "no such file"
      | some data => .ok data }

/-- The heap of `TestSaveAndLoadWorld`: `room1` with one object, a north exit and two
properties, and the scene `AddRoom` made of it. -/
def savedHeap : Heap :=
  { rooms := [{ ID := "room1", Description := "Test Room",
                Objects := some [{ ID := "obj1", Name := "Test Object",
                                   Description := "A test object", Properties := some 0 }],
                Exits := some 0, Properties := some 1 }],
    scenes := [{ ID := "room1", Description := "Test Room",
                 Objects := some [{ ID := "obj1", Name := "Test Object",
                                    Description := "A test object", Properties := some 0 }],
                 Exits := some 0, Properties := some 1 }],
    exits := [[("north", "room2")]],
    props := [[("portable", .bool true), ("weight", .num (3 / 2))],
              [("lit", .bool true), ("temperature", .num (41 / 2))]] }

/-- The world of `TestSaveAndLoadWorld`. -/
def savedWorld : World Nat :=
  { Seed := 42, Rooms := some [("room1", 0)], Scenes := some [("room1", 0)], rng := 42 }

/-! ## room.go and scene.go: the methods of Room and Scene, world.go `GetScene` -/

/-- Go `func (r *Room) AddObject(obj Object)`: `r.Objects = append(r.Objects, obj)`. The
receiver is a pointer; the new slice header is stored in the room record. -/
def Room.AddObject (h : Heap) (room : Nat) (obj : Object) : Status × Heap :=
  match h.rooms[room]? with
  | none => (.panic "nil pointer dereference", h)
  | some r =>
    (.ok, { h with
      rooms := h.rooms.set room { r with Objects := some (r.Objects.getD [] ++ [obj]) } })

/-- Go `func (r *Room) AddExit(direction, targetID string)`. -/
def Room.AddExit (h : Heap) (room : Nat) (direction targetID : String) : Status × Heap :=
  match h.rooms[room]? with
  | none => (.panic "nil pointer dereference", h)
  | some r =>
    match r.Exits with
    | none =>
      (.ok, { h with
        rooms := h.rooms.set room { r with Exits := some h.exits.length },
        exits := h.exits ++ [mapSet [] direction targetID] })
    | some ref =>
      match h.exits[ref]? with
      | none => (.panic "assignment to entry in nil map", h)
      | some m => (.ok, { h with exits := h.exits.set ref (mapSet m direction targetID) })

/-- Go `func (r *Room) GetExit(direction string) (string, bool)`, on the record behind the
receiver. -/
def Room.GetExit (h : Heap) (r : Room) (direction : String) : String × Bool :=
  match r.Exits with
  | none => ("", false)
  | some ref =>
    match exitsAt h ref direction with
    | none => ("", false)
    | some id => if id = "" then ("", false) else (id, true)

/-- Go `func (r *Room) SetProperty(key string, value interface)`. -/
def Room.SetProperty (h : Heap) (room : Nat) (key : String) (value : Value) :
    Status × Heap :=
  match h.rooms[room]? with
  | none => (.panic "nil pointer dereference", h)
  | some r =>
    match r.Properties with
    | none =>
      (.ok, { h with
        rooms := h.rooms.set room { r with Properties := some h.props.length },
        props := h.props ++ [mapSet [] key value] })
    | some ref =>
      match h.props[ref]? with
      | none => (.panic "assignment to entry in nil map", h)
      | some m => (.ok, { h with props := h.props.set ref (mapSet m key value) })

/-- Go `func (s *Scene) AddExit(direction string, destination string)`: the assignment
`s.Exits[direction] = destination`, with no check of the map. -/
def Scene.AddExit (h : Heap) (scene : Nat) (direction destination : String) :
    Status × Heap :=
  match h.scenes[scene]? with
  | none => (.panic "nil pointer dereference", h)
  | some s =>
    match s.Exits with
    | none => (.panic "assignment to entry in nil map", h)
    | some ref =>
      match h.exits[ref]? with
      | none => (.panic "assignment to entry in nil map", h)
      | some m => (.ok, { h with exits := h.exits.set ref (mapSet m direction destination) })

/-- Go `func (s *Scene) GetExit(direction string) (string, bool)`: the two results of the
map lookup, as they are. -/
def Scene.GetExit (h : Heap) (s : Scene) (direction : String) : String × Bool :=
  match s.Exits with
  | none => ("", false)
  | some ref =>
    match exitsAt h ref direction with
    | none => ("", false)
    | some destination => (destination, true)

/-- Go `func (w *World) GetScene(id string) (*Scene, error)`. -/
def GetScene {R : Type} (w : World R) (id : String) : Except String Nat :=
  match w.Scenes with
  | none => .error "scenes map is not initialized"
  | some m =>
    match mapGet m id with
    | none => .error ("scene with ID " ++ id ++ " not found")
    | some scene => .ok scene

/-- Go `func GenerateRoom(description string, exits []string) (*Room, error)`. The clock
reading `time.Now().UnixNano()` is the parameter `now`; the package variable `roomCounter`
is passed in and returned. -/
def GenerateRoom (aiProvider : Provider) (now : Int) (roomCounter : Int) (h : Heap)
    (description : String) (exits : List String) : Except String Nat × Int × Heap :=
  if description = "" then (.error "room description cannot be empty", roomCounter, h)
  else
    let exitMap : GoMap String := exits.foldl (fun m e => mapSet m e "") []
    let counter := wrapInt64 (roomCounter + 1)
    let room : Room :=
      { ID := "room_" ++ toString now ++ "_" ++ toString counter,
        Description := enhanceDescription aiProvider description,
        Objects := some [], Exits := some h.exits.length,
        Properties := some h.props.length }
    (.ok h.rooms.length, counter, allocRoom h room exitMap)

/-- Go `func LoadScene(filename string) (*Scene, error)`, over `os.ReadFile` and
`json.Unmarshal` into a `Scene` as parameters. -/
def LoadScene {B F : Type} (ReadFile : F → String → Except String B)
    (Unmarshal : B → Except String RoomDoc) (fs : F) (h : Heap) (filename : String) :
    Except String Nat × Heap :=
  match ReadFile fs filename with
  | .error e => (.error ("failed to read scene file: " ++ e), h)
  | .ok data =>
    match Unmarshal data with
    | .error e => (.error ("failed to unmarshal scene: " ++ e), h)
    | .ok doc =>
      let s := buildScene h doc
      (.ok s.2.scenes.length, { s.2 with scenes := s.2.scenes ++ [s.1] })

/-- A room generated with one predeclared, unresolved exit and registered in a fresh world:
`generateRoom("A room", ["north"])` followed by `AddRoom`. -/
def unresolvedRun : Status × World Nat × Heap :=
  AddRoom (generateRoom counterRand none (NewWorld counterRand 1) Heap.empty "A room"
      ["north"]).2.1
    (generateRoom counterRand none (NewWorld counterRand 1) Heap.empty "A room"
      ["north"]).2.2 0

/-- A scene document with an ID and a description and nothing else: its `exits` field is
absent. -/
def bareSceneDoc : RoomDoc :=
  { ID := "scene_1", Description := "Forest Clearing", Objects := none, Exits := none,
    Properties := none }

/-- A room record whose three containers are uninitialised, alone in the heap. -/
def bareRoomHeap : Heap :=
  { rooms := [{ ID := "room1", Description := "Test Room", Objects := none, Exits := none,
                Properties := none }],
    scenes := [], exits := [], props := [] }

/-- A description provider that always fails. -/
def failingProvider : Provider := some (fun _ => .error "provider unavailable")

/-- The heap `LoadScene` leaves when it decodes `bareSceneDoc` into the empty heap. -/
def bareSceneHeap : Heap :=
  { rooms := [],
    scenes := [{ ID := "scene_1", Description := "Forest Clearing", Objects := none,
                 Exits := none, Properties := none }],
    exits := [], props := [] }

/-! ## Worlds reached through the exposed surface -/

/-- The worlds a host can reach: a fresh `NewWorld` in any heap, then any number of
allocations of its own (rooms it builds, their maps) and of calls of `AddRoom`,
`ConnectRooms` and `GenerateWorld` that do not panic. -/
inductive Reachable {R : Type} (ops : RandOps R) : World R → Heap → Prop where
  | fresh (seed : Int) (h : Heap) : Reachable ops (NewWorld ops seed) h
  | alloc {w : World R} {h h1 : Heap} :
    Reachable ops w h → Heap.Ext h h1 → Reachable ops w h1
  | addRoom {w w1 : World R} {h h1 : Heap} (room : Nat) :
    Reachable ops w h → AddRoom w h room = (.ok, w1, h1) → Reachable ops w1 h1
  | connectRooms {w w1 : World R} {h h1 : Heap} (sourceID targetID : String)
      (direction : Direction) (st : Status) :
    Reachable ops w h → ConnectRooms w h sourceID targetID direction = (st, w1, h1) →
    st.isPanic = false → Reachable ops w1 h1
  | generateWorld {w w1 : World R} {h h1 : Heap} (aiProvider : Provider)
      (basePrompt : String) (numRooms : Int) (st : Status) :
    Reachable ops w h → GenerateWorld ops aiProvider w h basePrompt numRooms = (st, w1, h1) →
    st.isPanic = false → Reachable ops w1 h1

/-- The tables `rooms` and `scenes` are in step: they have the same keys, every key of
`rooms` leads to a room record with that ID, and the scene under the same key is the
literal `AddRoom` builds from that record. -/
def TablesInStep (rooms scenes : Option (GoMap Nat)) (h : Heap) : Prop :=
  ∃ rm sm, rooms = some rm ∧ scenes = some sm ∧ mapKeys rm = mapKeys sm ∧
    ∀ k p, mapGet rm k = some p →
      ∃ r q, h.rooms[p]? = some r ∧ r.ID = k ∧ mapGet sm k = some q ∧
        h.scenes[q]? = some (sceneOf r)

/-- `Scenes` mirrors `Rooms`: the same key set, and under every key a scene whose ID,
Description, Objects, Exits and Properties equal, by value, those of the room. -/
def ScenesMirrorRooms {R : Type} (w : World R) (h : Heap) : Prop :=
  ∃ rm sm, w.Rooms = some rm ∧ w.Scenes = some sm ∧ mapKeys rm = mapKeys sm ∧
    ∀ k p, mapGet rm k = some p →
      ∃ q r s, mapGet sm k = some q ∧ h.rooms[p]? = some r ∧ h.scenes[q]? = some s ∧
        viewScene h s = viewRoom h r

/-- Every key of `Rooms` leads to a room whose ID is the key, every key of `Scenes` to a
scene whose ID is the key, and rooms registered under different keys have different IDs. -/
def KeysAreIDs {R : Type} (w : World R) (h : Heap) : Prop :=
  (∀ k p, GetRoom w k = some p → ∃ r, h.rooms[p]? = some r ∧ r.ID = k) ∧
  (∀ k q, GetScene w k = .ok q → ∃ s, h.scenes[q]? = some s ∧ s.ID = k) ∧
  (∀ k1 k2 p1 p2 r1 r2, GetRoom w k1 = some p1 → GetRoom w k2 = some p2 →
    h.rooms[p1]? = some r1 → h.rooms[p2]? = some r2 → k1 ≠ k2 → r1.ID ≠ r2.ID)

/-- A successful `ConnectRooms` from this state, in a valid direction, shows in the scenes
already built: the scene of the source has the exit to the target and the scene of the
target has the opposite exit back. -/
def ConnectionShowsInScenes {R : Type} (w : World R) (h : Heap) : Prop :=
  ∀ (sourceID targetID : String) (d : Direction) (w1 : World R) (h1 : Heap),
    IsValidDirection d = true →
    ConnectRooms w h sourceID targetID d = (.ok, w1, h1) →
    ∃ qs qt ss st ms mt,
      GetScene w1 sourceID = .ok qs ∧ GetScene w1 targetID = .ok qt ∧
      h1.scenes[qs]? = some ss ∧ h1.scenes[qt]? = some st ∧
      (viewScene h1 ss).Exits = some ms ∧ mapGet ms d = some targetID ∧
      (viewScene h1 st).Exits = some mt ∧
      mapGet mt (GetOppositeDirection d) = some sourceID

/-- The first half of `TestConnectRooms`: a fresh world in which `room1` and `room2` are
registered. -/
def registeredRun : Status × World Nat × Heap :=
  AddRoom (AddRoom (NewWorld counterRand 42) twoRoomHeap 0).2.1
    (AddRoom (NewWorld counterRand 42) twoRoomHeap 0).2.2 1

/-- The run of `TestConnectRooms`: the two registered rooms connected to the north. -/
def connectedRun : Status × World Nat × Heap :=
  ConnectRooms registeredRun.2.1 registeredRun.2.2 "room1" "room2" North

/-! ## Mutations of a registered room -/

/-- One call of an entity operation of room.go that writes to the room. -/
inductive RoomWrite where
  | addObject (obj : Object)
  | addExit (direction targetID : String)
  | setProperty (key : String) (value : Value)

/-- The call on the room behind the pointer `room`. -/
def RoomWrite.run (h : Heap) (room : Nat) : RoomWrite → Status × Heap
  | .addObject obj => Room.AddObject h room obj
  | .addExit direction targetID => Room.AddExit h room direction targetID
  | .setProperty key value => Room.SetProperty h room key value

/-- A sequence of such calls on one room, stopping at the first that does not return. -/
def runWrites (h : Heap) (room : Nat) : List RoomWrite → Status × Heap
  | [] => (.ok, h)
  | c :: rest =>
    match c.run h room with
    | (.ok, h1) => runWrites h1 room rest
    | (st, h1) => (st, h1)

/-- An object without a property bag. -/
def lampObject : Object :=
  { ID := "obj1", Name := "Lamp", Description := "A brass lamp", Properties := none }

/-- The heap after `room1` of `TestAddRoom` is registered in a fresh world and then
receives an object through `AddObject`. -/
def objectRun : Status × Heap :=
  Room.AddObject (AddRoom (NewWorld counterRand 42) twoRoomHeap 0).2.2 0 lampObject

/-- The heap after a room with uninitialised containers is registered in a fresh world and
then receives an exit through `AddExit`. -/
def lateExitRun : Status × Heap :=
  Room.AddExit (AddRoom (NewWorld counterRand 42) bareRoomHeap 0).2.2 0 "north" "room2"

/-! ## Worlds used to evaluate `ConnectRooms` and `AddRoom` on uninitialised maps -/

/-- A heap with an initialised room `room1` and a room `room2` whose `Exits` is
uninitialised. -/
def halfRoomHeap : Heap :=
  { rooms := [{ ID := "room1", Description := "Room 1", Objects := some [],
                Exits := some 0, Properties := some 0 },
              { ID := "room2", Description := "Room 2", Objects := none,
                Exits := none, Properties := none }],
    scenes := [], exits := [[]], props := [[]] }

/-- A world document with a seed and an empty `rooms` object, and no `scenes` field. -/
def noScenesDoc : WorldDoc := { Seed := 42, Rooms := some [], Scenes := none }

/-! ## logging/logger.go: the buffer of `QuantumLogger` -/

/-- Go `type LogEntry struct`. The `time.Time` of `Timestamp` is kept as an instant in
nanoseconds, the `LogLevel2` of `Level` as its integer. -/
structure LogEntry where
  Timestamp : Int
  Level : Int
  Message : String
deriving DecidableEq, Repr

/-- The body of `case entry := <-l.bufferChan` in `processLogs`, between `l.mu.Lock()` and
`l.mu.Unlock()`: when the buffer is full the oldest entry is dropped, then the entry is
appended. The result is the new `l.buffer`; `none` is the panic of the slice expression
`l.buffer[1:]` on an empty buffer. -/
def processEntry (bufferSize : Int) (buffer : List LogEntry) (entry : LogEntry) :
    Option (List LogEntry) :=
  if (buffer.length : Int) ≥ bufferSize then
    match buffer with
    | [] => none
    | _ :: rest => some (rest ++ [entry])
  else some (buffer ++ [entry])

/-- Go `func (l *QuantumLogger) processLogs()` on the entries it receives from
`l.bufferChan`, in the order of receipt, starting from the buffer given. -/
def processLogs (bufferSize : Int) : List LogEntry → List LogEntry → Option (List LogEntry)
  | buffer, [] => some buffer
  | buffer, entry :: rest =>
    match processEntry bufferSize buffer entry with
    | none => none
    | some buffer1 => processLogs bufferSize buffer1 rest

/-- The entry `logger.Info(ctx, "Log message i")` of `TestLogRotation`, logged at the
instant `i`. -/
def rotationEntry (i : Nat) : LogEntry :=
  { Timestamp := i, Level := 1, Message := "Log message " ++ toString i }

/-- The ten entries of `TestLogRotation`. -/
def rotationEntries : List LogEntry := (List.range 10).map rotationEntry

/-! ## GenerateWorld: the attempt counter and the rooms of earlier calls -/

/-- The value of the local `attempts` when the loop of `GenerateWorld` is left (by its
guard, by an early `return` or by a panic): the number of passes through the loop body.
The arguments are those of `growLoop`. -/
def growLoopAttempts {R : Type} (ops : RandOps R) (aiProvider : Provider)
    (basePrompt : String) : Nat → Int → List Nat → World R → Heap → Nat
  | 0, _, _, _, _ => 0
  | budget + 1, remainingRooms, currentRooms, w, h =>
    if remainingRooms ≤ 0 then 0
    else
      match growStep ops aiProvider basePrompt remainingRooms currentRooms w h with
      | .stop _ => 1
      | .next remainingRooms1 currentRooms1 w1 h1 =>
        1 + growLoopAttempts ops aiProvider basePrompt budget remainingRooms1
          currentRooms1 w1 h1

/-- The number of passes through the loop body in one call of `GenerateWorld`: the value
of `attempts` when the call ends, 0 when it ends before the loop. -/
def GenerateWorldAttempts {R : Type} (ops : RandOps R) (aiProvider : Provider)
    (w : World R) (h : Heap) (basePrompt : String) (numRooms : Int) : Nat :=
  if numRooms ≤ 0 then 0
  else if basePrompt = "" then 0
  else
    let w1 : World R := { w with Rooms := some [], Scenes := some [] }
    match generateRoom ops aiProvider w1 h (basePrompt ++ " - Central Hub") [] with
    | (.error _, _, _) => 0
    | (.ok centralRoom, w2, h2) =>
      match AddRoom w2 h2 centralRoom with
      | (.ok, w3, h3) =>
        growLoopAttempts ops aiProvider basePrompt (wrapInt64 (numRooms * 10)).toNat
          (numRooms - 1) [centralRoom] w3 h3
      | _ => 0

/-- Every room registered in `rooms` was allocated when the heap already held `n` rooms,
every scene registered in `scenes` when it already held `m` scenes. -/
def TablesSince (n m : Nat) (rooms scenes : Option (GoMap Nat)) (h : Heap) : Prop :=
  n ≤ h.rooms.length ∧ m ≤ h.scenes.length ∧
  (∀ rm k p, rooms = some rm → mapGet rm k = some p → n ≤ p) ∧
  (∀ sm k q, scenes = some sm → mapGet sm k = some q → m ≤ q)

/-- The contract of `(*Rand).Intn`: for `n > 0` the value drawn lies in `[0, n)`. -/
def IntnInRange {R : Type} (ops : RandOps R) : Prop :=
  ∀ (n : Nat) (r : R), 0 < n → (ops.Intn n r).1 < n

/-- The world of `TestSaveAndLoadWorld` after five draws from its random source. -/
def drawnWorld : World Nat :=
  { Seed := 42, Rooms := some [("room1", 0)], Scenes := some [("room1", 0)], rng := 47 }

/-! ## encoding/json on the values of a property bag -/

/-- The number of halvings that bring `a` below `2^53`, at most `fuel` of them. -/
def excessBits : Nat → Nat → Nat
  | 0, _ => 0
  | fuel + 1, a => if a < 2 ^ 53 then 0 else 1 + excessBits fuel (a / 2)

/-- The `float64` nearest to a 64-bit integer, ties to even: what `json.Unmarshal` stores
for the decimal digits `json.Marshal` wrote for the integer. The result is an integer
again; integers of magnitude below `2^53` are unchanged. -/
def float64OfInt (n : Int) : Int :=
  let a := n.natAbs
  let e := excessBits 11 a
  let q := a / 2 ^ e
  let r := a % 2 ^ e
  let q1 := if 2 * r > 2 ^ e ∨ (2 * r = 2 ^ e ∧ q % 2 = 1) then q + 1 else q
  if n < 0 then - ((q1 * 2 ^ e : Nat) : Int) else ((q1 * 2 ^ e : Nat) : Int)

mutual
/-- What `json.Unmarshal` stores in an `interface{}` for the text `json.Marshal` writes for
a value: nil, `bool`, string, arrays and objects come back as they were, and every number
comes back as a `float64`. -/
def decodedValue : Value → Value
  | .null => .null
  | .bool b => .bool b
  | .int n => .num (float64OfInt n)
  | .num x => .num x
  | .str s => .str s
  | .list xs => .list (decodedList xs)
  | .obj kvs => .obj (decodedFields kvs)
/-- The elements of a decoded array. -/
def decodedList : List Value → List Value
  | [] => []
  | v :: rest => decodedValue v :: decodedList rest
/-- The entries of a decoded object or property bag. -/
def decodedFields : List (String × Value) → List (String × Value)
  | [] => []
  | (k, v) :: rest => (k, decodedValue v) :: decodedFields rest
end

mutual
/-- Whether a value is of the kinds `json.Unmarshal` itself produces: no Go integer occurs
in it. -/
def jsonNative : Value → Bool
  | .null => true
  | .bool _ => true
  | .int _ => false
  | .num _ => true
  | .str _ => true
  | .list xs => nativeList xs
  | .obj kvs => nativeFields kvs
/-- Whether every element of an array is native. -/
def nativeList : List Value → Bool
  | [] => true
  | v :: rest => jsonNative v && nativeList rest
/-- Whether every value of an object or property bag is native. -/
def nativeFields : List (String × Value) → Bool
  | [] => true
  | (_, v) :: rest => jsonNative v && nativeFields rest
end

/-- An object document as it is decoded. -/
def decodedObjectDoc (d : ObjectDoc) : ObjectDoc :=
  { ID := d.ID, Name := d.Name, Description := d.Description,
    Properties := d.Properties.map decodedFields }

/-- A room or scene document as it is decoded: the typed fields (`string`,
`map[string]string`) come back as written, the property bags through `decodedFields`. -/
def decodedRoomDoc (d : RoomDoc) : RoomDoc :=
  { ID := d.ID, Description := d.Description,
    Objects := d.Objects.map (List.map decodedObjectDoc),
    Exits := d.Exits, Properties := d.Properties.map decodedFields }

/-- A `rooms` or `scenes` object as it is decoded. -/
def decodedTable (t : GoMap RoomDoc) : GoMap RoomDoc :=
  t.map (fun kv => (kv.1, decodedRoomDoc kv.2))

/-- A world document as it is decoded; the `int64` seed comes back as written. -/
def decodedWorldDoc (d : WorldDoc) : WorldDoc :=
  { Seed := d.Seed, Rooms := d.Rooms.map decodedTable, Scenes := d.Scenes.map decodedTable }

/-- The behaviour of `encoding/json` the package relies on: the bytes `MarshalIndent` wrote
for a world document decode, with `Unmarshal`, to that document with every number behind
an `interface{}` turned into a `float64`. -/
def JsonCodec {B F : Type} (env : Env B F) : Prop :=
  ∀ (doc : WorldDoc) (data : B), env.MarshalIndent doc = .ok data →
    env.Unmarshal data = .ok (decodedWorldDoc doc)

/-- The property bag holds native values only (the nil map holds none). -/
def NativeProps : Option (GoMap Value) → Prop
  | none => True
  | some m => nativeFields m = true

/-- Every property value of the room document and of its objects is native. -/
def NativeRoom (d : RoomDoc) : Prop :=
  NativeProps d.Properties ∧
  ∀ ds, d.Objects = some ds → ∀ o, o ∈ ds → NativeProps o.Properties

/-- Every property value of every room of the table is native. -/
def NativeRooms (t : Option (GoMap RoomDoc)) : Prop :=
  ∀ rs, t = some rs → ∀ kv, kv ∈ rs → NativeRoom kv.2

/-- A codec and a file system in which the bytes of a document are the document and
decoding does what `encoding/json` does to numbers behind an `interface{}`. -/
def jsonEnv : Env WorldDoc (GoMap WorldDoc) :=
  { MarshalIndent := fun doc => .ok doc,
    Unmarshal := fun data => .ok (decodedWorldDoc data),
    WriteFile := fun fs name data => .ok (mapSet fs name data),
    ReadFile := fun fs name =>
      match mapGet fs name with
      | none => .error "no such file"
      | some data => .ok data }

/-- A heap with one registered room whose properties hold Go integers: a small one and
`int64(9007199254740993)`, which is `2^53 + 1`. -/
def countedHeap : Heap :=
  { rooms := [{ ID := "room1", Description := "Test Room", Objects := some [],
                Exits := some 0, Properties := some 0 }],
    scenes := [{ ID := "room1", Description := "Test Room", Objects := some [],
                 Exits := some 0, Properties := some 0 }],
    exits := [[]],
    props := [[("visits", .int 3), ("serial", .int 9007199254740993)]] }

/-- The world over `countedHeap`. -/
def countedWorld : World Nat :=
  { Seed := 42, Rooms := some [("room1", 0)], Scenes := some [("room1", 0)], rng := 42 }

/-! ## Theorems -/

/-! ### Maps and directions -/

theorem mapGet_mapSet_self {V : Type} (m : GoMap V) (k : String) (v : V) :
    mapGet (mapSet m k v) k = some v := by
  induction m with
  | nil => simp [mapSet, mapGet]
  | cons kv rest ih =>
    obtain ⟨k', v'⟩ := kv
    by_cases hk : k' = k
    · simp [mapSet, mapGet, hk]
    · simp [mapSet, mapGet, hk, ih]

theorem mapGet_mapSet_of_ne {V : Type} (m : GoMap V) (k j : String) (v : V) (hne : k ≠ j) :
    mapGet (mapSet m k v) j = mapGet m j := by
  induction m with
  | nil => simp [mapSet, mapGet, hne]
  | cons kv rest ih =>
    obtain ⟨k', v'⟩ := kv
    by_cases hk : k' = k
    · subst hk
      simp [mapSet, mapGet, hne]
    · by_cases hj : k' = j
      · subst hj
        simp [mapSet, mapGet, hk]
      · simp [mapSet, mapGet, hk, hj, ih]

theorem valid_direction_cases (d : Direction) (hd : IsValidDirection d = true) :
    d = North ∨ d = South ∨ d = East ∨ d = West := by
  unfold IsValidDirection at hd
  by_contra hcon
  simp [hcon] at hd

theorem opposite_ne_self (d : Direction) (hd : IsValidDirection d = true) :
    GetOppositeDirection d ≠ d := by
  rcases valid_direction_cases d hd with h | h | h | h <;> subst h <;> decide

theorem opposite_opposite (d : Direction) (hd : IsValidDirection d = true) :
    GetOppositeDirection (GetOppositeDirection d) = d := by
  rcases valid_direction_cases d hd with h | h | h | h <;> subst h <;> decide

/-! ### ConnectRooms -/

/-- A successful `exitsAssign` rewrites exactly one map of the heap. -/
theorem exitsAssign_eq_some (h h1 : Heap) (room : Nat) (k v : String)
    (hres : exitsAssign h room k v = some h1) :
    ∃ r ref m, h.rooms[room]? = some r ∧ r.Exits = some ref ∧ h.exits[ref]? = some m ∧
      h1 = { h with exits := h.exits.set ref (mapSet m k v) } := by
  unfold exitsAssign at hres
  cases hr : h.rooms[room]? with
  | none => simp [hr] at hres
  | some r =>
    cases he : r.Exits with
    | none => simp [hr, he] at hres
    | some ref =>
      cases hm : h.exits[ref]? with
      | none => simp [hr, he, hm] at hres
      | some m =>
        simp [hr, he, hm] at hres
        exact ⟨r, ref, m, rfl, he, hm, hres.symm⟩

/-- The shape of every successful `ConnectRooms`: both rooms are registered with
initialised `Exits`, and the heap differs from the old one in the two written slots. -/
theorem ConnectRooms_ok_shape {R : Type} (w w' : World R) (h h' : Heap)
    (sourceID targetID : String) (d : Direction)
    (hres : ConnectRooms w h sourceID targetID d = (.ok, w', h')) :
    ∃ ps pt rs rt es et ms mt,
      GetRoom w sourceID = some ps ∧ GetRoom w targetID = some pt ∧
      h.rooms[ps]? = some rs ∧ h.rooms[pt]? = some rt ∧
      rs.Exits = some es ∧ rt.Exits = some et ∧
      h.exits[es]? = some ms ∧ (h.exits.set es (mapSet ms d targetID))[et]? = some mt ∧
      w' = w ∧
      h' = { h with
        exits := (h.exits.set es (mapSet ms d targetID)).set et
          (mapSet mt (GetOppositeDirection d) sourceID) } := by
  unfold ConnectRooms at hres
  cases hs : GetRoom w sourceID with
  | none => simp [hs] at hres
  | some ps =>
    cases ht : GetRoom w targetID with
    | none => simp [hs, ht] at hres
    | some pt =>
      cases h1e : exitsAssign h ps d targetID with
      | none => simp [hs, ht, h1e] at hres
      | some h1 =>
        cases h2e : exitsAssign h1 pt (GetOppositeDirection d) sourceID with
        | none => simp [hs, ht, h1e, h2e] at hres
        | some h2 =>
          simp [hs, ht, h1e, h2e] at hres
          obtain ⟨rs, es, ms, hrs, hes, hms, hh1⟩ := exitsAssign_eq_some _ _ _ _ _ h1e
          obtain ⟨rt, et, mt, hrt, het, hmt, hh2⟩ := exitsAssign_eq_some _ _ _ _ _ h2e
          subst hh1
          refine ⟨ps, pt, rs, rt, es, et, ms, mt, rfl, rfl, hrs, hrt, hes, het, hms, hmt,
            hres.1.symm, ?_⟩
          rw [← hres.2, hh2]

/-- Reading any slot after the two writes of `ConnectRooms`. -/
theorem exitsAt_after_connect (h : Heap) (es et : Nat) (ms mt : GoMap String)
    (d o S T : String) (hms : h.exits[es]? = some ms)
    (hmt : (h.exits.set es (mapSet ms d T))[et]? = some mt) (hdo : o ≠ d)
    (e : Nat) (k : String) :
    exitsAt { h with exits := (h.exits.set es (mapSet ms d T)).set et (mapSet mt o S) } e k
      = if e = et ∧ k = o then some S
        else if e = es ∧ k = d then some T
        else exitsAt h e k := by
  have hes : es < h.exits.length := by
    rcases List.getElem?_eq_some.mp hms with ⟨hlt, _⟩
    exact hlt
  have het : et < (h.exits.set es (mapSet ms d T)).length := by
    rcases List.getElem?_eq_some.mp hmt with ⟨hlt, _⟩
    exact hlt
  unfold exitsAt
  simp only []
  by_cases h1 : e = et
  · subst h1
    rw [List.getElem?_set_self het]
    by_cases h2 : k = o
    · subst h2
      simp [mapGet_mapSet_self]
    · have h2' : o ≠ k := fun hc => h2 hc.symm
      simp only [mapGet_mapSet_of_ne _ _ _ _ h2', h2, and_false, if_false, true_and]
      by_cases h3 : e = es
      · subst h3
        rw [List.getElem?_set_self hes] at hmt
        cases hmt
        by_cases h4 : k = d
        · subst h4
          simp [mapGet_mapSet_self]
        · have h4' : d ≠ k := fun hc => h4 hc.symm
          simp [mapGet_mapSet_of_ne _ _ _ _ h4', h4, hms]
      · have h3' : es ≠ e := fun hc => h3 hc.symm
        rw [List.getElem?_set_ne h3'] at hmt
        simp [h3, hmt]
  · have h1' : et ≠ e := fun hc => h1 hc.symm
    rw [List.getElem?_set_ne h1']
    simp only [h1, false_and, if_false]
    by_cases h3 : e = es
    · subst h3
      rw [List.getElem?_set_self hes]
      by_cases h4 : k = d
      · subst h4
        simp [mapGet_mapSet_self]
      · have h4' : d ≠ k := fun hc => h4 hc.symm
        simp [mapGet_mapSet_of_ne _ _ _ _ h4', h4, hms]
    · have h3' : es ≠ e := fun hc => h3 hc.symm
      rw [List.getElem?_set_ne h3']
      simp [h3]

/-- C6. For every world in which `sourceID` and `targetID` are registered, their rooms
having initialised `Exits`, and every valid direction `d`, `ConnectRooms` returns no error
and afterwards the source room has `Exits[d] = targetID` and the target room has
`Exits[Opposite(d)] = sourceID`, whatever the two slots held before. Neither room record
nor the world value is changed. -/
theorem ConnectRooms_sets_both_exits {R : Type} (w : World R) (h : Heap)
    (sourceID targetID : String) (d : Direction) (ps pt : Nat) (rs rt : Room)
    (es et : Nat) (ms mt : GoMap String)
    (hs : GetRoom w sourceID = some ps) (ht : GetRoom w targetID = some pt)
    (hrs : h.rooms[ps]? = some rs) (hrt : h.rooms[pt]? = some rt)
    (hes : rs.Exits = some es) (het : rt.Exits = some et)
    (hms : h.exits[es]? = some ms) (hmt : h.exits[et]? = some mt)
    (hd : IsValidDirection d = true) :
    ∃ h', ConnectRooms w h sourceID targetID d = (.ok, w, h') ∧
      h'.rooms = h.rooms ∧
      exitsLookup h' rs d = some targetID ∧
      exitsLookup h' rt (GetOppositeDirection d) = some sourceID := by
  have hetlt : et < h.exits.length := by
    rcases List.getElem?_eq_some.mp hmt with ⟨hlt, _⟩
    exact hlt
  have hmt1 : ∃ m1, (h.exits.set es (mapSet ms d targetID))[et]? = some m1 := by
    have hlt : et < (h.exits.set es (mapSet ms d targetID)).length := by simpa using hetlt
    exact ⟨_, List.getElem?_eq_getElem hlt⟩
  obtain ⟨m1, hm1⟩ := hmt1
  refine ⟨{ h with
    exits := (h.exits.set es (mapSet ms d targetID)).set et
      (mapSet m1 (GetOppositeDirection d) sourceID) }, ?_, rfl, ?_, ?_⟩
  · simp [ConnectRooms, hs, ht, exitsAssign, hrs, hrt, hes, het, hms, hm1]
  · simp only [exitsLookup, hes]
    rw [exitsAt_after_connect h es et ms m1 d _ sourceID targetID hms hm1
      (opposite_ne_self d hd)]
    have hne : ¬ d = GetOppositeDirection d := fun hc => opposite_ne_self d hd hc.symm
    simp [hne]
  · simp only [exitsLookup, het]
    rw [exitsAt_after_connect h es et ms m1 d _ sourceID targetID hms hm1
      (opposite_ne_self d hd)]
    simp

/-- Witness of C6 on the world of `TestConnectRooms`. -/
theorem ConnectRooms_sets_both_exits_witness :
    ∃ h', ConnectRooms twoRoomWorld twoRoomHeap "room1" "room2" North
        = (.ok, twoRoomWorld, h') ∧
      h'.rooms = twoRoomHeap.rooms ∧
      exitsLookup h' { ID := "room1", Description := "Room 1", Objects := some [],
                       Exits := some 0, Properties := some 0 } North = some "room2" ∧
      exitsLookup h' { ID := "room2", Description := "Room 2", Objects := some [],
                       Exits := some 1, Properties := some 1 }
        (GetOppositeDirection North) = some "room1" :=
  ConnectRooms_sets_both_exits twoRoomWorld twoRoomHeap "room1" "room2" North 0 1
    _ _ 0 1 [] [] (by decide) (by decide) rfl rfl rfl rfl rfl rfl (by decide)

/-- C7. `ConnectRooms` returns an error whenever `sourceID` or `targetID` is not
registered, and then the world value and the whole heap (every room, scene and map) are
what they were before the call. -/
theorem ConnectRooms_unregistered_is_error {R : Type} (w : World R) (h : Heap)
    (sourceID targetID : String) (d : Direction)
    (hmiss : GetRoom w sourceID = none ∨ GetRoom w targetID = none) :
    ∃ msg, ConnectRooms w h sourceID targetID d = (.error msg, w, h) := by
  unfold ConnectRooms
  cases hs : GetRoom w sourceID with
  | none => exact ⟨_, rfl⟩
  | some ps =>
    rcases hmiss with hm | hm
    · rw [hs] at hm
      cases hm
    · simp only [hm]
      exact ⟨_, rfl⟩

/-- Witness of C7: the call of `TestConnectRooms` on two unknown IDs. -/
theorem ConnectRooms_unregistered_is_error_witness :
    ∃ msg, ConnectRooms twoRoomWorld twoRoomHeap "nonexistent1" "nonexistent2" East
      = (.error msg, twoRoomWorld, twoRoomHeap) :=
  ConnectRooms_unregistered_is_error twoRoomWorld twoRoomHeap "nonexistent1" "nonexistent2"
    East (Or.inl (by decide))

/-- The three-room world is mutually consistent. -/
theorem threeRoom_consistent : MutuallyConsistent threeRoomWorld threeRoomHeap := by
  intro a pa ra d t h1 h2 h3 h4
  simp only [GetRoom, threeRoomWorld, mapGet] at h1
  split_ifs at h1 with ha hb hc
  · cases h1
    subst ha
    simp only [threeRoomHeap, List.getElem?_cons_zero, Option.some.injEq] at h2
    subst h2
    simp only [exitsLookup, exitsAt, threeRoomHeap, List.getElem?_cons_zero,
      mapGet] at h3
    split_ifs at h3 with hd
    cases h3
    subst hd
    exact ⟨1, _, by decide, rfl, by decide⟩
  · cases h1
    subst hb
    simp only [threeRoomHeap, List.getElem?_cons_succ, List.getElem?_cons_zero,
      Option.some.injEq] at h2
    subst h2
    simp only [exitsLookup, exitsAt, threeRoomHeap, List.getElem?_cons_succ,
      List.getElem?_cons_zero, mapGet] at h3
    split_ifs at h3 with hd
    cases h3
    subst hd
    exact ⟨0, _, by decide, rfl, by decide⟩
  · cases h1
    subst hc
    simp only [threeRoomHeap, List.getElem?_cons_succ, List.getElem?_cons_zero,
      Option.some.injEq] at h2
    subst h2
    simp [exitsLookup, exitsAt, threeRoomHeap, mapGet] at h3

/-- Counterexample to C8. `A` and `B` are connected north/south and `C` is isolated, a
mutually consistent world. `ConnectRooms("A", "C", north)` succeeds and overwrites
`A.Exits[north]`, so `B.Exits[south] = "A"` is left without its counterpart. -/
theorem ConnectRooms_overwrite_breaks_consistency :
    MutuallyConsistent threeRoomWorld threeRoomHeap ∧ IsValidDirection North = true ∧
    (ConnectRooms threeRoomWorld threeRoomHeap "A" "C" North).1 = .ok ∧
    ¬ MutuallyConsistent (ConnectRooms threeRoomWorld threeRoomHeap "A" "C" North).2.1
        (ConnectRooms threeRoomWorld threeRoomHeap "A" "C" North).2.2 := by
  refine ⟨threeRoom_consistent, by decide, by decide, ?_⟩
  · intro hcon
    obtain ⟨pb, rb, h1, h2, h3⟩ := hcon "B" 1
      { ID := "B", Description := "b", Objects := some [], Exits := some 1,
        Properties := some 1 } "south" "A" (by decide) rfl (by decide) (by decide)
    have hpb : GetRoom (ConnectRooms threeRoomWorld threeRoomHeap "A" "C" North).2.1 "A"
        = some 0 := by decide
    rw [hpb] at h1
    cases h1
    have hrb : (ConnectRooms threeRoomWorld threeRoomHeap "A" "C" North).2.2.rooms[0]?
        = some { ID := "A", Description := "a", Objects := some [], Exits := some 0,
                 Properties := some 0 } := rfl
    rw [hrb] at h2
    cases h2
    revert h3
    decide

/-- C8, amended. A successful `ConnectRooms(sourceID, targetID, d)` with a valid direction
preserves mutual consistency provided that the two slots it writes held no resolved exit
before the call, that no room is registered under the empty ID, and that rooms registered
under different IDs do not share an `Exits` map. -/
theorem ConnectRooms_preserves_consistency {R : Type} (w w' : World R) (h h' : Heap)
    (sourceID targetID : String) (d : Direction) (ps pt : Nat) (rs rt : Room)
    (hcons : MutuallyConsistent w h) (hshare : ExitsNotShared w h)
    (hempty : GetRoom w "" = none) (hd : IsValidDirection d = true)
    (hs : GetRoom w sourceID = some ps) (ht : GetRoom w targetID = some pt)
    (hrs : h.rooms[ps]? = some rs) (hrt : h.rooms[pt]? = some rt)
    (hfreeS : Unresolved (exitsLookup h rs d))
    (hfreeT : Unresolved (exitsLookup h rt (GetOppositeDirection d)))
    (hres : ConnectRooms w h sourceID targetID d = (.ok, w', h')) :
    MutuallyConsistent w' h' := by
  obtain ⟨ps', pt', rs', rt', es, et, ms, mt, hs', ht', hrs', hrt', hes, het, hms, hmt,
    hw, hh⟩ := ConnectRooms_ok_shape w w' h h' sourceID targetID d hres
  rw [hs] at hs'
  cases hs'
  rw [ht] at ht'
  cases ht'
  rw [hrs] at hrs'
  cases hrs'
  rw [hrt] at hrt'
  cases hrt'
  subst hw
  have hod := opposite_ne_self d hd
  have hoo := opposite_opposite d hd
  have hrooms : h'.rooms = h.rooms := by rw [hh]
  have hat : ∀ e k, exitsAt h' e k
      = if e = et ∧ k = GetOppositeDirection d then some sourceID
        else if e = es ∧ k = d then some targetID
        else exitsAt h e k := by
    intro e k
    rw [hh]
    exact exitsAt_after_connect h es et ms mt d _ sourceID targetID hms hmt hod e k
  have hfS : Unresolved (exitsAt h es d) := by
    simpa [exitsLookup, hes] using hfreeS
  have hfT : Unresolved (exitsAt h et (GetOppositeDirection d)) := by
    simpa [exitsLookup, het] using hfreeT
  intro a pa ra d' t h1 h2 h3 h4
  rw [hrooms] at h2
  cases hea : ra.Exits with
  | none => simp [exitsLookup, hea] at h3
  | some ea =>
    simp only [exitsLookup, hea] at h3
    rw [hat] at h3
    by_cases c1 : ea = et ∧ d' = GetOppositeDirection d
    · obtain ⟨c1a, c1b⟩ := c1
      subst c1a
      subst c1b
      simp only [and_self, if_true, Option.some.injEq] at h3
      subst h3
      have hat' : a = targetID := hshare a targetID pa pt ra rt ea h1 ht h2 hrt hea het
      subst hat'
      refine ⟨ps, rs, hs, by rw [hrooms]; exact hrs, ?_⟩
      simp only [exitsLookup, hes, hoo]
      rw [hat]
      have hne : ¬ d = GetOppositeDirection d := fun hc => hod hc.symm
      simp [hne]
    · simp only [c1, if_false] at h3
      by_cases c2 : ea = es ∧ d' = d
      · obtain ⟨c2a, c2b⟩ := c2
        subst c2a
        subst c2b
        simp only [and_self, if_true, Option.some.injEq] at h3
        subst h3
        have has : a = sourceID := hshare a sourceID pa ps ra rs ea h1 hs h2 hrs hea hes
        subst has
        refine ⟨pt, rt, ht, by rw [hrooms]; exact hrt, ?_⟩
        simp only [exitsLookup, het]
        rw [hat]
        simp
      · simp only [c2, if_false] at h3
        have h3' : exitsLookup h ra d' = some t := by
          simpa [exitsLookup, hea] using h3
        obtain ⟨pb, rb, hb1, hb2, hb3⟩ := hcons a pa ra d' t h1 h2 h3' h4
        have hane : a ≠ "" := by
          intro hc
          rw [hc, hempty] at h1
          cases h1
        refine ⟨pb, rb, hb1, by rw [hrooms]; exact hb2, ?_⟩
        cases heb : rb.Exits with
        | none => simp [exitsLookup, heb] at hb3
        | some eb =>
          simp only [exitsLookup, heb] at hb3 ⊢
          rw [hat]
          by_cases c3 : eb = et ∧ GetOppositeDirection d' = GetOppositeDirection d
          · obtain ⟨c3a, c3b⟩ := c3
            rw [c3a, c3b] at hb3
            rcases hfT with hf | hf
            · rw [hf] at hb3
              cases hb3
            · rw [hf] at hb3
              cases hb3
              exact absurd rfl hane
          · simp only [c3, if_false]
            by_cases c4 : eb = es ∧ GetOppositeDirection d' = d
            · obtain ⟨c4a, c4b⟩ := c4
              rw [c4a, c4b] at hb3
              rcases hfS with hf | hf
              · rw [hf] at hb3
                cases hb3
              · rw [hf] at hb3
                cases hb3
                exact absurd rfl hane
            · simp only [c4, if_false]
              exact hb3

/-- Witness of C8 (amended): connecting the isolated `C` to the east of `A`. -/
theorem ConnectRooms_preserves_consistency_witness :
    MutuallyConsistent (ConnectRooms threeRoomWorld threeRoomHeap "A" "C" East).2.1
      (ConnectRooms threeRoomWorld threeRoomHeap "A" "C" East).2.2 :=
  ConnectRooms_preserves_consistency threeRoomWorld _ threeRoomHeap _ "A" "C" East 0 2
    { ID := "A", Description := "a", Objects := some [], Exits := some 0,
      Properties := some 0 }
    { ID := "C", Description := "c", Objects := some [], Exits := some 2,
      Properties := some 2 }
    threeRoom_consistent
    (by
      intro a b pa pb ra rb e h1 h2 h3 h4 h5 h6
      simp only [GetRoom, threeRoomWorld, mapGet] at h1 h2
      simp only [threeRoomHeap] at h3 h4
      split_ifs at h1 with ha1 ha2 ha3 <;> split_ifs at h2 with hb1 hb2 hb3 <;>
        cases h1 <;> cases h2 <;>
        simp only [List.getElem?_cons_succ, List.getElem?_cons_zero,
          Option.some.injEq] at h3 h4 <;>
        subst h3 <;> subst h4 <;> simp only [Option.some.injEq] at h5 h6 <;>
        first | (exfalso; omega) | simp_all)
    (by decide) (by decide) (by decide) (by decide) rfl rfl
    (Or.inl (by decide)) (Or.inl (by decide)) rfl

/-! ### The loop of GenerateWorld -/

theorem generateRoom_of_ne {R : Type} (ops : RandOps R) (p : Provider) (w : World R)
    (h : Heap) (description : String) (exits : List String) (hne : description ≠ "") :
    generateRoom ops p w h description exits
      = (.ok h.rooms.length, { w with rng := (ops.Int63 w.rng).2 },
          allocRoom h (newRoom ops p w h description)
            (exits.foldl (fun m e => mapSet m e "") [])) := by
  simp [generateRoom, hne]

theorem generateRoom_of_empty {R : Type} (ops : RandOps R) (p : Provider) (w : World R)
    (h : Heap) (exits : List String) :
    generateRoom ops p w h "" exits = (.error "room description cannot be empty", w, h) := by
  simp [generateRoom]

theorem allocRoom_rooms_new (h : Heap) (room : Room) (m : GoMap String) :
    (allocRoom h room m).rooms[h.rooms.length]? = some room := by
  simp [allocRoom]

theorem ConnectRooms_world {R : Type} (w : World R) (h : Heap) (s t : String)
    (d : Direction) : (ConnectRooms w h s t d).2.1 = w := by
  unfold ConnectRooms
  dsimp only
  repeat' split
  all_goals rfl

theorem growStep_next_cases {R : Type} (ops : RandOps R) (p : Provider) (prompt : String)
    (rem rem' : Int) (cur cur' : List Nat) (w w' : World R) (h h' : Heap)
    (hstep : growStep ops p prompt rem cur w h = .next rem' cur' w' h') :
    (rem' = rem ∧ cur' = cur ∧ h' = h ∧
      w'.Seed = w.Seed ∧ w'.Rooms = w.Rooms ∧ w'.Scenes = w.Scenes) ∨
    (∃ (sourcePtr : Nat) (sourceRoom : Room) (direction : Direction) (w2 : World R)
        (h4 : Heap),
      sourcePtr ∈ cur ∧ h.rooms[sourcePtr]? = some sourceRoom ∧
      direction ∈ availableDirections h sourceRoom ∧
      w2.Seed = w.Seed ∧ w2.Rooms = w.Rooms ∧ w2.Scenes = w.Scenes ∧
      ConnectRooms { w2 with rng := (ops.Int63 w2.rng).2 }
          (allocRoom h (newRoom ops p w2 h (generateDirectionalPrompt prompt direction))
            [(GetOppositeDirection direction, "")])
          sourceRoom.ID (newRoom ops p w2 h (generateDirectionalPrompt prompt direction)).ID
          direction
        = (.ok, { w2 with rng := (ops.Int63 w2.rng).2 }, h4) ∧
      AddRoom { w2 with rng := (ops.Int63 w2.rng).2 } h4 h.rooms.length = (.ok, w', h') ∧
      rem' = rem - 1 ∧ cur' = cur ++ [h.rooms.length]) := by
  unfold growStep at hstep
  split at hstep
  · cases hstep
  · split at hstep
    · cases hstep
    · rename_i sourcePtr hsrc
      split at hstep
      · cases hstep
      · rename_i sourceRoom hroom
        dsimp only at hstep
        split at hstep
        · cases hstep
          exact Or.inl ⟨rfl, rfl, rfl, rfl, rfl, rfl⟩
        · split at hstep
          · cases hstep
          · rename_i direction hdir
            by_cases hp : generateDirectionalPrompt prompt direction = ""
            · rw [hp, generateRoom_of_empty] at hstep
              cases hstep
            · rw [generateRoom_of_ne _ _ _ _ _ _ hp] at hstep
              dsimp only at hstep
              rw [allocRoom_rooms_new] at hstep
              dsimp only at hstep
              split at hstep
              · cases hstep
              · cases hstep
              · rename_i w4 h4 hconn
                have hw4 := congrArg (fun x : Status × World R × Heap => x.2.1) hconn
                dsimp only at hw4
                rw [ConnectRooms_world] at hw4
                subst hw4
                split at hstep
                · rename_i w5 h5 hadd
                  cases hstep
                  refine Or.inr ⟨sourcePtr, sourceRoom, direction,
                    { w with rng := (ops.Intn (availableDirections h sourceRoom).length
                        (ops.Intn cur.length w.rng).2).2 }, h4,
                    List.getElem?_mem hsrc, hroom, List.getElem?_mem hdir,
                    rfl, rfl, rfl, ?_, ?_, rfl, rfl⟩
                  · exact hconn
                  · exact hadd
                · cases hstep

theorem AddRoom_ok_shape {R : Type} (w w' : World R) (h h' : Heap) (p : Nat)
    (hres : AddRoom w h p = (.ok, w', h')) :
    ∃ r sm, h.rooms[p]? = some r ∧ w.Scenes = some sm ∧
      w' = { w with Rooms := some (mapSet (w.Rooms.getD []) r.ID p),
                    Scenes := some (mapSet sm r.ID h.scenes.length) } ∧
      h' = { h with scenes := h.scenes ++ [sceneOf r] } := by
  unfold AddRoom at hres
  cases hr : h.rooms[p]? with
  | none => simp [hr] at hres
  | some r =>
    cases hsc : w.Scenes with
    | none =>
      cases hro : w.Rooms <;> simp [hr, hsc, hro] at hres
    | some sm =>
      refine ⟨r, sm, rfl, rfl, ?_, ?_⟩
      · cases hro : w.Rooms <;> simp [hr, hsc, hro] at hres <;> rw [← hres.1] <;>
          simp [hro, hsc]
      · cases hro : w.Rooms <;> simp [hr, hsc, hro] at hres <;> rw [← hres.2]

theorem growStep_stop_not_ok {R : Type} (ops : RandOps R) (p : Provider) (prompt : String)
    (rem : Int) (cur : List Nat) (w : World R) (h : Heap) (res : Status × World R × Heap)
    (hstep : growStep ops p prompt rem cur w h = .stop res) : res.1 ≠ .ok := by
  unfold growStep at hstep
  dsimp only at hstep
  repeat' split at hstep
  all_goals first
    | (cases hstep; done)
    | (cases hstep; intro hc; cases hc; done)
    | (cases hstep; intro hc; dsimp only at hc; subst hc; simp_all)

theorem loopExit_ok {R : Type} (L rem : Int) (w w' : World R) (h h' : Heap)
    (hres : loopExit L rem w h = (.ok, w', h')) : rem ≤ 0 ∧ w' = w ∧ h' = h := by
  unfold loopExit at hres
  split at hres
  · cases hres
  · rename_i hrem
    cases hres
    exact ⟨by omega, rfl, rfl⟩

theorem mapGet_singleton {V : Type} (id k : String) (p q : V)
    (hget : mapGet [(id, p)] k = some q) : id = k ∧ q = p := by
  simp only [mapGet] at hget
  split_ifs at hget with hk
  cases hget
  exact ⟨hk, rfl⟩

theorem growStep_preserves_single {R : Type} (ops : RandOps R) (p : Provider)
    (prompt : String) (rem rem' : Int) (cur cur' : List Nat) (w w' : World R) (h h' : Heap)
    (hinv : SingleFreshRoom w h)
    (hstep : growStep ops p prompt rem cur w h = .next rem' cur' w' h') :
    SingleFreshRoom w' h' := by
  obtain ⟨id, p0, r0, e0, m0, hR, hr0, he0, hm0, hall⟩ := hinv
  rcases growStep_next_cases ops p prompt rem rem' cur cur' w w' h h' hstep with
    ⟨_, _, hh, _, hrooms, _⟩ | ⟨sp, sr, dir, w2, h4, _, _, _, _, hR2, _, hconn, hadd, _, _⟩
  · subst hh
    exact ⟨id, p0, r0, e0, m0, by rw [hrooms, hR], hr0, he0, hm0, hall⟩
  · obtain ⟨ps, pt, rs, rt, es, et, ms, mt, hs, ht, hrs, hrt, hes, het, hms, hmt, _, hh4⟩ :=
      ConnectRooms_ok_shape _ _ _ _ _ _ _ hconn
    have hRooms3 : w2.Rooms = some [(id, p0)] := hR2.trans hR
    simp only [GetRoom, hRooms3] at hs ht
    obtain ⟨hid1, hps⟩ := mapGet_singleton _ _ _ _ hs
    obtain ⟨hid2, hpt⟩ := mapGet_singleton _ _ _ _ ht
    rw [hps] at hrs
    rw [hpt] at hrt
    have hp0 : p0 < h.rooms.length := by
      rcases List.getElem?_eq_some.mp hr0 with ⟨hlt, _⟩
      exact hlt
    have he0lt : e0 < h.exits.length := by
      rcases List.getElem?_eq_some.mp hm0 with ⟨hlt, _⟩
      exact hlt
    simp only [allocRoom, List.getElem?_append_left hp0] at hrs hrt
    rw [hr0] at hrs hrt
    cases hrs
    cases hrt
    rw [he0] at hes het
    cases hes
    cases het
    obtain ⟨r1, sm, hr1, _, hw', hh'⟩ := AddRoom_ok_shape _ _ _ _ _ hadd
    have hr1' : r1 = newRoom ops p w2 h (generateDirectionalPrompt prompt dir) := by
      rw [hh4] at hr1
      simp only [allocRoom, List.getElem?_concat_length] at hr1
      cases hr1
      rfl
    subst hr1'
    refine ⟨(newRoom ops p w2 h (generateDirectionalPrompt prompt dir)).ID, h.rooms.length,
      newRoom ops p w2 h (generateDirectionalPrompt prompt dir), h.exits.length,
      [(GetOppositeDirection dir, "")], ?_, ?_, rfl, ?_, ?_⟩
    · rw [hw']
      simp only [hRooms3, Option.getD_some, mapSet, hid2, if_true]
    · rw [hh', hh4]
      simp [allocRoom]
    · rw [hh', hh4]
      have hne : e0 ≠ h.exits.length := by omega
      simp only [allocRoom]
      rw [List.getElem?_set_ne hne, List.getElem?_set_ne hne]
      simp
    · intro k v hkv
      simp only [mapGet] at hkv
      split_ifs at hkv
      cases hkv
      rfl

theorem growLoop_ok_single {R : Type} (ops : RandOps R) (p : Provider) (prompt : String)
    (L : Int) (budget : Nat) :
    ∀ (rem : Int) (cur : List Nat) (w w' : World R) (h h' : Heap),
      SingleFreshRoom w h →
      growLoop ops p prompt L budget rem cur w h = (.ok, w', h') →
      SingleFreshRoom w' h' := by
  induction budget with
  | zero =>
    intro rem cur w w' h h' hinv hres
    simp only [growLoop] at hres
    obtain ⟨_, hw, hh⟩ := loopExit_ok _ _ _ _ _ _ hres
    rw [hw, hh]
    exact hinv
  | succ b ih =>
    intro rem cur w w' h h' hinv hres
    simp only [growLoop] at hres
    split at hres
    · obtain ⟨_, hw, hh⟩ := loopExit_ok _ _ _ _ _ _ hres
      rw [hw, hh]
      exact hinv
    · split at hres
      · rename_i res hstop
        have hno := growStep_stop_not_ok _ _ _ _ _ _ _ _ hstop
        rw [hres] at hno
        exact absurd rfl hno
      · rename_i rem1 cur1 w1 h1 hnext
        exact ih rem1 cur1 w1 w' h1 h' (growStep_preserves_single _ _ _ _ _ _ _ _ _ _ _
          hinv hnext) hres

/-- On invalid input `GenerateWorld` returns at once, with the state it was given. -/
theorem GenerateWorld_invalid {R : Type} (ops : RandOps R) (p : Provider) (w : World R)
    (h : Heap) (prompt : String) (n : Int) (hbad : n ≤ 0 ∨ prompt = "") :
    ∃ msg, GenerateWorld ops p w h prompt n = (.error msg, w, h) := by
  unfold GenerateWorld
  by_cases hn : n ≤ 0
  · simp only [hn, if_true]
    exact ⟨_, rfl⟩
  · rcases hbad with hb | hb
    · exact absurd hb hn
    · simp only [hn, hb, if_false, if_true]
      exact ⟨_, rfl⟩

theorem append_eq_empty (s t : String) (hc : s ++ t = "") : s = "" := by
  have h1 := congrArg String.data hc
  rw [String.data_append] at h1
  exact String.ext (List.append_eq_nil.mp h1).1

theorem generateDirectionalPrompt_ne (prompt d : String) (hp : prompt ≠ "") :
    generateDirectionalPrompt prompt d ≠ "" := by
  unfold generateDirectionalPrompt
  split_ifs <;> first | exact hp | exact fun hc => hp (append_eq_empty _ _ hc)

/-- On valid input `GenerateWorld` registers the hub and enters its loop. -/
theorem GenerateWorld_valid {R : Type} (ops : RandOps R) (p : Provider) (w : World R)
    (h : Heap) (prompt : String) (n : Int) (hn : 0 < n) (hp : prompt ≠ "") :
    GenerateWorld ops p w h prompt n
      = growLoop ops p prompt (wrapInt64 (n * 10)) (wrapInt64 (n * 10)).toNat (n - 1)
          [h.rooms.length] (hubWorld ops w h) (hubHeap ops p w h prompt) := by
  have hn' : ¬ n ≤ 0 := by omega
  have hd : prompt ++ " - Central Hub" ≠ "" := fun hc => hp (append_eq_empty _ _ hc)
  unfold GenerateWorld
  simp only [hn', hp, if_false]
  rw [generateRoom_of_ne _ _ _ _ _ _ hd]
  simp only [AddRoom, allocRoom_rooms_new]
  rfl

theorem hub_single_fresh {R : Type} (ops : RandOps R) (p : Provider) (w : World R)
    (h : Heap) (prompt : String) :
    SingleFreshRoom (hubWorld ops w h) (hubHeap ops p w h prompt) := by
  refine ⟨hubID ops w, h.rooms.length, hubRoom ops p w h prompt, h.exits.length, [],
    rfl, ?_, rfl, ?_, ?_⟩
  · simp [hubHeap]
  · simp [hubHeap]
  · intro k v hkv
    simp [mapGet] at hkv

theorem GenerateWorld_ok_single {R : Type} (ops : RandOps R) (p : Provider) (w w' : World R)
    (h h' : Heap) (prompt : String) (n : Int)
    (hres : GenerateWorld ops p w h prompt n = (.ok, w', h')) : SingleFreshRoom w' h' := by
  by_cases hn : n ≤ 0
  · obtain ⟨msg, hmsg⟩ := GenerateWorld_invalid ops p w h prompt n (Or.inl hn)
    rw [hres] at hmsg
    cases hmsg
  · by_cases hp : prompt = ""
    · obtain ⟨msg, hmsg⟩ := GenerateWorld_invalid ops p w h prompt n (Or.inr hp)
      rw [hres] at hmsg
      cases hmsg
    · rw [GenerateWorld_valid ops p w h prompt n (by omega) hp] at hres
      exact growLoop_ok_single _ _ _ _ _ _ _ _ _ _ _ (hub_single_fresh ops p w h prompt) hres

theorem hub_available {R : Type} (ops : RandOps R) (p : Provider) (w : World R) (h : Heap)
    (prompt : String) :
    availableDirections (hubHeap ops p w h prompt) (hubRoom ops p w h prompt)
      = directions := by
  have hl : ∀ d, exitsLookup (hubHeap ops p w h prompt) (hubRoom ops p w h prompt) d
      = none := by
    intro d
    simp [exitsLookup, exitsAt, hubRoom, newRoom, hubHeap, mapGet]
  unfold availableDirections
  simp [hl]

theorem growStep_hub_fresh {R : Type} (ops : RandOps R) (p : Provider) (w : World R)
    (h : Heap) (prompt : String) (rem : Int) (hp : prompt ≠ "")
    (hfresh : hubID ops w ≠ firstAddedID ops w) :
    ∃ res, growStep ops p prompt rem [h.rooms.length] (hubWorld ops w h)
        (hubHeap ops p w h prompt) = .stop res ∧
      res.1 ≠ .ok ∧ res.2.1.Rooms = some [(hubID ops w, h.rooms.length)] ∧
      res.2.2.exits[h.exits.length]? = some [] ∧
      ((ops.Intn 1 (ops.Int63 w.rng).2).1 < 1 →
        (ops.Intn 4 (ops.Intn 1 (ops.Int63 w.rng).2).2).1 < 4 →
        res.1 = .error ("failed to connect rooms: " ++
          ("target room " ++ firstAddedID ops w ++ " not found"))) := by
  have hex0 : (hubHeap ops p w h prompt).exits[h.exits.length]? = some [] := by
    simp [hubHeap]
  unfold growStep
  simp only [List.length_singleton, one_ne_zero, if_false]
  cases hi : [h.rooms.length][(ops.Intn 1 (hubWorld ops w h).rng).1]? with
  | none =>
    refine ⟨_, rfl, by simp, rfl, hex0, ?_⟩
    intro h1 _
    have h0 : (ops.Intn 1 (ops.Int63 w.rng).2).1 = 0 := by omega
    simp [hubWorld, h0] at hi
  | some sp =>
    have hsp : sp = h.rooms.length := by
      have := List.getElem?_mem hi
      simpa using this
    subst hsp
    have hroom : (hubHeap ops p w h prompt).rooms[h.rooms.length]?
        = some (hubRoom ops p w h prompt) := by simp [hubHeap]
    simp only [hroom, hub_available]
    have hlen : directions.length = 4 := rfl
    simp only [hlen]
    have h40 : ¬ (4 : Nat) = 0 := by decide
    simp only [h40, if_false]
    cases hj : directions[(ops.Intn 4 (ops.Intn 1 (hubWorld ops w h).rng).2).1]? with
    | none =>
      refine ⟨_, rfl, by simp, rfl, hex0, ?_⟩
      intro _ h4
      have hlt : (ops.Intn 4 (ops.Intn 1 (hubWorld ops w h).rng).2).1 < directions.length := by
        rw [hlen]
        exact h4
      rw [List.getElem?_eq_getElem hlt] at hj
      cases hj
    | some dir =>
      have hpd := generateDirectionalPrompt_ne prompt dir hp
      simp only []
      rw [generateRoom_of_ne _ _ _ _ _ _ hpd]
      simp only [allocRoom_rooms_new]
      have key : ∀ (W3 : World R) (H3 : Heap),
          W3.Rooms = some [(hubID ops w, h.rooms.length)] →
          ConnectRooms W3 H3 (hubID ops w) (firstAddedID ops w) dir
            = (.error ("target room " ++ firstAddedID ops w ++ " not found"), W3, H3) := by
        intro W3 H3 hW
        have hs : GetRoom W3 (hubID ops w) = some h.rooms.length := by
          simp [GetRoom, hW, mapGet]
        have ht : GetRoom W3 (firstAddedID ops w) = none := by
          simp [GetRoom, hW, mapGet, hfresh]
        simp [ConnectRooms, hs, ht]
      have hid1 : (hubRoom ops p w h prompt).ID = hubID ops w := rfl
      have hid2 : ∀ (H : Heap) (d : String),
          (newRoom ops p
            { Seed := (hubWorld ops w h).Seed, Rooms := (hubWorld ops w h).Rooms,
              Scenes := (hubWorld ops w h).Scenes,
              rng := (ops.Intn 4 (ops.Intn 1 (hubWorld ops w h).rng).2).2 } H d).ID
            = firstAddedID ops w := fun _ _ => rfl
      rw [hid1, hid2, key _ _ rfl]
      refine ⟨_, rfl, by simp, rfl, ?_, fun _ _ => rfl⟩
      have hlt : h.exits.length < (hubHeap ops p w h prompt).exits.length := by
        simp [hubHeap]
      show ((hubHeap ops p w h prompt).exits ++ _)[h.exits.length]? = some []
      rw [List.getElem?_append_left hlt]
      exact hex0

/-- When the ID drawn for the first additional room differs from the hub's ID,
`GenerateWorld` asked for two rooms or more does not succeed, and leaves the hub as the
only registered room, with an empty `Exits` map. -/
theorem GenerateWorld_fresh_second_id {R : Type} (ops : RandOps R) (p : Provider)
    (w : World R) (h : Heap) (prompt : String) (n : Int) (hn : 2 ≤ n) (hp : prompt ≠ "")
    (hfresh : hubID ops w ≠ firstAddedID ops w) :
    (GenerateWorld ops p w h prompt n).1 ≠ .ok ∧
    (GenerateWorld ops p w h prompt n).2.1.Rooms = some [(hubID ops w, h.rooms.length)] ∧
    (GenerateWorld ops p w h prompt n).2.2.exits[h.exits.length]? = some [] := by
  rw [GenerateWorld_valid ops p w h prompt n (by omega) hp]
  have hex0 : (hubHeap ops p w h prompt).exits[h.exits.length]? = some [] := by
    simp [hubHeap]
  have hrem : ¬ (n - 1 ≤ 0) := by omega
  have hrem' : n - 1 > 0 := by omega
  cases hb : (wrapInt64 (n * 10)).toNat with
  | zero =>
    simp only [growLoop, loopExit, hrem', if_true]
    exact ⟨by simp, rfl, hex0⟩
  | succ b =>
    obtain ⟨res, hstop, h1, h2, h3, _⟩ :=
      growStep_hub_fresh ops p w h prompt (n - 1) hp hfresh
    simp only [growLoop, hrem, if_false, hstop]
    exact ⟨h1, h2, h3⟩

/-! ### GenerateWorld: room count and connections -/

/-- C2, evaluated on the code. On a fresh `NewWorld(seed)` and a non-empty prompt, whenever
the ID drawn for the first additional room differs from the hub's ID,
`GenerateWorld(prompt, 3)` does not return nil and leaves one room in the world, not
three: the new room is handed to `ConnectRooms` before `AddRoom` has registered it. -/
theorem GenerateWorld_three_rooms_not_ok {R : Type} (ops : RandOps R) (aiProvider : Provider)
    (seed : Int) (h : Heap) (basePrompt : String) (hp : basePrompt ≠ "")
    (hfresh : hubID ops (NewWorld ops seed) ≠ firstAddedID ops (NewWorld ops seed)) :
    (GenerateWorld ops aiProvider (NewWorld ops seed) h basePrompt 3).1 ≠ .ok ∧
    roomCount (GenerateWorld ops aiProvider (NewWorld ops seed) h basePrompt 3).2.1 = 1 := by
  obtain ⟨h1, h2, _⟩ := GenerateWorld_fresh_second_id ops aiProvider (NewWorld ops seed) h
    basePrompt 3 (by decide) hp hfresh
  refine ⟨h1, ?_⟩
  simp [roomCount, h2, mapKeys]

/-- Witness of C2: the call of `TestGenerateWorld`, seed 42 and "A mysterious castle",
with a counter as random source. -/
theorem GenerateWorld_three_rooms_not_ok_witness :
    (GenerateWorld counterRand none (NewWorld counterRand 42) Heap.empty
      "A mysterious castle" 3).1 ≠ .ok ∧
    roomCount (GenerateWorld counterRand none (NewWorld counterRand 42) Heap.empty
      "A mysterious castle" 3).2.1 = 1 :=
  GenerateWorld_three_rooms_not_ok counterRand none 42 Heap.empty "A mysterious castle"
    (by decide) (by decide)

/-! ### GenerateWorld on different heaps -/

theorem getElem?_append_add {α : Type} (pre l : List α) (i : Nat) :
    (pre ++ l)[pre.length + i]? = l[i]? := by
  rw [List.getElem?_append_right (Nat.le_add_right _ _), Nat.add_sub_cancel_left]

theorem set_append_add {α : Type} (pre l : List α) (i : Nat) (a : α) :
    (pre ++ l).set (pre.length + i) a = pre ++ l.set i a := by
  rw [List.set_append_right _ _ (Nat.le_add_right _ _), Nat.add_sub_cancel_left]

theorem mapGet_shiftMap (b : Nat) (m : GoMap Nat) (k : String) :
    mapGet (shiftMap b m) k = (mapGet m k).map (fun p => b + p) := by
  induction m with
  | nil => rfl
  | cons kv rest ih =>
    obtain ⟨k', v⟩ := kv
    by_cases hk : k' = k
    · simp [shiftMap, mapGet, hk]
    · have ih' : mapGet (List.map (fun kv => (kv.1, b + kv.2)) rest) k
          = (mapGet rest k).map (fun p => b + p) := ih
      simp [shiftMap, mapGet, hk, ih']

theorem mapSet_shiftMap (b : Nat) (m : GoMap Nat) (k : String) (v : Nat) :
    mapSet (shiftMap b m) k (b + v) = shiftMap b (mapSet m k v) := by
  induction m with
  | nil => rfl
  | cons kv rest ih =>
    obtain ⟨k', v'⟩ := kv
    by_cases hk : k' = k
    · simp [shiftMap, mapSet, hk]
    · have ih' : mapSet (List.map (fun kv => (kv.1, b + kv.2)) rest) k (b + v)
          = List.map (fun kv => (kv.1, b + kv.2)) (mapSet rest k v) := ih
      simp [shiftMap, mapSet, hk, ih']

theorem shiftHeap_rooms (pre h : Heap) (p : Nat) :
    (shiftHeap pre h).rooms[pre.rooms.length + p]? = (h.rooms[p]?).map (shiftRoom pre) := by
  simp [shiftHeap, getElem?_append_add]

theorem shiftHeap_exitsAt (pre h : Heap) (e : Nat) (k : String) :
    exitsAt (shiftHeap pre h) (pre.exits.length + e) k = exitsAt h e k := by
  simp [exitsAt, shiftHeap, getElem?_append_add]

theorem shift_exitsLookup (pre h : Heap) (r : Room) (k : String) :
    exitsLookup (shiftHeap pre h) (shiftRoom pre r) k = exitsLookup h r k := by
  cases he : r.Exits with
  | none => simp [exitsLookup, shiftRoom, he]
  | some e => simp [exitsLookup, shiftRoom, he, shiftHeap_exitsAt]

theorem shift_availableDirections (pre h : Heap) (r : Room) :
    availableDirections (shiftHeap pre h) (shiftRoom pre r) = availableDirections h r := by
  simp [availableDirections, shift_exitsLookup]

theorem shift_GetRoom {R : Type} (pre : Heap) (w : World R) (id : String) :
    GetRoom (shiftWorld pre w) id = (GetRoom w id).map (fun p => pre.rooms.length + p) := by
  cases hr : w.Rooms with
  | none => simp [GetRoom, shiftWorld, hr]
  | some m => simp [GetRoom, shiftWorld, hr, mapGet_shiftMap]

theorem shift_exitsAssign (pre h : Heap) (p : Nat) (k v : String) :
    exitsAssign (shiftHeap pre h) (pre.rooms.length + p) k v
      = (exitsAssign h p k v).map (shiftHeap pre) := by
  unfold exitsAssign
  rw [shiftHeap_rooms]
  cases hr : h.rooms[p]? with
  | none => simp
  | some r =>
    cases he : r.Exits with
    | none => simp [shiftRoom, he]
    | some e =>
      have hx : (shiftHeap pre h).exits[pre.exits.length + e]? = h.exits[e]? := by
        simp [shiftHeap, getElem?_append_add]
      cases hm : h.exits[e]? with
      | none => simp [shiftRoom, he, hx, hm]
      | some m =>
        simp [shiftRoom, he, hx, hm]
        simp [shiftHeap, set_append_add]

theorem shift_ConnectRooms {R : Type} (pre : Heap) (w : World R) (h : Heap)
    (s t : String) (d : Direction) :
    ConnectRooms (shiftWorld pre w) (shiftHeap pre h) s t d
      = shiftResult pre (ConnectRooms w h s t d) := by
  unfold ConnectRooms
  rw [shift_GetRoom, shift_GetRoom]
  cases hs : GetRoom w s with
  | none => rfl
  | some ps =>
    cases ht : GetRoom w t with
    | none => rfl
    | some pt =>
      simp only [Option.map_some', shift_exitsAssign]
      cases h1 : exitsAssign h ps d t with
      | none => rfl
      | some h1v =>
        simp only [Option.map_some', shift_exitsAssign]
        cases h2 : exitsAssign h1v pt (GetOppositeDirection d) s with
        | none => rfl
        | some h2v => rfl

theorem sceneOf_shiftRoom (pre : Heap) (r : Room) :
    sceneOf (shiftRoom pre r) = shiftScene pre (sceneOf r) := rfl

theorem shift_AddRoom {R : Type} (pre : Heap) (w : World R) (h : Heap) (p : Nat) :
    AddRoom (shiftWorld pre w) (shiftHeap pre h) (pre.rooms.length + p)
      = shiftResult pre (AddRoom w h p) := by
  unfold AddRoom
  rw [shiftHeap_rooms]
  cases hr : h.rooms[p]? with
  | none =>
    cases hro : w.Rooms <;> simp [shiftWorld, shiftResult, hro, shiftMap]
  | some r =>
    have hlen : (shiftHeap pre h).scenes.length = pre.scenes.length + h.scenes.length := by
      simp [shiftHeap]
    have hid : (shiftRoom pre r).ID = r.ID := rfl
    cases hro : w.Rooms <;> cases hsc : w.Scenes <;>
      simp [shiftWorld, shiftResult, hro, hsc, hlen, hid, mapSet_shiftMap,
        sceneOf_shiftRoom, shiftHeap] <;>
      try rfl

theorem shift_newRoom {R : Type} (ops : RandOps R) (p : Provider) (pre : Heap)
    (w : World R) (h : Heap) (d : String) :
    newRoom ops p (shiftWorld pre w) (shiftHeap pre h) d
      = shiftRoom pre (newRoom ops p w h d) := by
  simp [newRoom, shiftRoom, shiftWorld, shiftHeap]

theorem shift_generateRoom {R : Type} (ops : RandOps R) (p : Provider) (pre : Heap)
    (w : World R) (h : Heap) (d : String) (exits : List String) :
    generateRoom ops p (shiftWorld pre w) (shiftHeap pre h) d exits
      = ((generateRoom ops p w h d exits).1.map (fun q => pre.rooms.length + q),
          shiftWorld pre (generateRoom ops p w h d exits).2.1,
          shiftHeap pre (generateRoom ops p w h d exits).2.2) := by
  by_cases hd : d = ""
  · subst hd
    simp only [generateRoom_of_empty]
    rfl
  · simp only [generateRoom_of_ne _ _ _ _ _ _ hd, shift_newRoom]
    simp [shiftHeap, allocRoom, shiftWorld, Except.map]

theorem shift_allocRoom (pre h : Heap) (r : Room) (m : GoMap String) :
    allocRoom (shiftHeap pre h) (shiftRoom pre r) m = shiftHeap pre (allocRoom h r m) := by
  simp [allocRoom, shiftHeap]

theorem shiftHeap_rooms_length (pre h : Heap) :
    (shiftHeap pre h).rooms.length = pre.rooms.length + h.rooms.length := by
  simp [shiftHeap]

theorem shift_growStep {R : Type} (ops : RandOps R) (p : Provider) (prompt : String)
    (pre : Heap) (rem : Int) (cur : List Nat) (w : World R) (h : Heap) :
    growStep ops p prompt rem (cur.map (fun q => pre.rooms.length + q))
        (shiftWorld pre w) (shiftHeap pre h)
      = shiftStep pre (growStep ops p prompt rem cur w h) := by
  unfold growStep
  have hrng : (shiftWorld pre w).rng = w.rng := rfl
  simp only [List.length_map, hrng, List.getElem?_map]
  by_cases hc : cur.length = 0
  · simp only [hc, if_true]
    rfl
  · simp only [hc, if_false]
    cases hsrc : cur[(ops.Intn cur.length w.rng).1]? with
    | none => rfl
    | some sp =>
      simp only [Option.map_some', shiftHeap_rooms]
      cases hroom : h.rooms[sp]? with
      | none => rfl
      | some sr =>
        simp only [Option.map_some', shift_availableDirections]
        by_cases ha : (availableDirections h sr).length = 0
        · simp only [ha, if_true]
          rfl
        · simp only [ha, if_false]
          cases hdir : (availableDirections h sr)[(ops.Intn (availableDirections h sr).length
              (ops.Intn cur.length w.rng).2).1]? with
          | none => rfl
          | some dir =>
            simp only []
            by_cases hp : generateDirectionalPrompt prompt dir = ""
            · simp only [hp, generateRoom_of_empty]
              rfl
            · simp only [generateRoom_of_ne _ _ _ _ _ _ hp]
              have e1 : ∀ X : R, ({ shiftWorld pre w with rng := X } : World R)
                  = shiftWorld pre { w with rng := X } := fun _ => rfl
              have e2 : ∀ r : Room, (shiftRoom pre r).ID = r.ID := fun _ => rfl
              simp only [e1, e2, shift_newRoom, shift_allocRoom, shiftHeap_rooms_length,
                shiftHeap_rooms, allocRoom_rooms_new, Option.map_some', shift_ConnectRooms]
              rcases hconn : ConnectRooms
                  ({ w with rng := (ops.Int63 (ops.Intn (availableDirections h sr).length
                      (ops.Intn cur.length w.rng).2).2).2 } : World R)
                  (allocRoom h (newRoom ops p
                      ({ w with rng := (ops.Intn (availableDirections h sr).length
                        (ops.Intn cur.length w.rng).2).2 } : World R) h
                      (generateDirectionalPrompt prompt dir))
                    (List.foldl (fun m e => mapSet m e "") [] [GetOppositeDirection dir]))
                  sr.ID
                  (newRoom ops p
                      ({ w with rng := (ops.Intn (availableDirections h sr).length
                        (ops.Intn cur.length w.rng).2).2 } : World R) h
                      (generateDirectionalPrompt prompt dir)).ID dir with ⟨st, w4, h4⟩
              cases st with
              | error e => rfl
              | panic m => rfl
              | ok =>
                simp only [shiftResult, shift_AddRoom]
                rcases hadd : AddRoom w4 h4 h.rooms.length with ⟨st5, w5, h5⟩
                cases st5 with
                | ok => simp [shiftResult, shiftStep]
                | error e => rfl
                | panic m => rfl

theorem shift_loopExit {R : Type} (pre : Heap) (L rem : Int) (w : World R) (h : Heap) :
    loopExit L rem (shiftWorld pre w) (shiftHeap pre h)
      = shiftResult pre (loopExit L rem w h) := by
  unfold loopExit
  split <;> rfl

theorem shift_growLoop {R : Type} (ops : RandOps R) (p : Provider) (prompt : String)
    (L : Int) (pre : Heap) (budget : Nat) :
    ∀ (rem : Int) (cur : List Nat) (w : World R) (h : Heap),
      growLoop ops p prompt L budget rem (cur.map (fun q => pre.rooms.length + q))
          (shiftWorld pre w) (shiftHeap pre h)
        = shiftResult pre (growLoop ops p prompt L budget rem cur w h) := by
  induction budget with
  | zero =>
    intro rem cur w h
    simp only [growLoop, shift_loopExit]
  | succ b ih =>
    intro rem cur w h
    simp only [growLoop, shift_loopExit, shift_growStep]
    by_cases hrem : rem ≤ 0
    · simp only [hrem, if_true]
    · simp only [hrem, if_false]
      cases hstep : growStep ops p prompt rem cur w h with
      | stop res => rfl
      | next rem1 cur1 w1 h1 =>
        simp only [shiftStep]
        exact ih rem1 cur1 w1 h1

theorem shiftHeap_empty (pre : Heap) : shiftHeap pre Heap.empty = pre := by
  simp [shiftHeap, Heap.empty]

/-- Relocation of `GenerateWorld`: on valid input, the call on any heap `pre` is the call
on the empty heap, laid out behind the objects of `pre`. -/
theorem shift_GenerateWorld {R : Type} (ops : RandOps R) (p : Provider) (w : World R)
    (pre : Heap) (prompt : String) (n : Int) (hn : 0 < n) (hp : prompt ≠ "") :
    GenerateWorld ops p w pre prompt n
      = shiftResult pre (GenerateWorld ops p w Heap.empty prompt n) := by
  rw [GenerateWorld_valid ops p w pre prompt n hn hp,
    GenerateWorld_valid ops p w Heap.empty prompt n hn hp, ← shift_growLoop]
  have h1 : hubWorld ops w pre = shiftWorld pre (hubWorld ops w Heap.empty) := by
    simp [hubWorld, shiftWorld, shiftMap, Heap.empty]
  have h2 : hubHeap ops p w pre prompt
      = shiftHeap pre (hubHeap ops p w Heap.empty prompt) := by
    simp [hubHeap, shiftHeap, hubRoom, newRoom, shiftRoom, shiftScene, sceneOf, Heap.empty]
  rw [h1, h2]
  simp [Heap.empty]

theorem shift_roomIDs {R : Type} (pre : Heap) (w : World R) :
    roomIDs (shiftWorld pre w) = roomIDs w := by
  cases hr : w.Rooms with
  | none => simp [roomIDs, shiftWorld, hr]
  | some m => simp [roomIDs, shiftWorld, hr, mapKeys, shiftMap, Function.comp_def]

theorem shift_exitsOfRoom {R : Type} (pre : Heap) (w : World R) (h : Heap) (id k : String) :
    exitsOfRoom (shiftWorld pre w) (shiftHeap pre h) id k = exitsOfRoom w h id k := by
  unfold exitsOfRoom
  rw [shift_GetRoom]
  cases hg : GetRoom w id with
  | none => rfl
  | some p =>
    simp only [Option.map_some', shiftHeap_rooms]
    cases hr : h.rooms[p]? with
    | none => rfl
    | some r => simp only [Option.map_some', shift_exitsLookup]

theorem enhanceDescription_of_returnsInput (p : Provider) (hp : ReturnsInput p)
    (d : String) : enhanceDescription p d = d := by
  cases p with
  | none => rfl
  | some g =>
    have hg : g d = .ok d := hp d
    simp [enhanceDescription, hg]

theorem generateRoom_of_returnsInput {R : Type} (ops : RandOps R) (p : Provider)
    (hp : ReturnsInput p) (w : World R) (h : Heap) (d : String) (exits : List String) :
    generateRoom ops p w h d exits = generateRoom ops none w h d exits := by
  simp [generateRoom, newRoom, enhanceDescription_of_returnsInput p hp,
    enhanceDescription_of_returnsInput none trivial]

theorem growStep_of_returnsInput {R : Type} (ops : RandOps R) (p : Provider)
    (hp : ReturnsInput p) (prompt : String) (rem : Int) (cur : List Nat) (w : World R)
    (h : Heap) :
    growStep ops p prompt rem cur w h = growStep ops none prompt rem cur w h := by
  simp only [growStep, generateRoom_of_returnsInput ops p hp]

theorem growLoop_of_returnsInput {R : Type} (ops : RandOps R) (p : Provider)
    (hp : ReturnsInput p) (prompt : String) (L : Int) (budget : Nat) :
    ∀ (rem : Int) (cur : List Nat) (w : World R) (h : Heap),
      growLoop ops p prompt L budget rem cur w h
        = growLoop ops none prompt L budget rem cur w h := by
  induction budget with
  | zero =>
    intro rem cur w h
    simp only [growLoop]
  | succ b ih =>
    intro rem cur w h
    simp only [growLoop, growStep_of_returnsInput ops p hp, ih]

theorem GenerateWorld_of_returnsInput {R : Type} (ops : RandOps R) (p : Provider)
    (hp : ReturnsInput p) (w : World R) (h : Heap) (prompt : String) (n : Int) :
    GenerateWorld ops p w h prompt n = GenerateWorld ops none w h prompt n := by
  simp only [GenerateWorld, generateRoom_of_returnsInput ops p hp,
    growLoop_of_returnsInput ops p hp]

/-! ### GenerateWorld: determinism -/

/-- C9. `GenerateWorld` is deterministic in `(seed, prompt, n)`: with description
collaborators that return their input unchanged (or none configured), two calls
`GenerateWorld(prompt, n)` on two fresh worlds built by `NewWorld` with the same seed, in
whatever heaps they run, end with the same status, the same room IDs and, for each room,
the same `Exits` mapping. -/
theorem GenerateWorld_deterministic {R : Type} (ops : RandOps R) (p1 p2 : Provider)
    (hp1 : ReturnsInput p1) (hp2 : ReturnsInput p2) (seed : Int) (h1 h2 : Heap)
    (basePrompt : String) (numRooms : Int) :
    (GenerateWorld ops p1 (NewWorld ops seed) h1 basePrompt numRooms).1
      = (GenerateWorld ops p2 (NewWorld ops seed) h2 basePrompt numRooms).1 ∧
    roomIDs (GenerateWorld ops p1 (NewWorld ops seed) h1 basePrompt numRooms).2.1
      = roomIDs (GenerateWorld ops p2 (NewWorld ops seed) h2 basePrompt numRooms).2.1 ∧
    ∀ id k,
      exitsOfRoom (GenerateWorld ops p1 (NewWorld ops seed) h1 basePrompt numRooms).2.1
          (GenerateWorld ops p1 (NewWorld ops seed) h1 basePrompt numRooms).2.2 id k
        = exitsOfRoom (GenerateWorld ops p2 (NewWorld ops seed) h2 basePrompt numRooms).2.1
          (GenerateWorld ops p2 (NewWorld ops seed) h2 basePrompt numRooms).2.2 id k := by
  rw [GenerateWorld_of_returnsInput ops p1 hp1, GenerateWorld_of_returnsInput ops p2 hp2]
  by_cases hbad : numRooms ≤ 0 ∨ basePrompt = ""
  · obtain ⟨m1, e1⟩ := GenerateWorld_invalid ops none (NewWorld ops seed) h1 basePrompt
      numRooms hbad
    obtain ⟨m2, e2⟩ := GenerateWorld_invalid ops none (NewWorld ops seed) h2 basePrompt
      numRooms hbad
    obtain ⟨m0, e0⟩ := GenerateWorld_invalid ops none (NewWorld ops seed) Heap.empty
      basePrompt numRooms hbad
    have hm : m1 = m2 := by
      have : ∀ (h : Heap), (GenerateWorld ops none (NewWorld ops seed) h basePrompt
          numRooms).1 = (GenerateWorld ops none (NewWorld ops seed) Heap.empty basePrompt
          numRooms).1 := by
        intro h
        unfold GenerateWorld
        rcases hbad with hb | hb
        · simp only [hb, if_true]
        · by_cases hn : numRooms ≤ 0
          · simp only [hn, if_true]
          · simp only [hn, hb, if_false, if_true]
      have a1 := this h1
      have a2 := this h2
      rw [e1, e0] at a1
      rw [e2, e0] at a2
      cases a1
      cases a2
      rfl
    rw [e1, e2, hm]
    exact ⟨rfl, rfl, fun _ _ => rfl⟩
  · have hn : 0 < numRooms := by
      by_contra hc
      exact hbad (Or.inl (by omega))
    have hp : basePrompt ≠ "" := fun hc => hbad (Or.inr hc)
    rw [shift_GenerateWorld ops none _ h1 basePrompt numRooms hn hp,
      shift_GenerateWorld ops none _ h2 basePrompt numRooms hn hp]
    simp only [shiftResult, shift_roomIDs, shift_exitsOfRoom]
    exact ⟨trivial, trivial, fun _ _ => trivial⟩

/-- Witness of C9: seed 12345 and three rooms, once with no collaborator on the empty heap,
once with the identity collaborator on a heap that already holds two rooms. -/
theorem GenerateWorld_deterministic_witness :
    (GenerateWorld counterRand none (NewWorld counterRand 12345) Heap.empty "castle" 3).1
      = (GenerateWorld counterRand (some fun s => .ok s) (NewWorld counterRand 12345)
          twoRoomHeap "castle" 3).1 ∧
    roomIDs (GenerateWorld counterRand none (NewWorld counterRand 12345) Heap.empty
        "castle" 3).2.1
      = roomIDs (GenerateWorld counterRand (some fun s => .ok s)
          (NewWorld counterRand 12345) twoRoomHeap "castle" 3).2.1 ∧
    ∀ id k,
      exitsOfRoom (GenerateWorld counterRand none (NewWorld counterRand 12345) Heap.empty
          "castle" 3).2.1
          (GenerateWorld counterRand none (NewWorld counterRand 12345) Heap.empty
          "castle" 3).2.2 id k
        = exitsOfRoom (GenerateWorld counterRand (some fun s => .ok s)
            (NewWorld counterRand 12345) twoRoomHeap "castle" 3).2.1
          (GenerateWorld counterRand (some fun s => .ok s)
            (NewWorld counterRand 12345) twoRoomHeap "castle" 3).2.2 id k :=
  GenerateWorld_deterministic counterRand none (some fun s => .ok s) trivial
    (fun _ => rfl) 12345 Heap.empty twoRoomHeap "castle" 3

/-! ### GenerateWorld: validation -/

/-- C4. For every world state, `GenerateWorld(prompt, n)` returns an error (a returned
error value, not a runtime panic) whenever `n <= 0` or `prompt` is empty. -/
theorem GenerateWorld_invalid_input_is_error {R : Type} (ops : RandOps R)
    (aiProvider : Provider) (w : World R) (h : Heap) (basePrompt : String) (numRooms : Int)
    (hbad : numRooms ≤ 0 ∨ basePrompt = "") :
    ∃ msg, (GenerateWorld ops aiProvider w h basePrompt numRooms).1 = .error msg := by
  obtain ⟨msg, hmsg⟩ := GenerateWorld_invalid ops aiProvider w h basePrompt numRooms hbad
  exact ⟨msg, by rw [hmsg]⟩

/-- Witness of C4: the test cases `zero_rooms` and `empty_prompt`. -/
theorem GenerateWorld_invalid_input_is_error_witness :
    (∃ msg, (GenerateWorld counterRand none (NewWorld counterRand 12345) Heap.empty
        "test world" 0).1 = .error msg) ∧
    (∃ msg, (GenerateWorld counterRand none (NewWorld counterRand 12345) Heap.empty
        "" 3).1 = .error msg) :=
  ⟨GenerateWorld_invalid_input_is_error counterRand none _ _ "test world" 0
      (Or.inl (by decide)),
   GenerateWorld_invalid_input_is_error counterRand none _ _ "" 3 (Or.inr rfl)⟩

/-- C5. When `GenerateWorld` fails validation (`n <= 0` or empty prompt) the world is left
exactly as it was: `Seed`, `Rooms`, `Scenes` and the random source are unchanged, and so
is every object of the heap; in particular the room set of a fresh world stays empty. -/
theorem GenerateWorld_invalid_input_no_mutation {R : Type} (ops : RandOps R)
    (aiProvider : Provider) (w : World R) (h : Heap) (basePrompt : String) (numRooms : Int)
    (seed : Int) (hbad : numRooms ≤ 0 ∨ basePrompt = "") :
    (GenerateWorld ops aiProvider w h basePrompt numRooms).2 = (w, h) ∧
    (GenerateWorld ops aiProvider (NewWorld ops seed) h basePrompt numRooms).2.1.Rooms
      = some [] := by
  obtain ⟨msg, hmsg⟩ := GenerateWorld_invalid ops aiProvider w h basePrompt numRooms hbad
  obtain ⟨msg2, hmsg2⟩ :=
    GenerateWorld_invalid ops aiProvider (NewWorld ops seed) h basePrompt numRooms hbad
  rw [hmsg, hmsg2]
  exact ⟨rfl, rfl⟩

/-- Witness of C5: `n = 0` on a fresh world with seed 12345. -/
theorem GenerateWorld_invalid_input_no_mutation_witness :
    (GenerateWorld counterRand none (NewWorld counterRand 12345) Heap.empty
        "test world" 0).2 = (NewWorld counterRand 12345, Heap.empty) ∧
    (GenerateWorld counterRand none (NewWorld counterRand 12345) Heap.empty
        "test world" 0).2.1.Rooms = some [] :=
  GenerateWorld_invalid_input_no_mutation counterRand none _ _ "test world" 0 12345
    (Or.inl (by decide))

/-! ### Save and LoadWorld -/

theorem prefix_getElem? {α : Type} (l1 l2 : List α) (hp : l1 <+: l2) (i : Nat) (a : α)
    (hi : l1[i]? = some a) : l2[i]? = some a := by
  obtain ⟨t, rfl⟩ := hp
  rcases List.getElem?_eq_some.mp hi with ⟨hlt, _⟩
  rw [List.getElem?_append_left hlt]
  exact hi

theorem Heap.Ext.refl (h : Heap) : Heap.Ext h h :=
  ⟨List.prefix_refl _, List.prefix_refl _, List.prefix_refl _, List.prefix_refl _⟩

theorem Heap.Ext.trans {h1 h2 h3 : Heap} (h12 : Heap.Ext h1 h2) (h23 : Heap.Ext h2 h3) :
    Heap.Ext h1 h3 :=
  ⟨h12.1.trans h23.1, h12.2.1.trans h23.2.1, h12.2.2.1.trans h23.2.2.1,
    h12.2.2.2.trans h23.2.2.2⟩

theorem RepProps_mono {h1 h2 : Heap} (hx : Heap.Ext h1 h2) (ref : Option Nat)
    (d : Option (GoMap Value)) (hr : RepProps h1 ref d) : RepProps h2 ref d := by
  cases ref <;> cases d <;> simp only [RepProps] at hr ⊢
  exact prefix_getElem? _ _ hx.2.2.2 _ _ hr

theorem RepExits_mono {h1 h2 : Heap} (hx : Heap.Ext h1 h2) (ref : Option Nat)
    (d : Option (GoMap String)) (hr : RepExits h1 ref d) : RepExits h2 ref d := by
  cases ref <;> cases d <;> simp only [RepExits] at hr ⊢
  exact prefix_getElem? _ _ hx.2.2.1 _ _ hr

theorem RepObject_mono {h1 h2 : Heap} (hx : Heap.Ext h1 h2) (o : Object) (d : ObjectDoc)
    (hr : RepObject h1 o d) : RepObject h2 o d :=
  ⟨hr.1, hr.2.1, hr.2.2.1, RepProps_mono hx _ _ hr.2.2.2⟩

theorem RepObjectsField_mono {h1 h2 : Heap} (hx : Heap.Ext h1 h2)
    (l : Option (List Object)) (d : Option (List ObjectDoc))
    (hr : RepObjectsField h1 l d) : RepObjectsField h2 l d := by
  cases l <;> cases d <;> simp only [RepObjectsField] at hr ⊢
  exact hr.imp (fun o d ho => RepObject_mono hx o d ho)

theorem RepRoom_mono {h1 h2 : Heap} (hx : Heap.Ext h1 h2) (r : Room) (d : RoomDoc)
    (hr : RepRoom h1 r d) : RepRoom h2 r d :=
  ⟨hr.1, hr.2.1, RepObjectsField_mono hx _ _ hr.2.2.1, RepExits_mono hx _ _ hr.2.2.2.1,
    RepProps_mono hx _ _ hr.2.2.2.2⟩

theorem RepRoomTable_mono {h1 h2 : Heap} (hx : Heap.Ext h1 h2) (m : GoMap Nat)
    (ds : GoMap RoomDoc) (hr : RepRoomTable h1 m ds) : RepRoomTable h2 m ds := by
  refine List.Forall₂.imp ?_ hr
  rintro kp kd ⟨hk, r, hp, hrr⟩
  exact ⟨hk, r, prefix_getElem? _ _ hx.1 _ _ hp, RepRoom_mono hx r _ hrr⟩

theorem RepProps_view {h : Heap} {ref : Option Nat} {d : Option (GoMap Value)}
    (hr : RepProps h ref d) : viewProps h ref = d := by
  cases ref <;> cases d <;> simp only [RepProps] at hr <;> simp [viewProps, hr]

theorem RepExits_view {h : Heap} {ref : Option Nat} {d : Option (GoMap String)}
    (hr : RepExits h ref d) : viewExits h ref = d := by
  cases ref <;> cases d <;> simp only [RepExits] at hr <;> simp [viewExits, hr]

theorem RepObject_view {h : Heap} {o : Object} {d : ObjectDoc} (hr : RepObject h o d) :
    viewObject h o = d := by
  obtain ⟨h1, h2, h3, h4⟩ := hr
  cases d
  simp only at h1 h2 h3 h4
  simp [viewObject, h1, h2, h3, RepProps_view h4]

theorem RepObjectsField_view {h : Heap} {l : Option (List Object)}
    {d : Option (List ObjectDoc)} (hr : RepObjectsField h l d) :
    l.map (List.map (viewObject h)) = d := by
  cases l with
  | none => cases d <;> simp [RepObjectsField] at hr ⊢
  | some l =>
    cases d with
    | none => simp [RepObjectsField] at hr
    | some ds =>
      simp only [RepObjectsField] at hr
      simp only [Option.map_some', Option.some.injEq]
      induction hr with
      | nil => rfl
      | cons hod _ ih => simp [RepObject_view hod, ih]

theorem RepRoom_view {h : Heap} {r : Room} {d : RoomDoc} (hr : RepRoom h r d) :
    viewRoom h r = d := by
  obtain ⟨h1, h2, h3, h4, h5⟩ := hr
  cases d
  simp only at h1 h2 h3 h4 h5
  simp [viewRoom, h1, h2, RepObjectsField_view h3, RepExits_view h4, RepProps_view h5]

theorem RepRoomTable_view {h : Heap} {m : GoMap Nat} {ds : GoMap RoomDoc}
    (hr : RepRoomTable h m ds) : m.map (fun kv => (kv.1, viewRoomPtr h kv.2)) = ds := by
  induction hr with
  | nil => rfl
  | @cons kp kd m1 ds1 hkd _ ih =>
    obtain ⟨hk, r, hp, hrr⟩ := hkd
    obtain ⟨k1, p1⟩ := kp
    obtain ⟨k2, d2⟩ := kd
    simp only at hk hp hrr
    have hv : viewRoomPtr h p1 = d2 := by
      simp [viewRoomPtr, hp, RepRoom_view hrr]
    simp [hk, hv, ih]

theorem allocProps_ext (h : Heap) (d : Option (GoMap Value)) :
    Heap.Ext h (allocProps h d).2 := by
  cases d with
  | none => exact Heap.Ext.refl h
  | some m =>
    exact ⟨List.prefix_refl _, List.prefix_refl _, List.prefix_refl _,
      List.prefix_append _ _⟩

theorem allocProps_rep (h : Heap) (d : Option (GoMap Value)) :
    RepProps (allocProps h d).2 (allocProps h d).1 d := by
  cases d with
  | none => trivial
  | some m => simp [allocProps, RepProps]

theorem allocExits_ext (h : Heap) (d : Option (GoMap String)) :
    Heap.Ext h (allocExits h d).2 := by
  cases d with
  | none => exact Heap.Ext.refl h
  | some m =>
    exact ⟨List.prefix_refl _, List.prefix_refl _, List.prefix_append _ _,
      List.prefix_refl _⟩

theorem allocExits_rep (h : Heap) (d : Option (GoMap String)) :
    RepExits (allocExits h d).2 (allocExits h d).1 d := by
  cases d with
  | none => trivial
  | some m => simp [allocExits, RepExits]

theorem buildObject_ext (h : Heap) (d : ObjectDoc) : Heap.Ext h (buildObject h d).2 :=
  allocProps_ext h d.Properties

theorem buildObject_rep (h : Heap) (d : ObjectDoc) :
    RepObject (buildObject h d).2 (buildObject h d).1 d :=
  ⟨rfl, rfl, rfl, allocProps_rep h d.Properties⟩

theorem buildObjects_ext (ds : List ObjectDoc) :
    ∀ h : Heap, Heap.Ext h (buildObjects h ds).2 := by
  induction ds with
  | nil => exact fun h => Heap.Ext.refl h
  | cons d rest ih =>
    intro h
    exact (buildObject_ext h d).trans (ih _)

theorem buildObjects_rep (ds : List ObjectDoc) :
    ∀ h : Heap, List.Forall₂ (RepObject (buildObjects h ds).2) (buildObjects h ds).1 ds := by
  induction ds with
  | nil => exact fun _ => List.Forall₂.nil
  | cons d rest ih =>
    intro h
    exact List.Forall₂.cons
      (RepObject_mono (buildObjects_ext rest _) _ _ (buildObject_rep h d)) (ih _)

theorem buildObjectsField_ext (h : Heap) (d : Option (List ObjectDoc)) :
    Heap.Ext h (buildObjectsField h d).2 := by
  cases d with
  | none => exact Heap.Ext.refl h
  | some ds => exact buildObjects_ext ds h

theorem buildObjectsField_rep (h : Heap) (d : Option (List ObjectDoc)) :
    RepObjectsField (buildObjectsField h d).2 (buildObjectsField h d).1 d := by
  cases d with
  | none => trivial
  | some ds => exact buildObjects_rep ds h

theorem buildRoom_ext (h : Heap) (d : RoomDoc) : Heap.Ext h (buildRoom h d).2 :=
  ((buildObjectsField_ext h d.Objects).trans (allocExits_ext _ d.Exits)).trans
    (allocProps_ext _ d.Properties)

theorem buildRoom_rep (h : Heap) (d : RoomDoc) :
    RepRoom (buildRoom h d).2 (buildRoom h d).1 d :=
  ⟨rfl, rfl,
    RepObjectsField_mono ((allocExits_ext _ d.Exits).trans (allocProps_ext _ d.Properties))
      _ _ (buildObjectsField_rep h d.Objects),
    RepExits_mono (allocProps_ext _ d.Properties) _ _ (allocExits_rep _ d.Exits),
    allocProps_rep _ d.Properties⟩

theorem buildScene_ext (h : Heap) (d : RoomDoc) : Heap.Ext h (buildScene h d).2 :=
  ((buildObjectsField_ext h d.Objects).trans (allocExits_ext _ d.Exits)).trans
    (allocProps_ext _ d.Properties)

theorem ext_push_room (h : Heap) (r : Room) :
    Heap.Ext h { h with rooms := h.rooms ++ [r] } :=
  ⟨List.prefix_append _ _, List.prefix_refl _, List.prefix_refl _, List.prefix_refl _⟩

theorem ext_push_scene (h : Heap) (s : Scene) :
    Heap.Ext h { h with scenes := h.scenes ++ [s] } :=
  ⟨List.prefix_refl _, List.prefix_append _ _, List.prefix_refl _, List.prefix_refl _⟩

theorem buildRoomTable_ext (ds : GoMap RoomDoc) :
    ∀ h : Heap, Heap.Ext h (buildRoomTable h ds).2 := by
  induction ds with
  | nil => exact fun h => Heap.Ext.refl h
  | cons kd rest ih =>
    intro h
    obtain ⟨k, d⟩ := kd
    exact ((buildRoom_ext h d).trans (ext_push_room _ _)).trans (ih _)

theorem buildSceneTable_ext (ds : GoMap RoomDoc) :
    ∀ h : Heap, Heap.Ext h (buildSceneTable h ds).2 := by
  induction ds with
  | nil => exact fun h => Heap.Ext.refl h
  | cons kd rest ih =>
    intro h
    obtain ⟨k, d⟩ := kd
    exact ((buildScene_ext h d).trans (ext_push_scene _ _)).trans (ih _)

theorem buildRoomTable_rep (ds : GoMap RoomDoc) :
    ∀ h : Heap, RepRoomTable (buildRoomTable h ds).2 (buildRoomTable h ds).1 ds := by
  induction ds with
  | nil => exact fun _ => List.Forall₂.nil
  | cons kd rest ih =>
    intro h
    obtain ⟨k, d⟩ := kd
    refine List.Forall₂.cons ⟨rfl, (buildRoom h d).1, ?_, ?_⟩ (ih _)
    · exact prefix_getElem? _ _ (buildRoomTable_ext rest _).1 _ _
        (List.getElem?_concat_length _ _)
    · exact RepRoom_mono ((ext_push_room _ _).trans (buildRoomTable_ext rest _)) _ _
        (buildRoom_rep h d)

/-- Whatever document the codec decodes from the file, `LoadWorld` builds, in whatever heap
it runs, a world with the seed of the document and, under each ID, a room with the content
the document gives it. -/
theorem LoadWorld_rebuilds_document {R B F : Type} (env : Env B F) (ops : RandOps R)
    (h2 : Heap) (fs1 : F) (filename : String) (data : B) (doc : WorldDoc)
    (hread : env.ReadFile fs1 filename = .ok data)
    (hcodec : env.Unmarshal data = .ok doc) :
    ∃ w' h', LoadWorld env ops fs1 h2 filename = (.ok w', h') ∧
      w'.Seed = doc.Seed ∧ (viewWorld w' h').Rooms = doc.Rooms := by
  simp only [LoadWorld, hread, hcodec]
  refine ⟨_, _, rfl, rfl, ?_⟩
  cases hr : doc.Rooms with
  | none => simp [viewWorld, buildTableField, hr]
  | some ds =>
    have hrep := RepRoomTable_mono
      (show Heap.Ext (buildRoomTable h2 ds).2
          (buildTableField buildSceneTable (buildRoomTable h2 ds).2 doc.Scenes).2 by
        cases doc.Scenes with
        | none => exact Heap.Ext.refl _
        | some ss => exact buildSceneTable_ext ss _)
      _ _ (buildRoomTable_rep ds h2)
    simp only [viewWorld, buildTableField, hr, Option.map_some', Option.some.injEq]
    exact RepRoomTable_view hrep

/-! ### Room and Scene methods -/

/-- C11. For every room `r` and direction `d`, `Room.GetExit(d)` returns `("", false)` when
`r.Exits` is uninitialised, when `d` is absent from it and when `r.Exits[d]` is the empty
string; otherwise it returns `(r.Exits[d], true)`. So `found = true` implies a non-empty
target. -/
theorem Room_GetExit_cases (h : Heap) (r : Room) (d : String) :
    (r.Exits = none → Room.GetExit h r d = ("", false)) ∧
    (exitsLookup h r d = none → Room.GetExit h r d = ("", false)) ∧
    (exitsLookup h r d = some "" → Room.GetExit h r d = ("", false)) ∧
    (∀ t, exitsLookup h r d = some t → t ≠ "" → Room.GetExit h r d = (t, true)) ∧
    ((Room.GetExit h r d).2 = true → (Room.GetExit h r d).1 ≠ "") := by
  cases he : r.Exits with
  | none => simp [Room.GetExit, exitsLookup, he]
  | some ref =>
    cases hx : exitsAt h ref d with
    | none => simp [Room.GetExit, exitsLookup, he, hx]
    | some t =>
      by_cases ht : t = ""
      · simp [Room.GetExit, exitsLookup, he, hx, ht]
      · simp [Room.GetExit, exitsLookup, he, hx, ht]

/-- C12, evaluated on the code. For a scene whose `Exits` holds the direction with the
empty string as value, `Scene.GetExit` returns `("", true)`: the unresolved sentinel is
reported as found, where `Room.GetExit` on the same map reports not-found. -/
theorem Scene_GetExit_reports_unresolved (h : Heap) (s : Scene) (ref : Nat) (d : String)
    (hs : s.Exits = some ref) (hd : exitsAt h ref d = some "") :
    Scene.GetExit h s d = ("", true) ∧
    ∀ r : Room, r.Exits = some ref → Room.GetExit h r d = ("", false) := by
  refine ⟨by simp [Scene.GetExit, hs, hd], ?_⟩
  intro r hr
  simp [Room.GetExit, hr, hd]

/-- Witness of C12: the scene `AddRoom` makes of a room generated with the predeclared exit
`north`, as `GetScene` returns it. -/
theorem Scene_GetExit_reports_unresolved_witness :
    (GetScene unresolvedRun.2.1 "room_1" = .ok 0 ∧
      unresolvedRun.2.2.scenes[0]? = some
        { ID := "room_1", Description := "A room", Objects := some [], Exits := some 0,
          Properties := some 0 }) ∧
    Scene.GetExit unresolvedRun.2.2
        { ID := "room_1", Description := "A room", Objects := some [], Exits := some 0,
          Properties := some 0 } "north" = ("", true) ∧
    ∀ r : Room, r.Exits = some 0 → Room.GetExit unresolvedRun.2.2 r "north" = ("", false) :=
  ⟨⟨rfl, rfl⟩,
    Scene_GetExit_reports_unresolved unresolvedRun.2.2 _ 0 "north" rfl (by decide)⟩

theorem mapSet_mapSet_self {V : Type} (m : GoMap V) (k : String) (v : V) :
    mapSet (mapSet m k v) k v = mapSet m k v := by
  induction m with
  | nil => simp [mapSet]
  | cons kv rest ih =>
    obtain ⟨k', v'⟩ := kv
    by_cases hk : k' = k
    · simp [mapSet, hk]
    · simp [mapSet, hk, ih]

theorem set_of_getElem? {α : Type} (l : List α) (i : Nat) (a : α) (hi : l[i]? = some a) :
    l.set i a = l := by
  induction l generalizing i with
  | nil => rfl
  | cons x xs ih =>
    cases i with
    | zero =>
      simp only [List.getElem?_cons_zero, Option.some.injEq] at hi
      simp [hi]
    | succ j =>
      simp only [List.getElem?_cons_succ] at hi
      simp [ih j hi]

/-- C13. For every room `r` (its `Exits` uninitialised, or an allocated map), direction `d`
and target `t`: `r.AddExit(d, t)` completes, afterwards `r.Exits[d] = t` and the entry of
every other direction is what it was; the same call a second time changes nothing; and if
`t` is non-empty then `r.GetExit(d)` returns `(t, true)`. -/
theorem Room_AddExit_sets_entry (h : Heap) (p : Nat) (r : Room) (d t : String)
    (hr : h.rooms[p]? = some r)
    (hvalid : ∀ ref, r.Exits = some ref → ref < h.exits.length) :
    ∃ h1 r1, Room.AddExit h p d t = (.ok, h1) ∧ h1.rooms[p]? = some r1 ∧
      exitsLookup h1 r1 d = some t ∧
      (∀ k, k ≠ d → exitsLookup h1 r1 k = exitsLookup h r k) ∧
      Room.AddExit h1 p d t = (.ok, h1) ∧
      (t ≠ "" → Room.GetExit h1 r1 d = (t, true)) := by
  have hp : p < h.rooms.length := by
    rcases List.getElem?_eq_some.mp hr with ⟨hlt, _⟩
    exact hlt
  cases he : r.Exits with
  | none =>
    have hnew : (h.exits ++ [mapSet [] d t])[h.exits.length]? = some (mapSet [] d t) :=
      List.getElem?_concat_length _ _
    refine ⟨{ h with
        rooms := h.rooms.set p { r with Exits := some h.exits.length },
        exits := h.exits ++ [mapSet [] d t] },
      { r with Exits := some h.exits.length }, by simp [Room.AddExit, hr, he],
      by simp [List.getElem?_set_self hp], ?_, ?_, ?_, ?_⟩
    · simp [exitsLookup, exitsAt, hnew, mapSet, mapGet]
    · intro k hk
      have hk' : ¬ d = k := fun hc => hk hc.symm
      simp [exitsLookup, exitsAt, hnew, he, mapSet, mapGet, hk']
    · simp only [Room.AddExit, List.getElem?_set_self hp, hnew, mapSet_mapSet_self]
      simp only [set_of_getElem? _ _ _ hnew]
    · intro ht
      simp [Room.GetExit, exitsAt, hnew, mapSet, mapGet, ht]
  | some ref =>
    have hlt := hvalid ref he
    have hm : h.exits[ref]? = some h.exits[ref] := List.getElem?_eq_getElem hlt
    have hset : (h.exits.set ref (mapSet h.exits[ref] d t))[ref]?
        = some (mapSet h.exits[ref] d t) := List.getElem?_set_self hlt
    refine ⟨{ h with exits := h.exits.set ref (mapSet h.exits[ref] d t) }, r,
      by simp [Room.AddExit, hr, he, hm], hr, ?_, ?_, ?_, ?_⟩
    · simp [exitsLookup, he, exitsAt, hset, mapGet_mapSet_self]
    · intro k hk
      have hk' : d ≠ k := fun hc => hk hc.symm
      simp [exitsLookup, he, exitsAt, hset, hm, mapGet_mapSet_of_ne _ _ _ _ hk']
    · simp only [Room.AddExit, hr, he, hset, mapSet_mapSet_self, List.set_set]
    · intro ht
      simp [Room.GetExit, he, exitsAt, hset, mapGet_mapSet_self, ht]

/-- Witness of C13: `AddExit("north", "room2")` on a room whose `Exits` is uninitialised. -/
theorem Room_AddExit_sets_entry_witness :
    ∃ h1 r1, Room.AddExit bareRoomHeap 0 "north" "room2" = (.ok, h1) ∧
      h1.rooms[0]? = some r1 ∧
      exitsLookup h1 r1 "north" = some "room2" ∧
      (∀ k, k ≠ "north" → exitsLookup h1 r1 k
        = exitsLookup bareRoomHeap
            { ID := "room1", Description := "Test Room", Objects := none, Exits := none,
              Properties := none } k) ∧
      Room.AddExit h1 0 "north" "room2" = (.ok, h1) ∧
      ("room2" ≠ "" → Room.GetExit h1 r1 "north" = ("room2", true)) :=
  Room_AddExit_sets_entry bareRoomHeap 0 _ "north" "room2" rfl (by intro ref hc; cases hc)

/-- C14, evaluated on the code. For a scene whose `Exits` is uninitialised, `Scene.AddExit`
ends in a runtime panic (assignment to an entry of the nil map) and writes nothing, where
`Room.AddExit` creates the map first. -/
theorem Scene_AddExit_nil_map_panics (h : Heap) (q : Nat) (s : Scene) (d t : String)
    (hs : h.scenes[q]? = some s) (hnil : s.Exits = none) :
    Scene.AddExit h q d t = (.panic "assignment to entry in nil map", h) := by
  simp [Scene.AddExit, hs, hnil]

/-- Witness of C14: a scene decoded by `LoadScene` from a document with no `exits` field. -/
theorem Scene_AddExit_nil_map_panics_witness :
    LoadScene (fun (fs : GoMap RoomDoc) name =>
        match mapGet fs name with
        | none => .error "no such file"
        | some data => .ok data)
      (fun data => .ok data) [("scene.json", bareSceneDoc)] Heap.empty "scene.json"
      = (.ok 0, bareSceneHeap) ∧
    Scene.AddExit bareSceneHeap 0 "north" "room2"
      = (.panic "assignment to entry in nil map", bareSceneHeap) :=
  ⟨rfl, Scene_AddExit_nil_map_panics bareSceneHeap 0 _ "north" "room2" rfl rfl⟩

/-! ### AddRoom and GetRoom -/

/-- C15. For every world `w` with initialised `Scenes` and every room `r`: `w.AddRoom(r)`
completes, afterwards `w.GetRoom(r.ID)` returns `(r, true)`, the pointer and record of `r`
as they were passed whatever was registered under that ID before, and `GetRoom(k)` for
every other ID `k` returns what it returned before. -/
theorem AddRoom_then_GetRoom {R : Type} (w : World R) (h : Heap) (p : Nat) (r : Room)
    (sm : GoMap Nat) (hsc : w.Scenes = some sm) (hr : h.rooms[p]? = some r) :
    ∃ w' h', AddRoom w h p = (.ok, w', h') ∧ GetRoom w' r.ID = some p ∧
      h'.rooms[p]? = some r ∧ ∀ k, k ≠ r.ID → GetRoom w' k = GetRoom w k := by
  cases hro : w.Rooms with
  | none =>
    refine ⟨{ w with Rooms := some (mapSet [] r.ID p),
                     Scenes := some (mapSet sm r.ID h.scenes.length) },
      { h with scenes := h.scenes ++ [sceneOf r] }, by simp [AddRoom, hr, hsc, hro],
      ?_, hr, ?_⟩
    · simp [GetRoom, mapSet, mapGet]
    · intro k hk
      have hk' : ¬ r.ID = k := fun hc => hk hc.symm
      simp [GetRoom, hro, mapSet, mapGet, hk']
  | some rm =>
    refine ⟨{ w with Rooms := some (mapSet rm r.ID p),
                     Scenes := some (mapSet sm r.ID h.scenes.length) },
      { h with scenes := h.scenes ++ [sceneOf r] }, by simp [AddRoom, hr, hsc, hro],
      ?_, hr, ?_⟩
    · simp [GetRoom, mapGet_mapSet_self]
    · intro k hk
      have hk' : r.ID ≠ k := fun hc => hk hc.symm
      simp [GetRoom, hro, mapGet_mapSet_of_ne _ _ _ _ hk']

/-- Witness of C15: `TestAddRoom`, `room1` added to a fresh world with seed 42. -/
theorem AddRoom_then_GetRoom_witness :
    ∃ w' h', AddRoom (NewWorld counterRand 42) twoRoomHeap 0 = (.ok, w', h') ∧
      GetRoom w' "room1" = some 0 ∧
      h'.rooms[0]? = some { ID := "room1", Description := "Room 1", Objects := some [],
                            Exits := some 0, Properties := some 0 } ∧
      ∀ k, k ≠ "room1" → GetRoom w' k = GetRoom (NewWorld counterRand 42) k :=
  AddRoom_then_GetRoom (NewWorld counterRand 42) twoRoomHeap 0
    { ID := "room1", Description := "Room 1", Objects := some [], Exits := some 0,
      Properties := some 0 } [] rfl rfl

/-! ### Room creation -/

/-- C19. A failing description collaborator never aborts room creation: for every
non-empty description `d` and exit list, when the configured provider's
`GenerateDescription` returns an error, `generateRoom` and `GenerateRoom` both return a
room without error, and the description of that room is exactly `d`. -/
theorem failing_provider_keeps_description {R : Type} (ops : RandOps R) (w : World R)
    (h : Heap) (generate : String → Except String String) (description e : String)
    (exits : List String) (now roomCounter : Int)
    (hne : description ≠ "") (hfail : generate description = .error e) :
    (∃ p w' h' r, generateRoom ops (some generate) w h description exits = (.ok p, w', h') ∧
      h'.rooms[p]? = some r ∧ r.Description = description) ∧
    (∃ p c h' r, GenerateRoom (some generate) now roomCounter h description exits
        = (.ok p, c, h') ∧
      h'.rooms[p]? = some r ∧ r.Description = description) := by
  have hdesc : enhanceDescription (some generate) description = description := by
    simp [enhanceDescription, hfail]
  constructor
  · refine ⟨h.rooms.length, _, _, _, generateRoom_of_ne ops _ w h description exits hne,
      allocRoom_rooms_new _ _ _, ?_⟩
    simp [newRoom, hdesc]
  · simp only [GenerateRoom, hne, if_false]
    exact ⟨_, _, _, _, rfl, allocRoom_rooms_new _ _ _, hdesc⟩

/-- Witness of C19: a provider that always fails, description "A test room with logging". -/
theorem failing_provider_keeps_description_witness :
    (∃ p w' h' r, generateRoom counterRand failingProvider (NewWorld counterRand 12345)
        Heap.empty "A test room with logging" ["north", "south"] = (.ok p, w', h') ∧
      h'.rooms[p]? = some r ∧ r.Description = "A test room with logging") ∧
    (∃ p c h' r, GenerateRoom failingProvider 1700000000 0 Heap.empty
        "A test room with logging" ["north", "south"] = (.ok p, c, h') ∧
      h'.rooms[p]? = some r ∧ r.Description = "A test room with logging") :=
  failing_provider_keeps_description counterRand (NewWorld counterRand 12345) Heap.empty
    (fun _ => .error "provider unavailable") "A test room with logging"
    "provider unavailable" ["north", "south"] 1700000000 0 (by decide) rfl

/-! ### GenerateWorld with one room -/

theorem growLoop_of_nonpos {R : Type} (ops : RandOps R) (p : Provider) (prompt : String)
    (L : Int) (budget : Nat) (rem : Int) (cur : List Nat) (w : World R) (h : Heap)
    (hrem : rem ≤ 0) :
    growLoop ops p prompt L budget rem cur w h = (.ok, w, h) := by
  have hno : ¬ rem > 0 := by omega
  cases budget <;> simp [growLoop, loopExit, hrem, hno]

/-- C20. For every seed and every non-empty prompt, `GenerateWorld(prompt, 1)` on
`NewWorld(seed)` returns no error and leaves exactly one room, the hub, registered under
its ID, whose `Exits` map is initialised and empty; with no description collaborator
configured its description is `prompt + " - Central Hub"`. -/
theorem GenerateWorld_one_room {R : Type} (ops : RandOps R) (aiProvider : Provider)
    (seed : Int) (h : Heap) (basePrompt : String) (hp : basePrompt ≠ "") :
    ∃ w' h' hub e,
      GenerateWorld ops aiProvider (NewWorld ops seed) h basePrompt 1 = (.ok, w', h') ∧
      roomCount w' = 1 ∧
      w'.Rooms = some [(hub.ID, h.rooms.length)] ∧ h'.rooms[h.rooms.length]? = some hub ∧
      hub.Exits = some e ∧ h'.exits[e]? = some [] ∧
      (aiProvider = none → hub.Description = basePrompt ++ " - Central Hub") := by
  refine ⟨hubWorld ops (NewWorld ops seed) h,
    hubHeap ops aiProvider (NewWorld ops seed) h basePrompt,
    hubRoom ops aiProvider (NewWorld ops seed) h basePrompt, h.exits.length, ?_, ?_, rfl,
    ?_, rfl, ?_, ?_⟩
  · rw [GenerateWorld_valid ops aiProvider _ h basePrompt 1 (by decide) hp]
    exact growLoop_of_nonpos _ _ _ _ _ _ _ _ _ (by decide)
  · simp [roomCount, hubWorld, mapKeys]
  · simp [hubHeap]
  · simp [hubHeap]
  · intro hnone
    subst hnone
    rfl

/-- Witness of C20: the call of `TestWorldGenWithLogging`, seed 12345 and "test world". -/
theorem GenerateWorld_one_room_witness :
    ∃ w' h' hub e,
      GenerateWorld counterRand none (NewWorld counterRand 12345) Heap.empty "test world" 1
        = (.ok, w', h') ∧
      roomCount w' = 1 ∧
      w'.Rooms = some [(hub.ID, Heap.empty.rooms.length)] ∧
      h'.rooms[Heap.empty.rooms.length]? = some hub ∧
      hub.Exits = some e ∧ h'.exits[e]? = some [] ∧
      ((none : Provider) = none → hub.Description = "test world" ++ " - Central Hub") :=
  GenerateWorld_one_room counterRand none 12345 Heap.empty "test world" (by decide)

/-! ### Reachable worlds: the scene table and the room IDs -/

theorem mapKeys_mapSet_congr {V W : Type} (m1 : GoMap V) :
    ∀ (m2 : GoMap W) (k : String) (v1 : V) (v2 : W), mapKeys m1 = mapKeys m2 →
      mapKeys (mapSet m1 k v1) = mapKeys (mapSet m2 k v2) := by
  induction m1 with
  | nil =>
    intro m2 k v1 v2 hk
    cases m2 with
    | nil => rfl
    | cons a rest => simp [mapKeys] at hk
  | cons a rest ih =>
    intro m2 k v1 v2 hk
    cases m2 with
    | nil => simp [mapKeys] at hk
    | cons b rest2 =>
      obtain ⟨ka, va⟩ := a
      obtain ⟨kb, vb⟩ := b
      simp only [mapKeys, List.map_cons, List.cons.injEq] at hk
      obtain ⟨hab, hrest⟩ := hk
      subst hab
      have ih' := ih rest2 k v1 v2 hrest
      by_cases hc : ka = k
      · simp [mapSet, hc, mapKeys, hrest]
      · simp only [mapSet, hc, if_false, mapKeys, List.map_cons, List.cons.injEq, true_and]
        exact ih'

theorem mapGet_some_of_keys {V W : Type} (m1 : GoMap V) :
    ∀ (m2 : GoMap W) (k : String) (v : V), mapKeys m1 = mapKeys m2 →
      mapGet m1 k = some v → ∃ v2, mapGet m2 k = some v2 := by
  induction m1 with
  | nil =>
    intro m2 k v _ hg
    simp [mapGet] at hg
  | cons a rest ih =>
    intro m2 k v hk hg
    cases m2 with
    | nil => simp [mapKeys] at hk
    | cons b rest2 =>
      obtain ⟨ka, va⟩ := a
      obtain ⟨kb, vb⟩ := b
      simp only [mapKeys, List.map_cons, List.cons.injEq] at hk
      obtain ⟨hab, hrest⟩ := hk
      subst hab
      by_cases hc : ka = k
      · exact ⟨vb, by simp [mapGet, hc]⟩
      · simp only [mapGet, hc, if_false] at hg ⊢
        exact ih rest2 k v hrest hg

theorem TablesInStep_of_prefix (rooms scenes : Option (GoMap Nat)) (h h1 : Heap)
    (hro : h.rooms <+: h1.rooms) (hsc : h.scenes <+: h1.scenes)
    (hin : TablesInStep rooms scenes h) : TablesInStep rooms scenes h1 := by
  obtain ⟨rm, sm, h1', h2', hk, hall⟩ := hin
  refine ⟨rm, sm, h1', h2', hk, ?_⟩
  intro k p hg
  obtain ⟨r, q, hr, hid, hq, hs⟩ := hall k p hg
  exact ⟨r, q, prefix_getElem? _ _ hro _ _ hr, hid, hq, prefix_getElem? _ _ hsc _ _ hs⟩

theorem TablesInStep_of_eq (rooms scenes : Option (GoMap Nat)) (h h1 : Heap)
    (hro : h1.rooms = h.rooms) (hsc : h1.scenes = h.scenes)
    (hin : TablesInStep rooms scenes h) : TablesInStep rooms scenes h1 :=
  TablesInStep_of_prefix rooms scenes h h1 (by rw [hro]) (by rw [hsc]) hin

theorem TablesInStep_AddRoom {R : Type} (w w1 : World R) (h h1 : Heap) (p : Nat)
    (hin : TablesInStep w.Rooms w.Scenes h) (hres : AddRoom w h p = (.ok, w1, h1)) :
    TablesInStep w1.Rooms w1.Scenes h1 := by
  obtain ⟨rm, sm, hR, hS, hk, hall⟩ := hin
  obtain ⟨r, sm', hr, hS', hw, hh⟩ := AddRoom_ok_shape w w1 h h1 p hres
  rw [hS] at hS'
  cases hS'
  subst hw
  subst hh
  refine ⟨mapSet rm r.ID p, mapSet sm r.ID h.scenes.length, by simp [hR], rfl,
    mapKeys_mapSet_congr rm sm r.ID p h.scenes.length hk, ?_⟩
  intro k p' hg
  by_cases hkr : r.ID = k
  · subst hkr
    rw [mapGet_mapSet_self] at hg
    cases hg
    exact ⟨r, h.scenes.length, hr, rfl, mapGet_mapSet_self _ _ _,
      List.getElem?_concat_length _ _⟩
  · rw [mapGet_mapSet_of_ne _ _ _ _ hkr] at hg
    obtain ⟨r', q, hr', hid, hq, hs⟩ := hall k p' hg
    refine ⟨r', q, hr', hid, by rw [mapGet_mapSet_of_ne _ _ _ _ hkr]; exact hq, ?_⟩
    exact prefix_getElem? _ _ (List.prefix_append _ _) _ _ hs

theorem exitsAssign_rooms_scenes (h h1 : Heap) (p : Nat) (k v : String)
    (hres : exitsAssign h p k v = some h1) :
    h1.rooms = h.rooms ∧ h1.scenes = h.scenes := by
  obtain ⟨r, ref, m, _, _, _, hh⟩ := exitsAssign_eq_some h h1 p k v hres
  rw [hh]
  exact ⟨rfl, rfl⟩

theorem ConnectRooms_rooms_scenes {R : Type} (w : World R) (h : Heap) (s t : String)
    (d : Direction) :
    (ConnectRooms w h s t d).2.2.rooms = h.rooms ∧
    (ConnectRooms w h s t d).2.2.scenes = h.scenes := by
  unfold ConnectRooms
  split
  · exact ⟨rfl, rfl⟩
  · split
    · exact ⟨rfl, rfl⟩
    · dsimp only
      split
      · exact ⟨rfl, rfl⟩
      · rename_i h1 h1e
        have e1 := exitsAssign_rooms_scenes _ _ _ _ _ h1e
        split
        · exact e1
        · rename_i h2 h2e
          have e2 := exitsAssign_rooms_scenes _ _ _ _ _ h2e
          exact ⟨e2.1.trans e1.1, e2.2.trans e1.2⟩

theorem ConnectRooms_frame {R : Type} (w w1 : World R) (h h1 : Heap) (s t : String)
    (d : Direction) (st : Status) (hres : ConnectRooms w h s t d = (st, w1, h1)) :
    w1 = w ∧ h1.rooms = h.rooms ∧ h1.scenes = h.scenes := by
  have hw := ConnectRooms_world w h s t d
  have hh := ConnectRooms_rooms_scenes w h s t d
  rw [hres] at hw hh
  exact ⟨hw, hh.1, hh.2⟩

theorem TablesInStep_ConnectRooms {R : Type} (w w1 : World R) (h h1 : Heap) (s t : String)
    (d : Direction) (st : Status) (hin : TablesInStep w.Rooms w.Scenes h)
    (hres : ConnectRooms w h s t d = (st, w1, h1)) :
    TablesInStep w1.Rooms w1.Scenes h1 := by
  obtain ⟨hw, hr, hs⟩ := ConnectRooms_frame w w1 h h1 s t d st hres
  rw [hw]
  exact TablesInStep_of_eq _ _ h h1 hr hs hin

theorem AddRoom_ok_or_panic {R : Type} (w : World R) (h : Heap) (p : Nat) :
    (AddRoom w h p).1 = .ok ∨ (AddRoom w h p).1.isPanic = true := by
  unfold AddRoom
  cases h.rooms[p]? with
  | none => exact Or.inr rfl
  | some r =>
    cases hro : w.Rooms <;> cases hsc : w.Scenes <;> simp [hsc, Status.isPanic]

theorem allocRoom_extends (h : Heap) (r : Room) (m : GoMap String) :
    h.rooms <+: (allocRoom h r m).rooms ∧ h.scenes <+: (allocRoom h r m).scenes :=
  ⟨List.prefix_append _ _, List.prefix_refl _⟩

theorem growStep_stop_cases {R : Type} (ops : RandOps R) (p : Provider) (prompt : String)
    (rem : Int) (cur : List Nat) (w : World R) (h : Heap) (res : Status × World R × Heap)
    (hstep : growStep ops p prompt rem cur w h = .stop res) (hnp : res.1.isPanic = false) :
    res.2.1.Rooms = w.Rooms ∧ res.2.1.Scenes = w.Scenes ∧
    h.rooms <+: res.2.2.rooms ∧ h.scenes <+: res.2.2.scenes := by
  unfold growStep at hstep
  split at hstep
  · cases hstep
    simp [Status.isPanic] at hnp
  · split at hstep
    · cases hstep
      simp [Status.isPanic] at hnp
    · split at hstep
      · cases hstep
        simp [Status.isPanic] at hnp
      · dsimp only at hstep
        split at hstep
        · cases hstep
        · split at hstep
          · cases hstep
            simp [Status.isPanic] at hnp
          · rename_i direction hdir
            by_cases hp : generateDirectionalPrompt prompt direction = ""
            · rw [hp, generateRoom_of_empty] at hstep
              cases hstep
              exact ⟨rfl, rfl, List.prefix_refl _, List.prefix_refl _⟩
            · rw [generateRoom_of_ne _ _ _ _ _ _ hp] at hstep
              dsimp only at hstep
              rw [allocRoom_rooms_new] at hstep
              dsimp only at hstep
              split at hstep
              · rename_i e w4 h4 hconn
                cases hstep
                obtain ⟨hw, hr, hs⟩ := ConnectRooms_frame _ _ _ _ _ _ _ _ hconn
                subst hw
                refine ⟨rfl, rfl, ?_, ?_⟩
                · rw [hr]
                  exact (allocRoom_extends _ _ _).1
                · rw [hs]
                  exact (allocRoom_extends _ _ _).2
              · cases hstep
                simp [Status.isPanic] at hnp
              · rename_i w4 h4 hconn
                split at hstep
                · cases hstep
                · cases hstep
                  rename_i _ st w5 h5 hno hadd
                  rcases AddRoom_ok_or_panic w4 h4 h.rooms.length with hok | hpan
                  · rw [hadd] at hok
                    exact absurd hok hno
                  · rw [hadd] at hpan
                    dsimp only at hpan hnp
                    rw [hpan] at hnp
                    cases hnp

theorem TablesInStep_growStep_next {R : Type} (ops : RandOps R) (p : Provider)
    (prompt : String) (rem rem1 : Int) (cur cur1 : List Nat) (w w1 : World R) (h h1 : Heap)
    (hin : TablesInStep w.Rooms w.Scenes h)
    (hstep : growStep ops p prompt rem cur w h = .next rem1 cur1 w1 h1) :
    TablesInStep w1.Rooms w1.Scenes h1 := by
  rcases growStep_next_cases ops p prompt rem rem1 cur cur1 w w1 h h1 hstep with
    ⟨_, _, hh, _, hR, hS⟩ | ⟨sp, sr, dir, w2, h4, _, _, _, _, hR2, hS2, hconn, hadd, _, _⟩
  · rw [hh, hR, hS]
    exact hin
  · have h3 : TablesInStep w2.Rooms w2.Scenes
        (allocRoom h (newRoom ops p w2 h (generateDirectionalPrompt prompt dir))
          [(GetOppositeDirection dir, "")]) := by
      rw [hR2, hS2]
      exact TablesInStep_of_prefix _ _ h _ (allocRoom_extends _ _ _).1
        (allocRoom_extends _ _ _).2 hin
    have h4' := TablesInStep_ConnectRooms
      ({ w2 with rng := (ops.Int63 w2.rng).2 } : World R) _ _ h4 _ _ dir .ok h3 hconn
    exact TablesInStep_AddRoom _ w1 h4 h1 h.rooms.length h4' hadd

theorem TablesInStep_growLoop {R : Type} (ops : RandOps R) (p : Provider) (prompt : String)
    (L : Int) (budget : Nat) :
    ∀ (rem : Int) (cur : List Nat) (w w1 : World R) (h h1 : Heap) (st : Status),
      TablesInStep w.Rooms w.Scenes h →
      growLoop ops p prompt L budget rem cur w h = (st, w1, h1) →
      st.isPanic = false → TablesInStep w1.Rooms w1.Scenes h1 := by
  have hexit : ∀ (rem : Int) (w w1 : World R) (h h1 : Heap) (st : Status),
      TablesInStep w.Rooms w.Scenes h → loopExit L rem w h = (st, w1, h1) →
      TablesInStep w1.Rooms w1.Scenes h1 := by
    intro rem w w1 h h1 st hin hres
    unfold loopExit at hres
    split at hres <;> cases hres <;> exact hin
  induction budget with
  | zero =>
    intro rem cur w w1 h h1 st hin hres _
    simp only [growLoop] at hres
    exact hexit rem w w1 h h1 st hin hres
  | succ b ih =>
    intro rem cur w w1 h h1 st hin hres hnp
    simp only [growLoop] at hres
    split at hres
    · exact hexit rem w w1 h h1 st hin hres
    · split at hres
      · rename_i res hstop
        subst hres
        obtain ⟨hR, hS, hro, hsc⟩ := growStep_stop_cases _ _ _ _ _ _ _ _ hstop hnp
        dsimp only at hR hS hro hsc ⊢
        rw [hR, hS]
        exact TablesInStep_of_prefix _ _ h h1 hro hsc hin
      · rename_i rem1 cur1 w2 h2 hnext
        exact ih rem1 cur1 w2 w1 h2 h1 st
          (TablesInStep_growStep_next _ _ _ _ _ _ _ _ _ _ _ hin hnext) hres hnp

theorem TablesInStep_hub {R : Type} (ops : RandOps R) (p : Provider) (w : World R)
    (h : Heap) (prompt : String) :
    TablesInStep (hubWorld ops w h).Rooms (hubWorld ops w h).Scenes
      (hubHeap ops p w h prompt) := by
  refine ⟨[(hubID ops w, h.rooms.length)], [(hubID ops w, h.scenes.length)], rfl, rfl, rfl,
    ?_⟩
  intro k q hg
  obtain ⟨hk, hq⟩ := mapGet_singleton _ _ _ _ hg
  subst hk
  subst hq
  refine ⟨hubRoom ops p w h prompt, h.scenes.length, by simp [hubHeap], rfl,
    by simp [mapGet], by simp [hubHeap]⟩

theorem TablesInStep_GenerateWorld {R : Type} (ops : RandOps R) (p : Provider)
    (w w1 : World R) (h h1 : Heap) (prompt : String) (n : Int) (st : Status)
    (hin : TablesInStep w.Rooms w.Scenes h)
    (hres : GenerateWorld ops p w h prompt n = (st, w1, h1)) (hnp : st.isPanic = false) :
    TablesInStep w1.Rooms w1.Scenes h1 := by
  by_cases hbad : n ≤ 0 ∨ prompt = ""
  · obtain ⟨msg, hmsg⟩ := GenerateWorld_invalid ops p w h prompt n hbad
    rw [hmsg] at hres
    cases hres
    exact hin
  · have hn : 0 < n := by
      by_contra hc
      exact hbad (Or.inl (by omega))
    have hp : prompt ≠ "" := fun hc => hbad (Or.inr hc)
    rw [GenerateWorld_valid ops p w h prompt n hn hp] at hres
    exact TablesInStep_growLoop _ _ _ _ _ _ _ _ _ _ _ _ (TablesInStep_hub ops p w h prompt)
      hres hnp

/-- In every reachable world the two tables are in step. -/
theorem Reachable_tables_in_step {R : Type} (ops : RandOps R) (w : World R) (h : Heap)
    (hreach : Reachable ops w h) : TablesInStep w.Rooms w.Scenes h := by
  induction hreach with
  | fresh seed h0 =>
    refine ⟨[], [], rfl, rfl, rfl, ?_⟩
    intro k p hg
    simp [mapGet] at hg
  | alloc _ hext ih => exact TablesInStep_of_prefix _ _ _ _ hext.1 hext.2.1 ih
  | addRoom room _ hres ih => exact TablesInStep_AddRoom _ _ _ _ room ih hres
  | connectRooms s t d st _ hres _ ih =>
    exact TablesInStep_ConnectRooms _ _ _ _ s t d st ih hres
  | generateWorld p prompt n st _ hres hnp ih =>
    exact TablesInStep_GenerateWorld ops p _ _ _ _ prompt n st ih hres hnp

theorem exitsAt_some (h : Heap) (e : Nat) (k v : String) (hx : exitsAt h e k = some v) :
    ∃ m, h.exits[e]? = some m ∧ mapGet m k = some v := by
  unfold exitsAt at hx
  cases hm : h.exits[e]? with
  | none => simp [hm] at hx
  | some m =>
    simp only [hm] at hx
    exact ⟨m, rfl, hx⟩

theorem TablesInStep_mirror {R : Type} (w : World R) (h : Heap)
    (hin : TablesInStep w.Rooms w.Scenes h) : ScenesMirrorRooms w h := by
  obtain ⟨rm, sm, hR, hS, hk, hall⟩ := hin
  refine ⟨rm, sm, hR, hS, hk, ?_⟩
  intro k p hg
  obtain ⟨r, q, hr, _, hq, hs⟩ := hall k p hg
  exact ⟨q, r, sceneOf r, hq, hr, hs, rfl⟩

theorem TablesInStep_connection {R : Type} (w : World R) (h : Heap)
    (hin : TablesInStep w.Rooms w.Scenes h) : ConnectionShowsInScenes w h := by
  intro sourceID targetID d w1 h1 hd hres
  obtain ⟨rm, sm, hR, hS, hk, hall⟩ := hin
  obtain ⟨ps, pt, rs, rt, es, et, ms, mt, hgs, hgt, hrs, hrt, hes, het, hms, hmt, hw, hh⟩ :=
    ConnectRooms_ok_shape w w1 h h1 sourceID targetID d hres
  have hgs' : mapGet rm sourceID = some ps := by
    simpa [GetRoom, hR] using hgs
  have hgt' : mapGet rm targetID = some pt := by
    simpa [GetRoom, hR] using hgt
  obtain ⟨rs', qs, hrs', _, hqs, hss⟩ := hall sourceID ps hgs'
  obtain ⟨rt', qt, hrt', _, hqt, hst⟩ := hall targetID pt hgt'
  rw [hrs] at hrs'
  rw [hrt] at hrt'
  cases hrs'
  cases hrt'
  have hsc : h1.scenes = h.scenes := by rw [hh]
  have hxs : exitsAt h1 es d = some targetID := by
    rw [hh, exitsAt_after_connect h es et ms mt d _ sourceID targetID hms hmt
      (opposite_ne_self d hd)]
    have hne : ¬ d = GetOppositeDirection d := fun hc => opposite_ne_self d hd hc.symm
    simp [hne]
  have hxt : exitsAt h1 et (GetOppositeDirection d) = some sourceID := by
    rw [hh, exitsAt_after_connect h es et ms mt d _ sourceID targetID hms hmt
      (opposite_ne_self d hd)]
    simp
  obtain ⟨m1, hm1, hg1⟩ := exitsAt_some h1 es d targetID hxs
  obtain ⟨m2, hm2, hg2⟩ := exitsAt_some h1 et _ sourceID hxt
  refine ⟨qs, qt, sceneOf rs, sceneOf rt, m1, m2, ?_, ?_, ?_, ?_, ?_, hg1, ?_, hg2⟩
  · simp [GetScene, hw, hS, hqs]
  · simp [GetScene, hw, hS, hqt]
  · rw [hsc]
    exact hss
  · rw [hsc]
    exact hst
  · simp only [viewScene, sceneOf, hes, viewExits]
    exact hm1
  · simp only [viewScene, sceneOf, het, viewExits]
    exact hm2

theorem TablesInStep_keys {R : Type} (w : World R) (h : Heap)
    (hin : TablesInStep w.Rooms w.Scenes h) : KeysAreIDs w h := by
  obtain ⟨rm, sm, hR, hS, hk, hall⟩ := hin
  have hroom : ∀ k p, GetRoom w k = some p → ∃ r, h.rooms[p]? = some r ∧ r.ID = k := by
    intro k p hg
    have hg' : mapGet rm k = some p := by simpa [GetRoom, hR] using hg
    obtain ⟨r, _, hr, hid, _, _⟩ := hall k p hg'
    exact ⟨r, hr, hid⟩
  refine ⟨hroom, ?_, ?_⟩
  · intro k q hg
    have hg' : mapGet sm k = some q := by
      unfold GetScene at hg
      rw [hS] at hg
      cases hm : mapGet sm k with
      | none => simp [hm] at hg
      | some q' =>
        simp only [hm, Except.ok.injEq] at hg
        rw [hg]
    obtain ⟨p, hp⟩ := mapGet_some_of_keys sm rm k q hk.symm hg'
    obtain ⟨r, q', _, hid, hq', hs⟩ := hall k p hp
    rw [hg'] at hq'
    cases hq'
    exact ⟨sceneOf r, hs, hid⟩
  · intro k1 k2 p1 p2 r1 r2 hg1 hg2 hr1 hr2 hne
    obtain ⟨r1', hr1', hid1⟩ := hroom k1 p1 hg1
    obtain ⟨r2', hr2', hid2⟩ := hroom k2 p2 hg2
    rw [hr1] at hr1'
    rw [hr2] at hr2'
    cases hr1'
    cases hr2'
    rw [hid1, hid2]
    exact hne

theorem registeredRun_reachable :
    Reachable counterRand registeredRun.2.1 registeredRun.2.2 :=
  Reachable.addRoom 1 (Reachable.addRoom 0 (Reachable.fresh 42 twoRoomHeap) rfl) rfl

theorem connectedRun_reachable :
    Reachable counterRand connectedRun.2.1 connectedRun.2.2 :=
  Reachable.connectRooms "room1" "room2" North .ok registeredRun_reachable rfl rfl

/-- C16. In every world reached from `NewWorld` by calls of `AddRoom`, `ConnectRooms` and
`GenerateWorld`, `Scenes` mirrors `Rooms`: the two tables have the same keys and under
every key the scene's ID, Description, Objects, Exits and Properties equal the room's;
and a successful `ConnectRooms` from there shows its two new exits in the scenes of the
two rooms. -/
theorem Reachable_scenes_mirror_rooms {R : Type} (ops : RandOps R) (w : World R) (h : Heap)
    (hreach : Reachable ops w h) :
    ScenesMirrorRooms w h ∧ ConnectionShowsInScenes w h :=
  ⟨TablesInStep_mirror w h (Reachable_tables_in_step ops w h hreach),
    TablesInStep_connection w h (Reachable_tables_in_step ops w h hreach)⟩

/-- Witness of C16 on the run of `TestConnectRooms`. -/
theorem Reachable_scenes_mirror_rooms_witness :
    Reachable counterRand connectedRun.2.1 connectedRun.2.2 ∧
    ScenesMirrorRooms connectedRun.2.1 connectedRun.2.2 ∧
    ConnectionShowsInScenes connectedRun.2.1 connectedRun.2.2 :=
  ⟨connectedRun_reachable,
    Reachable_scenes_mirror_rooms counterRand _ _ connectedRun_reachable⟩

/-- C18. In every world reached from `NewWorld` by calls of `AddRoom`, `ConnectRooms` and
`GenerateWorld`, each key of `Rooms` leads to a room whose ID is the key, each key of
`Scenes` to a scene whose ID is the key, and so no two registered rooms share an ID. -/
theorem Reachable_keys_are_ids {R : Type} (ops : RandOps R) (w : World R) (h : Heap)
    (hreach : Reachable ops w h) : KeysAreIDs w h :=
  TablesInStep_keys w h (Reachable_tables_in_step ops w h hreach)

/-- Witness of C18 on the two registered rooms of `TestConnectRooms`. -/
theorem Reachable_keys_are_ids_witness :
    Reachable counterRand registeredRun.2.1 registeredRun.2.2 ∧
    KeysAreIDs registeredRun.2.1 registeredRun.2.2 :=
  ⟨registeredRun_reachable, Reachable_keys_are_ids counterRand _ _ registeredRun_reachable⟩

/-! ### Writes to a registered room -/

theorem runWrites_keeps_maps (p e pr : Nat) (ws : List RoomWrite) :
    ∀ (h : Heap) (r : Room), h.rooms[p]? = some r → r.Exits = some e →
      r.Properties = some pr → e < h.exits.length → pr < h.props.length →
      ∃ h2 r2, runWrites h p ws = (.ok, h2) ∧ h2.rooms[p]? = some r2 ∧ r2.ID = r.ID ∧
        r2.Description = r.Description ∧ r2.Exits = some e ∧ r2.Properties = some pr ∧
        h2.scenes = h.scenes := by
  induction ws with
  | nil =>
    intro h r hr hE hP _ _
    exact ⟨h, r, rfl, hr, rfl, rfl, hE, hP, rfl⟩
  | cons c rest ih =>
    intro h r hr hE hP he hpr
    have hp : p < h.rooms.length := (List.getElem?_eq_some.mp hr).1
    cases c with
    | addObject obj =>
      have hrun : RoomWrite.run h p (.addObject obj) = (.ok, { h with
          rooms := h.rooms.set p { r with Objects := some (r.Objects.getD [] ++ [obj]) } }) := by
        simp [RoomWrite.run, Room.AddObject, hr]
      obtain ⟨h2, r2, h1', h2', h3', h4', h5', h6', h7'⟩ := ih
        { h with
          rooms := h.rooms.set p { r with Objects := some (r.Objects.getD [] ++ [obj]) } }
        { r with Objects := some (r.Objects.getD [] ++ [obj]) }
        (by simp [List.getElem?_set_self hp]) hE hP he hpr
      refine ⟨h2, r2, ?_, h2', h3', h4', h5', h6', h7'⟩
      simp only [runWrites, hrun]
      exact h1'
    | addExit d t =>
      have hm : h.exits[e]? = some (h.exits[e]) := List.getElem?_eq_getElem he
      have hrun : RoomWrite.run h p (.addExit d t) = (.ok, { h with
          exits := h.exits.set e (mapSet (h.exits[e]) d t) }) := by
        simp [RoomWrite.run, Room.AddExit, hr, hE, hm]
      obtain ⟨h2, r2, h1', h2', h3', h4', h5', h6', h7'⟩ := ih
        { h with exits := h.exits.set e (mapSet (h.exits[e]) d t) } r hr hE hP
        (by simpa using he) hpr
      refine ⟨h2, r2, ?_, h2', h3', h4', h5', h6', h7'⟩
      simp only [runWrites, hrun]
      exact h1'
    | setProperty k v =>
      have hm : h.props[pr]? = some (h.props[pr]) := List.getElem?_eq_getElem hpr
      have hrun : RoomWrite.run h p (.setProperty k v) = (.ok, { h with
          props := h.props.set pr (mapSet (h.props[pr]) k v) }) := by
        simp [RoomWrite.run, Room.SetProperty, hr, hP, hm]
      obtain ⟨h2, r2, h1', h2', h3', h4', h5', h6', h7'⟩ := ih
        { h with props := h.props.set pr (mapSet (h.props[pr]) k v) } r hr hE hP
        he (by simpa using hpr)
      refine ⟨h2, r2, ?_, h2', h3', h4', h5', h6', h7'⟩
      simp only [runWrites, hrun]
      exact h1'

/-- C17, as stated, fails. A room with initialised containers is registered and then
receives an object through `AddObject`: the room holds the object, the scene still holds
none. A room with uninitialised containers is registered and then receives an exit
through `AddExit`: the room has an `Exits` map, the scene still has the nil map. -/
theorem room_writes_not_all_mirrored :
    (objectRun.1 = .ok ∧
      GetScene (AddRoom (NewWorld counterRand 42) twoRoomHeap 0).2.1 "room1" = .ok 0 ∧
      (viewScenePtr objectRun.2 0).Objects ≠ (viewRoomPtr objectRun.2 0).Objects) ∧
    (lateExitRun.1 = .ok ∧
      GetScene (AddRoom (NewWorld counterRand 42) bareRoomHeap 0).2.1 "room1" = .ok 0 ∧
      (viewScenePtr lateExitRun.2 0).Exits ≠ (viewRoomPtr lateExitRun.2 0).Exits) := by
  refine ⟨⟨rfl, rfl, ?_⟩, ⟨rfl, rfl, ?_⟩⟩
  · intro hc
    have h1 : (viewScenePtr objectRun.2 0).Objects = some [] := rfl
    have h2 : (viewRoomPtr objectRun.2 0).Objects
        = some [{ ID := "obj1", Name := "Lamp", Description := "A brass lamp",
                  Properties := none }] := rfl
    rw [h1, h2] at hc
    simp at hc
  · intro hc
    have h1 : (viewScenePtr lateExitRun.2 0).Exits = none := rfl
    have h2 : (viewRoomPtr lateExitRun.2 0).Exits = some [("north", "room2")] := rfl
    rw [h1, h2] at hc
    simp at hc

/-- C17, amended. After `AddRoom` of a room whose `Exits` and `Properties` are initialised,
every sequence of later `AddObject`, `AddExit` and `SetProperty` calls on the room returns,
and after it the scene found by `GetScene` under the room's ID has Exits and Properties
equal to the room's, and the ID and Description of the room; its Objects are the ones
the room had when it was registered. -/
theorem registered_room_writes_mirrored {R : Type} (w : World R) (h : Heap) (p : Nat)
    (r : Room) (e pr : Nat) (sm : GoMap Nat) (ws : List RoomWrite)
    (hr : h.rooms[p]? = some r) (hS : w.Scenes = some sm)
    (hE : r.Exits = some e) (hP : r.Properties = some pr)
    (he : e < h.exits.length) (hpr : pr < h.props.length) :
    ∃ w1 h1 h2 r2 q s2,
      AddRoom w h p = (.ok, w1, h1) ∧ runWrites h1 p ws = (.ok, h2) ∧
      h2.rooms[p]? = some r2 ∧ GetScene w1 r.ID = .ok q ∧ h2.scenes[q]? = some s2 ∧
      (viewScene h2 s2).Exits = (viewRoom h2 r2).Exits ∧
      (viewScene h2 s2).Properties = (viewRoom h2 r2).Properties ∧
      s2.ID = r2.ID ∧ s2.Description = r2.Description ∧ s2.Objects = r.Objects := by
  obtain ⟨h2, r2, h1', h2', h3', h4', h5', h6', h7'⟩ :=
    runWrites_keeps_maps p e pr ws { h with scenes := h.scenes ++ [sceneOf r] } r hr hE hP
      he hpr
  refine ⟨{ w with Rooms := some (mapSet (w.Rooms.getD []) r.ID p),
                   Scenes := some (mapSet sm r.ID h.scenes.length) },
    { h with scenes := h.scenes ++ [sceneOf r] }, h2, r2, h.scenes.length, sceneOf r,
    ?_, h1', h2', ?_, ?_, ?_, ?_, ?_, ?_, rfl⟩
  · unfold AddRoom
    cases hro : w.Rooms <;> simp [hr, hS, hro]
  · simp [GetScene, mapGet_mapSet_self]
  · rw [h7']
    simp
  · simp [viewScene, viewRoom, sceneOf, hE, h5']
  · simp [viewScene, viewRoom, sceneOf, hP, h6']
  · simp [sceneOf, h3']
  · simp [sceneOf, h4']

/-- Witness of C17 amended: `room1` of `TestAddRoom`, registered in a fresh world, then
given an exit, a property and an object. -/
theorem registered_room_writes_mirrored_witness :
    ∃ w1 h1 h2 r2 q s2,
      AddRoom (NewWorld counterRand 42) twoRoomHeap 0 = (.ok, w1, h1) ∧
      runWrites h1 0 [.addExit "north" "room2", .setProperty "lit" (.bool true),
        .addObject lampObject] = (.ok, h2) ∧
      h2.rooms[0]? = some r2 ∧ GetScene w1 "room1" = .ok q ∧ h2.scenes[q]? = some s2 ∧
      (viewScene h2 s2).Exits = (viewRoom h2 r2).Exits ∧
      (viewScene h2 s2).Properties = (viewRoom h2 r2).Properties ∧
      s2.ID = r2.ID ∧ s2.Description = r2.Description ∧ s2.Objects = some [] :=
  registered_room_writes_mirrored (NewWorld counterRand 42) twoRoomHeap 0
    { ID := "room1", Description := "Room 1", Objects := some [],
      Exits := some 0, Properties := some 0 } 0 0 []
    [.addExit "north" "room2", .setProperty "lit" (.bool true), .addObject lampObject]
    rfl rfl rfl rfl (by decide) (by decide)

/-! ### Directions -/

/-- C24. For every direction value `d`: `IsValidDirection(d)` holds exactly when `d` is one
of north, south, east, west, exactly when `GetOppositeDirection(d)` is not the empty
marker; and for every valid `d` the opposite is valid, differs from `d`, and the opposite
of the opposite is `d` (north and south, east and west are exchanged). -/
theorem IsValidDirection_iff_opposite (d : Direction) :
    (IsValidDirection d = true ↔ d = North ∨ d = South ∨ d = East ∨ d = West) ∧
    (IsValidDirection d = true ↔ GetOppositeDirection d ≠ "") ∧
    (IsValidDirection d = true →
      IsValidDirection (GetOppositeDirection d) = true ∧ GetOppositeDirection d ≠ d ∧
      GetOppositeDirection (GetOppositeDirection d) = d) ∧
    GetOppositeDirection North = South ∧ GetOppositeDirection South = North ∧
    GetOppositeDirection East = West ∧ GetOppositeDirection West = East := by
  have hiff : IsValidDirection d = true ↔ d = North ∨ d = South ∨ d = East ∨ d = West := by
    unfold IsValidDirection
    split <;> simp_all
  refine ⟨hiff, ?_, ?_, by decide, by decide, by decide, by decide⟩
  · constructor
    · intro hv
      rcases hiff.mp hv with h | h | h | h <;> subst h <;> decide
    · intro hne
      by_contra hv
      apply hne
      have hnot : ¬ (d = North ∨ d = South ∨ d = East ∨ d = West) := fun hc => hv (hiff.mpr hc)
      simp only [not_or] at hnot
      obtain ⟨h1, h2, h3, h4⟩ := hnot
      simp [GetOppositeDirection, h1, h2, h3, h4]
  · intro hv
    refine ⟨?_, opposite_ne_self d hv, opposite_opposite d hv⟩
    rcases hiff.mp hv with h | h | h | h <;> subst h <;> decide

/-! ### ConnectRooms: what it leaves alone and when it completes -/

theorem exitsAt_set_of_ne (h : Heap) (e0 : Nat) (m : GoMap String) (k0 v : String)
    (hm : h.exits[e0]? = some m) (e : Nat) (k : String) (hne : ¬ (e = e0 ∧ k = k0)) :
    exitsAt { h with exits := h.exits.set e0 (mapSet m k0 v) } e k = exitsAt h e k := by
  have he0 : e0 < h.exits.length := (List.getElem?_eq_some.mp hm).1
  unfold exitsAt
  by_cases h1 : e = e0
  · subst h1
    have hk : k0 ≠ k := fun hc => hne ⟨rfl, hc.symm⟩
    simp only [List.getElem?_set_self he0, hm]
    exact mapGet_mapSet_of_ne _ _ _ _ hk
  · have h1' : e0 ≠ e := fun hc => h1 hc.symm
    simp only [List.getElem?_set_ne h1']

/-- C28. A successful `ConnectRooms(sourceID, targetID, d)` changes nothing but the two
written slots: the world value (Seed, Rooms, Scenes and their key sets) is the same, every
room and scene record (ID, Description, Objects, Properties) and every property map is
the same, no `Exits` map is created or removed, and every entry of every `Exits` map other
than `source.Exits[d]` and `target.Exits[Opposite(d)]` reads as before, also when source
and target are one room. -/
theorem ConnectRooms_changes_two_slots {R : Type} (w w1 : World R) (h h1 : Heap)
    (sourceID targetID : String) (d : Direction)
    (hres : ConnectRooms w h sourceID targetID d = (.ok, w1, h1)) :
    ∃ ps pt rs rt es et,
      GetRoom w sourceID = some ps ∧ GetRoom w targetID = some pt ∧
      h.rooms[ps]? = some rs ∧ h.rooms[pt]? = some rt ∧
      rs.Exits = some es ∧ rt.Exits = some et ∧
      w1 = w ∧ h1.rooms = h.rooms ∧ h1.scenes = h.scenes ∧ h1.props = h.props ∧
      h1.exits.length = h.exits.length ∧
      ∀ e k, ¬ (e = es ∧ k = d) → ¬ (e = et ∧ k = GetOppositeDirection d) →
        exitsAt h1 e k = exitsAt h e k := by
  obtain ⟨ps, pt, rs, rt, es, et, ms, mt, hgs, hgt, hrs, hrt, hes, het, hms, hmt, hw, hh⟩ :=
    ConnectRooms_ok_shape w w1 h h1 sourceID targetID d hres
  refine ⟨ps, pt, rs, rt, es, et, hgs, hgt, hrs, hrt, hes, het, hw, ?_, ?_, ?_, ?_, ?_⟩
  · rw [hh]
  · rw [hh]
  · rw [hh]
  · rw [hh]
    simp
  · intro e k hn1 hn2
    rw [hh]
    have step2 := exitsAt_set_of_ne
      { h with exits := h.exits.set es (mapSet ms d targetID) } et mt
      (GetOppositeDirection d) sourceID hmt e k hn2
    have step1 := exitsAt_set_of_ne h es ms d targetID hms e k hn1
    exact step2.trans step1

/-- Witness of C28 on the run of `TestConnectRooms`. -/
theorem ConnectRooms_changes_two_slots_witness :
    ∃ ps pt rs rt es et,
      GetRoom registeredRun.2.1 "room1" = some ps ∧
      GetRoom registeredRun.2.1 "room2" = some pt ∧
      registeredRun.2.2.rooms[ps]? = some rs ∧ registeredRun.2.2.rooms[pt]? = some rt ∧
      rs.Exits = some es ∧ rt.Exits = some et ∧
      connectedRun.2.1 = registeredRun.2.1 ∧
      connectedRun.2.2.rooms = registeredRun.2.2.rooms ∧
      connectedRun.2.2.scenes = registeredRun.2.2.scenes ∧
      connectedRun.2.2.props = registeredRun.2.2.props ∧
      connectedRun.2.2.exits.length = registeredRun.2.2.exits.length ∧
      ∀ e k, ¬ (e = es ∧ k = North) → ¬ (e = et ∧ k = GetOppositeDirection North) →
        exitsAt connectedRun.2.2 e k = exitsAt registeredRun.2.2 e k :=
  ConnectRooms_changes_two_slots registeredRun.2.1 connectedRun.2.1 registeredRun.2.2
    connectedRun.2.2 "room1" "room2" North rfl

theorem exitsAssign_none_of_nil (h : Heap) (p : Nat) (r : Room) (k v : String)
    (hr : h.rooms[p]? = some r) (hnil : r.Exits = none) : exitsAssign h p k v = none := by
  simp [exitsAssign, hr, hnil]

theorem exitsAssign_some_of_ref (h : Heap) (p : Nat) (r : Room) (e : Nat) (k v : String)
    (hr : h.rooms[p]? = some r) (he : r.Exits = some e) (hlt : e < h.exits.length) :
    exitsAssign h p k v
      = some { h with exits := h.exits.set e (mapSet (h.exits[e]) k v) } := by
  have hm : h.exits[e]? = some (h.exits[e]) := List.getElem?_eq_getElem hlt
  simp [exitsAssign, hr, he, hm]

/-- C29. `ConnectRooms` on two registered rooms completes exactly when the `Exits` of both
are initialised, and otherwise ends in a runtime panic. With an uninitialised source it
fails before any write; with an initialised source and an uninitialised target it fails
after `source.Exits[d]` has been set to `targetID`, which leaves a one-sided exit. And
`AddRoom` accepts a room whose `Exits` is uninitialised. -/
theorem ConnectRooms_completes_iff_initialised {R : Type} (w : World R) (h : Heap)
    (sourceID targetID : String) (d : Direction) (ps pt : Nat) (rs rt : Room)
    (hs : GetRoom w sourceID = some ps) (ht : GetRoom w targetID = some pt)
    (hrs : h.rooms[ps]? = some rs) (hrt : h.rooms[pt]? = some rt)
    (hvs : ∀ ref, rs.Exits = some ref → ref < h.exits.length)
    (hvt : ∀ ref, rt.Exits = some ref → ref < h.exits.length) :
    ((ConnectRooms w h sourceID targetID d).1 = .ok ↔
      rs.Exits ≠ none ∧ rt.Exits ≠ none) ∧
    ((ConnectRooms w h sourceID targetID d).1 ≠ .ok →
      (ConnectRooms w h sourceID targetID d).1.isPanic = true) ∧
    (rs.Exits = none →
      (ConnectRooms w h sourceID targetID d).1.isPanic = true ∧
      (ConnectRooms w h sourceID targetID d).2 = (w, h)) ∧
    (rs.Exits ≠ none → rt.Exits = none →
      (ConnectRooms w h sourceID targetID d).1.isPanic = true ∧
      (ConnectRooms w h sourceID targetID d).2.2.rooms = h.rooms ∧
      exitsLookup (ConnectRooms w h sourceID targetID d).2.2 rs d = some targetID ∧
      exitsLookup (ConnectRooms w h sourceID targetID d).2.2 rt (GetOppositeDirection d)
        = none) ∧
    (∀ (w0 : World R) (h0 : Heap) (p : Nat) (r : Room) (sm : GoMap Nat),
      w0.Scenes = some sm → h0.rooms[p]? = some r → r.Exits = none →
      (AddRoom w0 h0 p).1 = .ok ∧ GetRoom (AddRoom w0 h0 p).2.1 r.ID = some p) := by
  have hadd : ∀ (w0 : World R) (h0 : Heap) (p : Nat) (r : Room) (sm : GoMap Nat),
      w0.Scenes = some sm → h0.rooms[p]? = some r → r.Exits = none →
      (AddRoom w0 h0 p).1 = .ok ∧ GetRoom (AddRoom w0 h0 p).2.1 r.ID = some p := by
    intro w0 h0 p r sm hsm hr _
    cases hro : w0.Rooms <;>
      simp [AddRoom, hr, hsm, hro, GetRoom, mapGet_mapSet_self]
  cases hes : rs.Exits with
  | none =>
    have h1 := exitsAssign_none_of_nil h ps rs d targetID hrs hes
    have hc : ConnectRooms w h sourceID targetID d
        = (.panic "nil dereference or assignment to entry in nil map", w, h) := by
      simp [ConnectRooms, hs, ht, h1]
    rw [hc]
    refine ⟨by simp, by simp [Status.isPanic], by simp [Status.isPanic], by simp, hadd⟩
  | some es =>
    have hlt : es < h.exits.length := hvs es hes
    have h1 := exitsAssign_some_of_ref h ps rs es d targetID hrs hes hlt
    have hx1 : exitsAt { h with exits := h.exits.set es (mapSet (h.exits[es]) d targetID) }
        es d = some targetID := by
      simp [exitsAt, List.getElem?_set_self hlt, mapGet_mapSet_self]
    cases het : rt.Exits with
    | none =>
      have h2 := exitsAssign_none_of_nil
        { h with exits := h.exits.set es (mapSet (h.exits[es]) d targetID) } pt rt
        (GetOppositeDirection d) sourceID hrt het
      have hc : ConnectRooms w h sourceID targetID d
          = (.panic "nil dereference or assignment to entry in nil map", w,
              { h with exits := h.exits.set es (mapSet (h.exits[es]) d targetID) }) := by
        simp [ConnectRooms, hs, ht, h1, h2]
      rw [hc]
      refine ⟨by simp, by simp [Status.isPanic], by simp, ?_, hadd⟩
      intro _ _
      refine ⟨by simp [Status.isPanic], rfl, ?_, ?_⟩
      · simp only [exitsLookup, hes]
        exact hx1
      · simp [exitsLookup, het]
    | some et =>
      have hlt2 : et < (h.exits.set es (mapSet (h.exits[es]) d targetID)).length := by
        simpa using hvt et het
      have h2 := exitsAssign_some_of_ref
        { h with exits := h.exits.set es (mapSet (h.exits[es]) d targetID) } pt rt et
        (GetOppositeDirection d) sourceID hrt het hlt2
      have hc : (ConnectRooms w h sourceID targetID d).1 = .ok := by
        simp [ConnectRooms, hs, ht, h1, h2]
      rw [hc]
      refine ⟨by simp, by simp, by simp, by simp, hadd⟩

/-- Witness of C29: `room1` initialised and `room2` with uninitialised `Exits`, both
registered; `ConnectRooms("room1", "room2", North)`. -/
theorem ConnectRooms_completes_iff_initialised_witness :
    ((ConnectRooms twoRoomWorld halfRoomHeap "room1" "room2" North).1 = .ok ↔
      (some 0 : Option Nat) ≠ none ∧ (none : Option Nat) ≠ none) ∧
    (ConnectRooms twoRoomWorld halfRoomHeap "room1" "room2" North).1.isPanic = true ∧
    exitsLookup (ConnectRooms twoRoomWorld halfRoomHeap "room1" "room2" North).2.2
      { ID := "room1", Description := "Room 1", Objects := some [],
        Exits := some 0, Properties := some 0 } North = some "room2" :=
  ⟨(ConnectRooms_completes_iff_initialised twoRoomWorld halfRoomHeap "room1" "room2" North
      0 1
      { ID := "room1", Description := "Room 1", Objects := some [],
        Exits := some 0, Properties := some 0 }
      { ID := "room2", Description := "Room 2", Objects := none,
        Exits := none, Properties := none }
      rfl rfl rfl rfl (by intro ref hc; cases hc; decide)
      (by intro ref hc; cases hc)).1,
    ((ConnectRooms_completes_iff_initialised twoRoomWorld halfRoomHeap "room1" "room2" North
      0 1
      { ID := "room1", Description := "Room 1", Objects := some [],
        Exits := some 0, Properties := some 0 }
      { ID := "room2", Description := "Room 2", Objects := none,
        Exits := none, Properties := none }
      rfl rfl rfl rfl (by intro ref hc; cases hc; decide)
      (by intro ref hc; cases hc)).2.2.2.1 (by decide) rfl).1,
    ((ConnectRooms_completes_iff_initialised twoRoomWorld halfRoomHeap "room1" "room2" North
      0 1
      { ID := "room1", Description := "Room 1", Objects := some [],
        Exits := some 0, Properties := some 0 }
      { ID := "room2", Description := "Room 2", Objects := none,
        Exits := none, Properties := none }
      rfl rfl rfl rfl (by intro ref hc; cases hc; decide)
      (by intro ref hc; cases hc)).2.2.2.1 (by decide) rfl).2.2.1⟩

/-! ### AddRoom on a world without a scene table -/

theorem AddRoom_panics_of_nil_scenes {R : Type} (w : World R) (h : Heap) (q : Nat)
    (hsc : w.Scenes = none) : (AddRoom w h q).1.isPanic = true := by
  cases hr : h.rooms[q]? <;> cases hro : w.Rooms <;>
    simp [AddRoom, hr, hsc, hro, Status.isPanic]

/-- C30. `AddRoom` of an allocated room fails at runtime exactly when `Scenes` is
uninitialised: an uninitialised `Rooms` alone is created and the room registered, while
`Scenes` is written with no check. So `AddRoom` cannot be used on the world `LoadWorld`
decodes from a document without the `scenes` field. -/
theorem AddRoom_panics_iff_scenes_nil {R : Type} (ops : RandOps R) (w : World R) (h : Heap)
    (p : Nat) (r : Room) (hr : h.rooms[p]? = some r) :
    ((AddRoom w h p).1.isPanic = true ↔ w.Scenes = none) ∧
    ((AddRoom w h p).1 = .ok ↔ w.Scenes ≠ none) ∧
    (w.Rooms = none → w.Scenes ≠ none →
      (AddRoom w h p).1 = .ok ∧ GetRoom (AddRoom w h p).2.1 r.ID = some p) ∧
    (∀ (B F : Type) (env : Env B F) (fs : F) (h0 : Heap) (filename : String) (data : B)
        (doc : WorldDoc),
      env.ReadFile fs filename = .ok data → env.Unmarshal data = .ok doc →
      doc.Scenes = none →
      ∃ (w1 : World R) (h1 : Heap), LoadWorld env ops fs h0 filename = (.ok w1, h1) ∧
        w1.Scenes = none ∧ ∀ q, (AddRoom w1 h1 q).1.isPanic = true) := by
  refine ⟨?_, ?_, ?_, ?_⟩
  · cases hsc : w.Scenes <;> cases hro : w.Rooms <;>
      simp [AddRoom, hr, hsc, hro, Status.isPanic]
  · cases hsc : w.Scenes <;> cases hro : w.Rooms <;>
      simp [AddRoom, hr, hsc, hro]
  · intro hro hsc
    cases hsm : w.Scenes with
    | none => exact absurd hsm hsc
    | some sm => simp [AddRoom, hr, hsm, hro, GetRoom, mapGet_mapSet_self]
  · intro B F env fs h0 filename data doc hread hdec hnil
    refine ⟨{ Seed := doc.Seed, Rooms := (buildTableField buildRoomTable h0 doc.Rooms).1,
              Scenes := none, rng := ops.NewSource doc.Seed },
      (buildTableField buildRoomTable h0 doc.Rooms).2, ?_, rfl, ?_⟩
    · simp only [LoadWorld, hread, hdec, hnil, buildTableField]
    · intro q
      exact AddRoom_panics_of_nil_scenes _ _ q rfl

/-- Witness of C30: a room added to the world `LoadWorld` decodes from a document with no
`scenes` field. -/
theorem AddRoom_panics_iff_scenes_nil_witness :
    LoadWorld plainEnv counterRand [("world.json", noScenesDoc)] bareRoomHeap "world.json"
      = (.ok { Seed := 42, Rooms := some [], Scenes := none, rng := 42 }, bareRoomHeap) ∧
    ((AddRoom ({ Seed := 42, Rooms := some [], Scenes := none, rng := 42 } : World Nat)
        bareRoomHeap 0).1.isPanic = true ↔ (none : Option (GoMap Nat)) = none) :=
  ⟨rfl, (AddRoom_panics_iff_scenes_nil counterRand
    ({ Seed := 42, Rooms := some [], Scenes := none, rng := 42 } : World Nat) bareRoomHeap 0
    _ rfl).1⟩

/-! ### Room creation: the predeclared exits -/

theorem mapSet_of_not_mem {V : Type} (m : GoMap V) (k : String) (v : V)
    (hk : k ∉ mapKeys m) : mapSet m k v = m ++ [(k, v)] := by
  induction m with
  | nil => rfl
  | cons kv rest ih =>
    obtain ⟨k1, v1⟩ := kv
    simp only [mapKeys, List.map_cons, List.mem_cons, not_or] at hk
    have hne : ¬ k1 = k := fun hc => hk.1 hc.symm
    simp only [mapSet, hne, if_false, List.cons_append, List.cons.injEq, true_and]
    exact ih hk.2

theorem foldl_mapSet_unresolved (exits : List String) :
    ∀ (m : GoMap String), (mapKeys m ++ exits).Nodup →
      exits.foldl (fun m e => mapSet m e "") m = m ++ exits.map (fun e => (e, "")) := by
  induction exits with
  | nil =>
    intro m _
    simp
  | cons e rest ih =>
    intro m hnd
    have hnot : e ∉ mapKeys m := by
      intro hc
      have := List.nodup_append.mp hnd
      exact this.2.2 hc (List.mem_cons_self _ _)
    simp only [List.foldl_cons, List.map_cons]
    rw [mapSet_of_not_mem m e "" hnot]
    rw [ih (m ++ [(e, "")])]
    · simp
    · have : mapKeys (m ++ [(e, "")]) ++ rest = mapKeys m ++ e :: rest := by
        simp [mapKeys]
      rw [this]
      exact hnd

theorem mapGet_unresolved (exits : List String) (k : String) (hk : k ∈ exits) :
    mapGet (exits.map (fun e => (e, ""))) k = some "" := by
  induction exits with
  | nil => cases hk
  | cons e rest ih =>
    by_cases he : e = k
    · simp [mapGet, he]
    · have hk' : k ∈ rest := by
        rcases List.mem_cons.mp hk with h | h
        · exact absurd h.symm he
        · exact h
      simp only [List.map_cons, mapGet, he, if_false]
      exact ih hk'

theorem exitMap_of_nodup (exits : List String) (hnodup : exits.Nodup) :
    exits.foldl (fun m e => mapSet m e "") ([] : GoMap String)
      = exits.map (fun e => (e, "")) := by
  have h := foldl_mapSet_unresolved exits [] (by simpa [mapKeys] using hnodup)
  simpa using h

/-- C25. For every non-empty description and every duplicate-free list of exit names, with
no description collaborator configured, `GenerateRoom` and `World.generateRoom` return a
room whose Description is the input, whose `Exits` has exactly the listed names as keys,
each mapped to the unresolved value `""` (so `len(Exits) = len(exits)`), and whose
Objects and Properties are empty. With an empty description both return an error and
allocate no room. -/
theorem GenerateRoom_predeclares_exits {R : Type} (ops : RandOps R) (w : World R)
    (h : Heap) (description : String) (exits : List String) (now roomCounter : Int)
    (hne : description ≠ "") (hnodup : exits.Nodup) :
    (∃ p c h1 r e pr m,
      GenerateRoom none now roomCounter h description exits = (.ok p, c, h1) ∧
      h1.rooms[p]? = some r ∧ r.Description = description ∧ r.Objects = some [] ∧
      r.Exits = some e ∧ h1.exits[e]? = some m ∧ mapKeys m = exits ∧
      (∀ k, k ∈ exits → mapGet m k = some "") ∧ m.length = exits.length ∧
      r.Properties = some pr ∧ h1.props[pr]? = some []) ∧
    (∃ p w1 h1 r e pr m,
      generateRoom ops none w h description exits = (.ok p, w1, h1) ∧
      h1.rooms[p]? = some r ∧ r.Description = description ∧ r.Objects = some [] ∧
      r.Exits = some e ∧ h1.exits[e]? = some m ∧ mapKeys m = exits ∧
      (∀ k, k ∈ exits → mapGet m k = some "") ∧ m.length = exits.length ∧
      r.Properties = some pr ∧ h1.props[pr]? = some []) ∧
    GenerateRoom none now roomCounter h "" exits
      = (.error "room description cannot be empty", roomCounter, h) ∧
    generateRoom ops none w h "" exits = (.error "room description cannot be empty", w, h) := by
  have hkeys : mapKeys (exits.map (fun e => (e, ""))) = exits := by
    simp [mapKeys, Function.comp_def]
  refine ⟨?_, ?_, by simp [GenerateRoom], by simp [generateRoom]⟩
  · simp only [GenerateRoom, hne, if_false, exitMap_of_nodup exits hnodup]
    exact ⟨_, _, _, _, h.exits.length, h.props.length, _, rfl,
      allocRoom_rooms_new _ _ _, rfl, rfl, rfl, by simp [allocRoom], hkeys,
      mapGet_unresolved exits, by simp, rfl, by simp [allocRoom]⟩
  · simp only [generateRoom, hne, if_false, exitMap_of_nodup exits hnodup]
    exact ⟨_, _, _, _, h.exits.length, h.props.length, _, rfl,
      allocRoom_rooms_new _ _ _, rfl, rfl, rfl, by simp [allocRoom], hkeys,
      mapGet_unresolved exits, by simp, rfl, by simp [allocRoom]⟩

/-- Witness of C25: the call of `TestWorldGenWithLogging`, "A test room with logging" with
the exits north and south. -/
theorem GenerateRoom_predeclares_exits_witness :
    (∃ p c h1 r e pr m,
      GenerateRoom none 1700000000 0 Heap.empty "A test room with logging"
        ["north", "south"] = (.ok p, c, h1) ∧
      h1.rooms[p]? = some r ∧ r.Description = "A test room with logging" ∧
      r.Objects = some [] ∧
      r.Exits = some e ∧ h1.exits[e]? = some m ∧ mapKeys m = ["north", "south"] ∧
      (∀ k, k ∈ ["north", "south"] → mapGet m k = some "") ∧
      m.length = ["north", "south"].length ∧
      r.Properties = some pr ∧ h1.props[pr]? = some []) :=
  (GenerateRoom_predeclares_exits counterRand (NewWorld counterRand 12345) Heap.empty
    "A test room with logging" ["north", "south"] 1700000000 0 (by decide) (by decide)).1

/-! ### QuantumLogger: rotation of the buffer -/

theorem processLogs_from (B : Nat) (hB : 1 ≤ B) (entries : List LogEntry) :
    ∀ (buffer : List LogEntry), buffer.length ≤ B →
      processLogs (B : Int) buffer entries
        = some ((buffer ++ entries).drop ((buffer ++ entries).length - B)) := by
  induction entries with
  | nil =>
    intro buffer hlen
    have h0 : buffer.length - B = 0 := by omega
    simp [processLogs, h0]
  | cons e rest ih =>
    intro buffer hlen
    by_cases hfull : (buffer.length : Int) ≥ (B : Int)
    · have hlenB : buffer.length = B := by omega
      cases buffer with
      | nil =>
        simp only [List.length_nil] at hlenB
        omega
      | cons x xs =>
        have hstep : processEntry (B : Int) (x :: xs) e = some (xs ++ [e]) := by
          simp only [processEntry, hfull, if_true]
        simp only [List.length_cons] at hlenB
        have hlen1 : (xs ++ [e]).length ≤ B := by
          simp only [List.length_append, List.length_cons, List.length_nil]
          omega
        simp only [processLogs, hstep]
        rw [ih (xs ++ [e]) hlen1]
        have e1 : (xs ++ [e] ++ rest).length - B = rest.length := by
          simp only [List.length_append, List.length_cons, List.length_nil]
          omega
        have e2 : (x :: xs ++ e :: rest).length - B = rest.length + 1 := by
          simp only [List.length_append, List.length_cons]
          omega
        rw [e1, e2]
        simp
    · have hstep : processEntry (B : Int) buffer e = some (buffer ++ [e]) := by
        simp only [processEntry, hfull, if_false]
      have hlt : buffer.length < B := by omega
      have hlen1 : (buffer ++ [e]).length ≤ B := by
        simp only [List.length_append, List.length_cons, List.length_nil]
        omega
      simp only [processLogs, hstep]
      rw [ih (buffer ++ [e]) hlen1]
      simp

/-- C26. The rotation of `QuantumLogger` keeps the most recent entries: for every
`bufferSize >= 1` and every sequence of entries handled in order by `processLogs`,
starting from the empty buffer of `NewQuantumLogger`, the buffer afterwards holds exactly
the last `min(k, bufferSize)` of the `k` entries, in arrival order, so its length never
exceeds `bufferSize`. -/
theorem processLogs_keeps_most_recent (bufferSize : Int) (entries : List LogEntry)
    (hB : 1 ≤ bufferSize) :
    ∃ buffer, processLogs bufferSize [] entries = some buffer ∧
      buffer = entries.drop (entries.length - min entries.length bufferSize.toNat) ∧
      buffer.length = min entries.length bufferSize.toNat ∧
      (buffer.length : Int) ≤ bufferSize := by
  have hcast : ((bufferSize.toNat : Nat) : Int) = bufferSize := Int.toNat_of_nonneg (by omega)
  have hB' : 1 ≤ bufferSize.toNat := by omega
  have hrun := processLogs_from bufferSize.toNat hB' entries [] (by simp)
  rw [hcast] at hrun
  simp only [List.nil_append] at hrun
  have hidx : entries.length - min entries.length bufferSize.toNat
      = entries.length - bufferSize.toNat := by omega
  refine ⟨_, hrun, by rw [hidx], ?_, ?_⟩
  · simp only [List.length_drop]
    omega
  · simp only [List.length_drop]
    omega

/-- Witness of C26: `TestLogRotation`, a buffer of 5 and the messages 0 to 9, which leaves
the messages 5 to 9. -/
theorem processLogs_keeps_most_recent_witness :
    (∃ buffer, processLogs 5 [] rotationEntries = some buffer ∧
      buffer = rotationEntries.drop
        (rotationEntries.length - min rotationEntries.length (5 : Int).toNat) ∧
      buffer.length = min rotationEntries.length (5 : Int).toNat ∧
      (buffer.length : Int) ≤ 5) ∧
    processLogs 5 [] rotationEntries
      = some [rotationEntry 5, rotationEntry 6, rotationEntry 7, rotationEntry 8,
          rotationEntry 9] :=
  ⟨processLogs_keeps_most_recent 5 rotationEntries (by decide), by decide⟩

/-! ### GenerateWorld: the first additional room -/

/-- C27. For every non-empty prompt and every `n >= 2` on any world: if the ID generated
for the first additional room differs from the hub's ID, `GenerateWorld` returns an error
and leaves the world holding exactly one room, the hub, with an empty `Exits` mapping.
Unless `n * 10` overflows, the error is the one of `ConnectRooms`, which is handed the new
room before `AddRoom` has registered it. -/
theorem GenerateWorld_fresh_id_is_error {R : Type} (ops : RandOps R) (aiProvider : Provider)
    (w : World R) (h : Heap) (basePrompt : String) (numRooms : Int)
    (hn : 2 ≤ numRooms) (hp : basePrompt ≠ "") (hrange : IntnInRange ops)
    (hfresh : hubID ops w ≠ firstAddedID ops w) :
    ∃ msg w1 h1 hub,
      GenerateWorld ops aiProvider w h basePrompt numRooms = (.error msg, w1, h1) ∧
      w1.Rooms = some [(hubID ops w, h.rooms.length)] ∧ roomCount w1 = 1 ∧
      h1.rooms[h.rooms.length]? = some hub ∧ hub.ID = hubID ops w ∧
      hub.Exits = some h.exits.length ∧ h1.exits[h.exits.length]? = some [] ∧
      (numRooms * 10 < 2 ^ 63 →
        msg = "failed to connect rooms: " ++
          ("target room " ++ firstAddedID ops w ++ " not found")) := by
  rw [GenerateWorld_valid ops aiProvider w h basePrompt numRooms (by omega) hp]
  have hroom : (hubHeap ops aiProvider w h basePrompt).rooms[h.rooms.length]?
      = some (hubRoom ops aiProvider w h basePrompt) := by simp [hubHeap]
  have hex0 : (hubHeap ops aiProvider w h basePrompt).exits[h.exits.length]? = some [] := by
    simp [hubHeap]
  have hcount : roomCount (hubWorld ops w h) = 1 := by simp [roomCount, hubWorld, mapKeys]
  have hrem : ¬ (numRooms - 1 ≤ 0) := by omega
  have hrem' : numRooms - 1 > 0 := by omega
  cases hb : (wrapInt64 (numRooms * 10)).toNat with
  | zero =>
    refine ⟨"failed to generate all rooms after " ++ toString (wrapInt64 (numRooms * 10))
        ++ " attempts", hubWorld ops w h, hubHeap ops aiProvider w h basePrompt,
      hubRoom ops aiProvider w h basePrompt, ?_, rfl, hcount, hroom, rfl, rfl, hex0, ?_⟩
    · simp only [growLoop, loopExit, hrem', if_true]
    · intro hsmall
      exfalso
      have hw : wrapInt64 (numRooms * 10) = numRooms * 10 := by
        unfold wrapInt64
        omega
      rw [hw] at hb
      omega
  | succ b =>
    obtain ⟨res, hstop, _, hrooms, hexits, herr⟩ :=
      growStep_hub_fresh ops aiProvider w h basePrompt (numRooms - 1) hp hfresh
    have herr' := herr (hrange 1 _ (by decide)) (hrange 4 _ (by decide))
    have hnp : res.1.isPanic = false := by
      rw [herr']
      rfl
    obtain ⟨_, _, hpre, _⟩ := growStep_stop_cases _ _ _ _ _ _ _ _ hstop hnp
    have hroom' := prefix_getElem? _ _ hpre _ _ hroom
    refine ⟨"failed to connect rooms: " ++
        ("target room " ++ firstAddedID ops w ++ " not found"), res.2.1, res.2.2,
      hubRoom ops aiProvider w h basePrompt, ?_, hrooms, ?_,
      hroom', rfl, rfl, hexits, fun _ => rfl⟩
    · simp only [growLoop, hrem, if_false, hstop]
      obtain ⟨st, w1, h1⟩ := res
      simp only at herr'
      rw [herr']
    · simp [roomCount, hrooms, mapKeys]

/-- Witness of C27: the call of `TestGenerateWorld`, seed 42, "A mysterious castle" and
three rooms, with a counter as random source. -/
theorem GenerateWorld_fresh_id_is_error_witness :
    ∃ msg w1 h1 hub,
      GenerateWorld counterRand none (NewWorld counterRand 42) Heap.empty
        "A mysterious castle" 3 = (.error msg, w1, h1) ∧
      w1.Rooms = some [(hubID counterRand (NewWorld counterRand 42), Heap.empty.rooms.length)] ∧
      roomCount w1 = 1 ∧
      h1.rooms[Heap.empty.rooms.length]? = some hub ∧
      hub.ID = hubID counterRand (NewWorld counterRand 42) ∧
      hub.Exits = some Heap.empty.exits.length ∧
      h1.exits[Heap.empty.exits.length]? = some [] ∧
      ((3 : Int) * 10 < 2 ^ 63 →
        msg = "failed to connect rooms: " ++
          ("target room " ++ firstAddedID counterRand (NewWorld counterRand 42)
            ++ " not found")) :=
  GenerateWorld_fresh_id_is_error counterRand none (NewWorld counterRand 42) Heap.empty
    "A mysterious castle" 3 (by decide) (by decide)
    (fun n r hpos => Nat.mod_lt r hpos) (by decide)

/-! ### GenerateWorld: the rooms of earlier calls -/

theorem mapGet_mapSet_cases {V : Type} (m : GoMap V) (k k1 : String) (v x : V)
    (hg : mapGet (mapSet m k v) k1 = some x) : (k1 = k ∧ x = v) ∨ mapGet m k1 = some x := by
  by_cases hk : k = k1
  · subst hk
    rw [mapGet_mapSet_self] at hg
    cases hg
    exact Or.inl ⟨rfl, rfl⟩
  · rw [mapGet_mapSet_of_ne _ _ _ _ hk] at hg
    exact Or.inr hg

theorem TablesSince_of_prefix (n m : Nat) (rooms scenes : Option (GoMap Nat)) (h h1 : Heap)
    (hro : h.rooms <+: h1.rooms) (hsc : h.scenes <+: h1.scenes)
    (hin : TablesSince n m rooms scenes h) : TablesSince n m rooms scenes h1 := by
  obtain ⟨h1', h2', h3', h4'⟩ := hin
  exact ⟨le_trans h1' hro.length_le, le_trans h2' hsc.length_le, h3', h4'⟩

theorem TablesSince_AddRoom {R : Type} (n m : Nat) (w w1 : World R) (h h1 : Heap) (p : Nat)
    (hp : n ≤ p) (hin : TablesSince n m w.Rooms w.Scenes h)
    (hres : AddRoom w h p = (.ok, w1, h1)) : TablesSince n m w1.Rooms w1.Scenes h1 := by
  obtain ⟨hn, hm, hR, hS⟩ := hin
  obtain ⟨r, sm, hr, hsm, hw, hh⟩ := AddRoom_ok_shape w w1 h h1 p hres
  subst hw
  subst hh
  refine ⟨hn, ?_, ?_, ?_⟩
  · simp only [List.length_append, List.length_cons, List.length_nil]
    omega
  · intro rm k q hrm hg
    simp only [Option.some.injEq] at hrm
    subst hrm
    rcases mapGet_mapSet_cases _ _ _ _ _ hg with ⟨_, hq⟩ | hold
    · rw [hq]
      exact hp
    · cases hro : w.Rooms with
      | none => simp [hro, mapGet] at hold
      | some rm0 =>
        simp only [hro, Option.getD_some] at hold
        exact hR rm0 k q hro hold
  · intro sm1 k q hsm1 hg
    simp only [Option.some.injEq] at hsm1
    subst hsm1
    rcases mapGet_mapSet_cases _ _ _ _ _ hg with ⟨_, hq⟩ | hold
    · rw [hq]
      exact hm
    · exact hS sm k q hsm hold

theorem TablesSince_growStep_next {R : Type} (n m : Nat) (ops : RandOps R) (p : Provider)
    (prompt : String) (rem rem1 : Int) (cur cur1 : List Nat) (w w1 : World R) (h h1 : Heap)
    (hin : TablesSince n m w.Rooms w.Scenes h)
    (hstep : growStep ops p prompt rem cur w h = .next rem1 cur1 w1 h1) :
    TablesSince n m w1.Rooms w1.Scenes h1 := by
  rcases growStep_next_cases ops p prompt rem rem1 cur cur1 w w1 h h1 hstep with
    ⟨_, _, hh, _, hR, hS⟩ | ⟨sp, sr, dir, w2, h4, _, _, _, _, hR2, hS2, hconn, hadd, _, _⟩
  · rw [hh, hR, hS]
    exact hin
  · have h3 : TablesSince n m w2.Rooms w2.Scenes
        (allocRoom h (newRoom ops p w2 h (generateDirectionalPrompt prompt dir))
          [(GetOppositeDirection dir, "")]) := by
      rw [hR2, hS2]
      exact TablesSince_of_prefix _ _ _ _ h _ (allocRoom_extends _ _ _).1
        (allocRoom_extends _ _ _).2 hin
    obtain ⟨_, hr4, hs4⟩ := ConnectRooms_frame _ _ _ _ _ _ _ _ hconn
    have h4' : TablesSince n m
        ({ w2 with rng := (ops.Int63 w2.rng).2 } : World R).Rooms
        ({ w2 with rng := (ops.Int63 w2.rng).2 } : World R).Scenes h4 :=
      TablesSince_of_prefix _ _ _ _ _ h4 (by rw [hr4]) (by rw [hs4]) h3
    exact TablesSince_AddRoom n m _ w1 h4 h1 h.rooms.length hin.1 h4' hadd

theorem TablesSince_growLoop {R : Type} (n m : Nat) (ops : RandOps R) (p : Provider)
    (prompt : String) (L : Int) (budget : Nat) :
    ∀ (rem : Int) (cur : List Nat) (w w1 : World R) (h h1 : Heap) (st : Status),
      TablesSince n m w.Rooms w.Scenes h →
      growLoop ops p prompt L budget rem cur w h = (st, w1, h1) →
      st.isPanic = false → TablesSince n m w1.Rooms w1.Scenes h1 := by
  have hexit : ∀ (rem : Int) (w w1 : World R) (h h1 : Heap) (st : Status),
      TablesSince n m w.Rooms w.Scenes h → loopExit L rem w h = (st, w1, h1) →
      TablesSince n m w1.Rooms w1.Scenes h1 := by
    intro rem w w1 h h1 st hin hres
    unfold loopExit at hres
    split at hres <;> cases hres <;> exact hin
  induction budget with
  | zero =>
    intro rem cur w w1 h h1 st hin hres _
    simp only [growLoop] at hres
    exact hexit rem w w1 h h1 st hin hres
  | succ b ih =>
    intro rem cur w w1 h h1 st hin hres hnp
    simp only [growLoop] at hres
    split at hres
    · exact hexit rem w w1 h h1 st hin hres
    · split at hres
      · rename_i res hstop
        subst hres
        obtain ⟨hR, hS, hro, hsc⟩ := growStep_stop_cases _ _ _ _ _ _ _ _ hstop hnp
        dsimp only at hR hS hro hsc ⊢
        rw [hR, hS]
        exact TablesSince_of_prefix _ _ _ _ h h1 hro hsc hin
      · rename_i rem1 cur1 w2 h2 hnext
        exact ih rem1 cur1 w2 w1 h2 h1 st
          (TablesSince_growStep_next _ _ _ _ _ _ _ _ _ _ _ _ _ hin hnext) hres hnp

theorem TablesSince_hub {R : Type} (ops : RandOps R) (p : Provider) (w : World R)
    (h : Heap) (prompt : String) :
    TablesSince h.rooms.length h.scenes.length (hubWorld ops w h).Rooms
      (hubWorld ops w h).Scenes (hubHeap ops p w h prompt) := by
  refine ⟨by simp [hubHeap], by simp [hubHeap], ?_, ?_⟩
  · intro rm k q hrm hg
    simp only [hubWorld, Option.some.injEq] at hrm
    subst hrm
    obtain ⟨_, hq⟩ := mapGet_singleton _ _ _ _ hg
    omega
  · intro sm k q hsm hg
    simp only [hubWorld, Option.some.injEq] at hsm
    subst hsm
    obtain ⟨_, hq⟩ := mapGet_singleton _ _ _ _ hg
    omega

/-- C22. `GenerateWorld` replaces the room set wholesale: for every world, whatever rooms
it holds, and every valid input (`n > 0`, non-empty prompt), when the call returns, with
or without error, every room and every scene registered in the world was allocated during
the call, and no room allocated before the call is registered any more. -/
theorem GenerateWorld_replaces_rooms {R : Type} (ops : RandOps R) (aiProvider : Provider)
    (w w1 : World R) (h h1 : Heap) (basePrompt : String) (numRooms : Int) (st : Status)
    (hn : 0 < numRooms) (hp : basePrompt ≠ "")
    (hres : GenerateWorld ops aiProvider w h basePrompt numRooms = (st, w1, h1))
    (hnp : st.isPanic = false) :
    (∀ k p, GetRoom w1 k = some p → h.rooms.length ≤ p ∧ p < h1.rooms.length) ∧
    (∀ k q, GetScene w1 k = .ok q → h.scenes.length ≤ q ∧ q < h1.scenes.length) ∧
    (∀ k p, p < h.rooms.length → GetRoom w1 k ≠ some p) ∧
    (∀ k q, q < h.scenes.length → GetScene w1 k ≠ .ok q) := by
  rw [GenerateWorld_valid ops aiProvider w h basePrompt numRooms hn hp] at hres
  have hsince := TablesSince_growLoop _ _ _ _ _ _ _ _ _ _ _ _ _ _
    (TablesSince_hub ops aiProvider w h basePrompt) hres hnp
  have hstep := TablesInStep_growLoop _ _ _ _ _ _ _ _ _ _ _ _
    (TablesInStep_hub ops aiProvider w h basePrompt) hres hnp
  obtain ⟨_, _, hlowR, hlowS⟩ := hsince
  have hkeys := TablesInStep_keys w1 h1 hstep
  obtain ⟨hkR, hkS, _⟩ := hkeys
  have hroom : ∀ k p, GetRoom w1 k = some p → h.rooms.length ≤ p ∧ p < h1.rooms.length := by
    intro k p hg
    obtain ⟨r, hr, _⟩ := hkR k p hg
    refine ⟨?_, (List.getElem?_eq_some.mp hr).1⟩
    unfold GetRoom at hg
    cases hrm : w1.Rooms with
    | none => simp [hrm] at hg
    | some rm =>
      simp only [hrm] at hg
      exact hlowR rm k p hrm hg
  have hscene : ∀ k q, GetScene w1 k = .ok q →
      h.scenes.length ≤ q ∧ q < h1.scenes.length := by
    intro k q hg
    obtain ⟨s, hs, _⟩ := hkS k q hg
    refine ⟨?_, (List.getElem?_eq_some.mp hs).1⟩
    unfold GetScene at hg
    cases hsm : w1.Scenes with
    | none => simp [hsm] at hg
    | some sm =>
      simp only [hsm] at hg
      cases hm : mapGet sm k with
      | none => simp [hm] at hg
      | some q1 =>
        simp only [hm, Except.ok.injEq] at hg
        subst hg
        exact hlowS sm k q1 hsm hm
  refine ⟨hroom, hscene, ?_, ?_⟩
  · intro k p hlt hc
    have := (hroom k p hc).1
    omega
  · intro k q hlt hc
    have := (hscene k q hc).1
    omega

/-- Witness of C22: the world of `TestConnectRooms`, `room1` and `room2` registered, then
`GenerateWorld("castle", 1)`. -/
theorem GenerateWorld_replaces_rooms_witness :
    (∀ k p, GetRoom (GenerateWorld counterRand none registeredRun.2.1 registeredRun.2.2
        "castle" 1).2.1 k = some p →
      registeredRun.2.2.rooms.length ≤ p ∧
      p < (GenerateWorld counterRand none registeredRun.2.1 registeredRun.2.2
        "castle" 1).2.2.rooms.length) ∧
    (∀ k q, GetScene (GenerateWorld counterRand none registeredRun.2.1 registeredRun.2.2
        "castle" 1).2.1 k = .ok q →
      registeredRun.2.2.scenes.length ≤ q ∧
      q < (GenerateWorld counterRand none registeredRun.2.1 registeredRun.2.2
        "castle" 1).2.2.scenes.length) ∧
    (∀ k p, p < registeredRun.2.2.rooms.length →
      GetRoom (GenerateWorld counterRand none registeredRun.2.1 registeredRun.2.2
        "castle" 1).2.1 k ≠ some p) ∧
    (∀ k q, q < registeredRun.2.2.scenes.length →
      GetScene (GenerateWorld counterRand none registeredRun.2.1 registeredRun.2.2
        "castle" 1).2.1 k ≠ .ok q) :=
  GenerateWorld_replaces_rooms counterRand none registeredRun.2.1 _ registeredRun.2.2 _
    "castle" 1 .ok (by decide) (by decide) rfl rfl

/-! ### GenerateWorld: termination and the attempt budget -/

theorem AddRoom_rooms {R : Type} (w : World R) (h : Heap) (p : Nat) :
    (AddRoom w h p).2.2.rooms = h.rooms := by
  unfold AddRoom
  cases h.rooms[p]? with
  | none => rfl
  | some r => cases hro : w.Rooms <;> cases hsc : w.Scenes <;> simp [hsc]

theorem growStep_stop_rooms_le {R : Type} (ops : RandOps R) (p : Provider) (prompt : String)
    (rem : Int) (cur : List Nat) (w : World R) (h : Heap) (res : Status × World R × Heap)
    (hstep : growStep ops p prompt rem cur w h = .stop res) :
    res.2.2.rooms.length ≤ h.rooms.length + 1 := by
  unfold growStep at hstep
  split at hstep
  · cases hstep
    simp
  · split at hstep
    · cases hstep
      simp
    · split at hstep
      · cases hstep
        simp
      · dsimp only at hstep
        split at hstep
        · cases hstep
        · split at hstep
          · cases hstep
            simp
          · rename_i direction hdir
            by_cases hp : generateDirectionalPrompt prompt direction = ""
            · rw [hp, generateRoom_of_empty] at hstep
              cases hstep
              simp
            · rw [generateRoom_of_ne _ _ _ _ _ _ hp] at hstep
              dsimp only at hstep
              rw [allocRoom_rooms_new] at hstep
              dsimp only at hstep
              split at hstep
              · rename_i e w4 h4 hconn
                cases hstep
                obtain ⟨_, hr, _⟩ := ConnectRooms_frame _ _ _ _ _ _ _ _ hconn
                dsimp only
                rw [hr]
                simp [allocRoom]
              · rename_i m w4 h4 hconn
                cases hstep
                obtain ⟨_, hr, _⟩ := ConnectRooms_frame _ _ _ _ _ _ _ _ hconn
                dsimp only
                rw [hr]
                simp [allocRoom]
              · rename_i w4 h4 hconn
                obtain ⟨_, hr, _⟩ := ConnectRooms_frame _ _ _ _ _ _ _ _ hconn
                split at hstep
                · cases hstep
                · cases hstep
                  rename_i _ st w5 h5 hno hadd
                  have hrooms := AddRoom_rooms w4 h4 h.rooms.length
                  rw [hadd] at hrooms
                  dsimp only at hrooms ⊢
                  rw [hrooms, hr]
                  simp [allocRoom]

theorem growStep_next_rooms {R : Type} (ops : RandOps R) (p : Provider) (prompt : String)
    (rem rem1 : Int) (cur cur1 : List Nat) (w w1 : World R) (h h1 : Heap)
    (hstep : growStep ops p prompt rem cur w h = .next rem1 cur1 w1 h1) :
    (rem1 = rem ∧ h1.rooms.length = h.rooms.length) ∨
    (rem1 = rem - 1 ∧ h1.rooms.length = h.rooms.length + 1) := by
  rcases growStep_next_cases ops p prompt rem rem1 cur cur1 w w1 h h1 hstep with
    ⟨hrem, _, hh, _, _, _⟩ | ⟨sp, sr, dir, w2, h4, _, _, _, _, _, _, hconn, hadd, hrem, _⟩
  · exact Or.inl ⟨hrem, by rw [hh]⟩
  · refine Or.inr ⟨hrem, ?_⟩
    obtain ⟨_, hr, _⟩ := ConnectRooms_frame _ _ _ _ _ _ _ _ hconn
    have hrooms := AddRoom_rooms ({ w2 with rng := (ops.Int63 w2.rng).2 } : World R) h4
      h.rooms.length
    rw [hadd] at hrooms
    dsimp only at hrooms
    rw [hrooms, hr]
    simp [allocRoom]

theorem growLoop_rooms_bound {R : Type} (ops : RandOps R) (p : Provider) (prompt : String)
    (L : Int) (budget : Nat) :
    ∀ (rem : Int) (cur : List Nat) (w : World R) (h : Heap), 0 ≤ rem →
      ((growLoop ops p prompt L budget rem cur w h).2.2.rooms.length : Int)
        ≤ h.rooms.length + rem ∧
      ((growLoop ops p prompt L budget rem cur w h).1 = .ok →
        ((growLoop ops p prompt L budget rem cur w h).2.2.rooms.length : Int)
          = h.rooms.length + rem) := by
  have hexit : ∀ (rem : Int) (w : World R) (h : Heap), 0 ≤ rem →
      ((loopExit L rem w h).2.2.rooms.length : Int) ≤ h.rooms.length + rem ∧
      ((loopExit L rem w h).1 = .ok →
        ((loopExit L rem w h).2.2.rooms.length : Int) = h.rooms.length + rem) := by
    intro rem w h hrem
    unfold loopExit
    by_cases hpos : rem > 0
    · simp only [hpos, if_true]
      refine ⟨by omega, ?_⟩
      intro hc
      cases hc
    · simp only [hpos, if_false]
      refine ⟨by omega, ?_⟩
      intro _
      omega
  induction budget with
  | zero =>
    intro rem cur w h hrem
    simp only [growLoop]
    exact hexit rem w h hrem
  | succ b ih =>
    intro rem cur w h hrem
    simp only [growLoop]
    by_cases hle : rem ≤ 0
    · simp only [hle, if_true]
      exact hexit rem w h hrem
    · simp only [hle, if_false]
      cases hstep : growStep ops p prompt rem cur w h with
      | stop res =>
        dsimp only
        have hle1 := growStep_stop_rooms_le _ _ _ _ _ _ _ _ hstep
        have hno := growStep_stop_not_ok _ _ _ _ _ _ _ _ hstep
        refine ⟨by omega, ?_⟩
        intro hc
        exact absurd hc hno
      | next rem1 cur1 w1 h1 =>
        dsimp only
        rcases growStep_next_rooms _ _ _ _ _ _ _ _ _ _ _ hstep with ⟨hr, hl⟩ | ⟨hr, hl⟩
        · have := ih rem1 cur1 w1 h1 (by omega)
          rw [hr, hl] at this
          rw [hr]
          exact this
        · have := ih rem1 cur1 w1 h1 (by omega)
          rw [hl] at this
          refine ⟨by omega, ?_⟩
          intro hc
          have := this.2 hc
          omega

theorem growLoopAttempts_le {R : Type} (ops : RandOps R) (p : Provider) (prompt : String)
    (budget : Nat) :
    ∀ (rem : Int) (cur : List Nat) (w : World R) (h : Heap),
      growLoopAttempts ops p prompt budget rem cur w h ≤ budget := by
  induction budget with
  | zero =>
    intro rem cur w h
    simp [growLoopAttempts]
  | succ b ih =>
    intro rem cur w h
    simp only [growLoopAttempts]
    split
    · omega
    · split
      · omega
      · rename_i rem1 cur1 w1 h1 _
        have := ih rem1 cur1 w1 h1
        omega

theorem GenerateWorldAttempts_valid {R : Type} (ops : RandOps R) (p : Provider)
    (w : World R) (h : Heap) (prompt : String) (n : Int) (hn : 0 < n) (hp : prompt ≠ "") :
    GenerateWorldAttempts ops p w h prompt n
      = growLoopAttempts ops p prompt (wrapInt64 (n * 10)).toNat (n - 1)
          [h.rooms.length] (hubWorld ops w h) (hubHeap ops p w h prompt) := by
  have hn' : ¬ n ≤ 0 := by omega
  have hd : prompt ++ " - Central Hub" ≠ "" := fun hc => hp (append_eq_empty _ _ hc)
  unfold GenerateWorldAttempts
  simp only [hn', hp, if_false]
  rw [generateRoom_of_ne _ _ _ _ _ _ hd]
  simp only [AddRoom, allocRoom_rooms_new]
  rfl

/-- C21. `GenerateWorld` terminates on every input (it is a total function): the body of
its growth loop runs at most `n * 10` times, a pass that finds no open direction counting
like any other; the call allocates at most `n` rooms, and exactly `n` when it returns no
error; and when the loop has no attempt left while rooms remain to be generated, the
call returns the error of the check after the loop. -/
theorem GenerateWorld_terminates_within_budget {R : Type} (ops : RandOps R)
    (aiProvider : Provider) (w : World R) (h : Heap) (basePrompt : String)
    (numRooms : Int) :
    GenerateWorldAttempts ops aiProvider w h basePrompt numRooms ≤ (numRooms * 10).toNat ∧
    (GenerateWorld ops aiProvider w h basePrompt numRooms).2.2.rooms.length
      ≤ h.rooms.length + numRooms.toNat ∧
    ((GenerateWorld ops aiProvider w h basePrompt numRooms).1 = .ok →
      (GenerateWorld ops aiProvider w h basePrompt numRooms).2.2.rooms.length
        = h.rooms.length + numRooms.toNat) ∧
    (∀ (L remainingRooms : Int) (currentRooms : List Nat) (w0 : World R) (h0 : Heap),
      remainingRooms > 0 →
      growLoop ops aiProvider basePrompt L 0 remainingRooms currentRooms w0 h0
        = (.error ("failed to generate all rooms after " ++ toString L ++ " attempts"),
            w0, h0)) := by
  have hlast : ∀ (L remainingRooms : Int) (currentRooms : List Nat) (w0 : World R)
      (h0 : Heap), remainingRooms > 0 →
      growLoop ops aiProvider basePrompt L 0 remainingRooms currentRooms w0 h0
        = (.error ("failed to generate all rooms after " ++ toString L ++ " attempts"),
            w0, h0) := by
    intro L rem cur w0 h0 hpos
    simp only [growLoop, loopExit, hpos, if_true]
  by_cases hbad : numRooms ≤ 0 ∨ basePrompt = ""
  · obtain ⟨msg, hmsg⟩ := GenerateWorld_invalid ops aiProvider w h basePrompt numRooms hbad
    have hatt : GenerateWorldAttempts ops aiProvider w h basePrompt numRooms = 0 := by
      unfold GenerateWorldAttempts
      rcases hbad with hb | hb
      · simp only [hb, if_true]
      · by_cases hn : numRooms ≤ 0
        · simp only [hn, if_true]
        · simp only [hn, hb, if_false, if_true]
    rw [hmsg, hatt]
    refine ⟨Nat.zero_le _, by simp, ?_, hlast⟩
    intro hc
    cases hc
  · have hn : 0 < numRooms := by
      by_contra hc
      exact hbad (Or.inl (by omega))
    have hp : basePrompt ≠ "" := fun hc => hbad (Or.inr hc)
    rw [GenerateWorldAttempts_valid ops aiProvider w h basePrompt numRooms hn hp,
      GenerateWorld_valid ops aiProvider w h basePrompt numRooms hn hp]
    have hatt := growLoopAttempts_le ops aiProvider basePrompt
      (wrapInt64 (numRooms * 10)).toNat (numRooms - 1) [h.rooms.length] (hubWorld ops w h)
      (hubHeap ops aiProvider w h basePrompt)
    have hwrap : wrapInt64 (numRooms * 10) ≤ numRooms * 10 := by
      unfold wrapInt64
      omega
    have hbound := growLoop_rooms_bound ops aiProvider basePrompt
      (wrapInt64 (numRooms * 10)) (wrapInt64 (numRooms * 10)).toNat (numRooms - 1)
      [h.rooms.length] (hubWorld ops w h) (hubHeap ops aiProvider w h basePrompt)
      (by omega)
    have hlen : (hubHeap ops aiProvider w h basePrompt).rooms.length = h.rooms.length + 1 := by
      simp [hubHeap]
    rw [hlen] at hbound
    refine ⟨by omega, by omega, ?_, hlast⟩
    intro hok
    have := hbound.2 hok
    omega

/-! ### LoadWorld: the random source -/

theorem GenerateWorld_of_same_source {R : Type} (ops : RandOps R) (p : Provider)
    (w w2 : World R) (h : Heap) (prompt : String) (n : Int) (hn : 0 < n) (hp : prompt ≠ "")
    (hseed : w.Seed = w2.Seed) (hrng : w.rng = w2.rng) :
    GenerateWorld ops p w h prompt n = GenerateWorld ops p w2 h prompt n := by
  rw [GenerateWorld_valid ops p w h prompt n hn hp,
    GenerateWorld_valid ops p w2 h prompt n hn hp]
  simp only [hubWorld, hubHeap, hubRoom, newRoom, hubID, hseed, hrng]

theorem GenerateWorld_invalid_status {R : Type} (ops : RandOps R) (p : Provider)
    (w w2 : World R) (h h2 : Heap) (prompt : String) (n : Int)
    (hbad : n ≤ 0 ∨ prompt = "") :
    (GenerateWorld ops p w h prompt n).1 = (GenerateWorld ops p w2 h2 prompt n).1 := by
  unfold GenerateWorld
  rcases hbad with hb | hb
  · simp only [hb, if_true]
  · by_cases hn : n ≤ 0
    · simp only [hn, if_true]
    · simp only [hn, hb, if_false, if_true]

/-- C23. `LoadWorld` always restarts the random stream: for every saved world `w`, whatever
the state of its random source when it was saved, the random source of the loaded world
is that of `NewWorld(w.Seed)`. So `GenerateWorld(prompt, n)` on the loaded world returns
what it returns on a fresh `NewWorld(w.Seed)`, and on valid input it leaves the very same
world; run on any other heap, the fresh world ends with the same room IDs and exits. -/
theorem LoadWorld_restarts_random_stream {R B F : Type} (env : Env B F) (ops : RandOps R)
    (w : World R) (h h2 : Heap) (fs fs1 : F) (filename : String) (data : B)
    (hmarshal : env.MarshalIndent (viewWorld w h) = .ok data)
    (hwrite : env.WriteFile fs filename data = .ok fs1)
    (hread : env.ReadFile fs1 filename = .ok data)
    (hcodec : env.Unmarshal data = .ok (viewWorld w h)) :
    Save env w h fs filename = (.ok, fs1) ∧
    ∃ w1 h1, LoadWorld env ops fs1 h2 filename = (.ok w1, h1) ∧
      w1.Seed = w.Seed ∧ w1.rng = (NewWorld ops w.Seed).rng ∧
      ∀ (aiProvider : Provider) (basePrompt : String) (numRooms : Int),
        (GenerateWorld ops aiProvider w1 h1 basePrompt numRooms).1
          = (GenerateWorld ops aiProvider (NewWorld ops w.Seed) h1 basePrompt numRooms).1 ∧
        (0 < numRooms → basePrompt ≠ "" →
          GenerateWorld ops aiProvider w1 h1 basePrompt numRooms
            = GenerateWorld ops aiProvider (NewWorld ops w.Seed) h1 basePrompt numRooms ∧
          ∀ h3 : Heap,
            (GenerateWorld ops aiProvider w1 h1 basePrompt numRooms).1
              = (GenerateWorld ops aiProvider (NewWorld ops w.Seed) h3 basePrompt
                  numRooms).1 ∧
            roomIDs (GenerateWorld ops aiProvider w1 h1 basePrompt numRooms).2.1
              = roomIDs (GenerateWorld ops aiProvider (NewWorld ops w.Seed) h3 basePrompt
                  numRooms).2.1 ∧
            ∀ id k,
              exitsOfRoom (GenerateWorld ops aiProvider w1 h1 basePrompt numRooms).2.1
                  (GenerateWorld ops aiProvider w1 h1 basePrompt numRooms).2.2 id k
                = exitsOfRoom
                  (GenerateWorld ops aiProvider (NewWorld ops w.Seed) h3 basePrompt
                    numRooms).2.1
                  (GenerateWorld ops aiProvider (NewWorld ops w.Seed) h3 basePrompt
                    numRooms).2.2 id k) := by
  refine ⟨by simp [Save, hmarshal, hwrite], ?_⟩
  simp only [LoadWorld, hread, hcodec]
  refine ⟨_, _, rfl, rfl, rfl, ?_⟩
  intro aiProvider basePrompt numRooms
  have hsame : 0 < numRooms → basePrompt ≠ "" →
      GenerateWorld ops aiProvider
        ({ Seed := (viewWorld w h).Seed,
           Rooms := (buildTableField buildRoomTable h2 (viewWorld w h).Rooms).1,
           Scenes := (buildTableField buildSceneTable
             (buildTableField buildRoomTable h2 (viewWorld w h).Rooms).2
             (viewWorld w h).Scenes).1,
           rng := ops.NewSource (viewWorld w h).Seed } : World R)
        (buildTableField buildSceneTable
          (buildTableField buildRoomTable h2 (viewWorld w h).Rooms).2
          (viewWorld w h).Scenes).2 basePrompt numRooms
      = GenerateWorld ops aiProvider (NewWorld ops w.Seed)
        (buildTableField buildSceneTable
          (buildTableField buildRoomTable h2 (viewWorld w h).Rooms).2
          (viewWorld w h).Scenes).2 basePrompt numRooms :=
    fun hn hp => GenerateWorld_of_same_source ops aiProvider _ (NewWorld ops w.Seed) _
      basePrompt numRooms hn hp rfl rfl
  constructor
  · by_cases hbad : numRooms ≤ 0 ∨ basePrompt = ""
    · exact GenerateWorld_invalid_status ops aiProvider _ _ _ _ basePrompt numRooms hbad
    · have hn : 0 < numRooms := by
        by_contra hc
        exact hbad (Or.inl (by omega))
      have hp : basePrompt ≠ "" := fun hc => hbad (Or.inr hc)
      exact congrArg Prod.fst (hsame hn hp)
  · intro hn hp
    refine ⟨hsame hn hp, ?_⟩
    intro h3
    rw [hsame hn hp, shift_GenerateWorld ops aiProvider _ _ basePrompt numRooms hn hp,
      shift_GenerateWorld ops aiProvider _ h3 basePrompt numRooms hn hp]
    simp only [shiftResult, shift_roomIDs, shift_exitsOfRoom]
    exact ⟨trivial, trivial, fun _ _ => trivial⟩

/-- Witness of C23: the world of `TestSaveAndLoadWorld`, saved after five draws from its
random source and loaded into an empty heap. -/
theorem LoadWorld_restarts_random_stream_witness :
    Save plainEnv drawnWorld savedHeap [] "test_world.json"
      = (.ok, [("test_world.json", viewWorld drawnWorld savedHeap)]) ∧
    ∃ w1 h1, LoadWorld plainEnv counterRand
        [("test_world.json", viewWorld drawnWorld savedHeap)] Heap.empty "test_world.json"
        = (.ok w1, h1) ∧
      w1.Seed = drawnWorld.Seed ∧ w1.rng = (NewWorld counterRand drawnWorld.Seed).rng ∧
      ∀ (aiProvider : Provider) (basePrompt : String) (numRooms : Int),
        (GenerateWorld counterRand aiProvider w1 h1 basePrompt numRooms).1
          = (GenerateWorld counterRand aiProvider (NewWorld counterRand drawnWorld.Seed) h1
              basePrompt numRooms).1 ∧
        (0 < numRooms → basePrompt ≠ "" →
          GenerateWorld counterRand aiProvider w1 h1 basePrompt numRooms
            = GenerateWorld counterRand aiProvider (NewWorld counterRand drawnWorld.Seed) h1
                basePrompt numRooms ∧
          ∀ h3 : Heap,
            (GenerateWorld counterRand aiProvider w1 h1 basePrompt numRooms).1
              = (GenerateWorld counterRand aiProvider (NewWorld counterRand drawnWorld.Seed)
                  h3 basePrompt numRooms).1 ∧
            roomIDs (GenerateWorld counterRand aiProvider w1 h1 basePrompt numRooms).2.1
              = roomIDs (GenerateWorld counterRand aiProvider
                  (NewWorld counterRand drawnWorld.Seed) h3 basePrompt numRooms).2.1 ∧
            ∀ id k,
              exitsOfRoom (GenerateWorld counterRand aiProvider w1 h1 basePrompt
                    numRooms).2.1
                  (GenerateWorld counterRand aiProvider w1 h1 basePrompt numRooms).2.2 id k
                = exitsOfRoom
                  (GenerateWorld counterRand aiProvider
                    (NewWorld counterRand drawnWorld.Seed) h3 basePrompt numRooms).2.1
                  (GenerateWorld counterRand aiProvider
                    (NewWorld counterRand drawnWorld.Seed) h3 basePrompt numRooms).2.2
                  id k) :=
  LoadWorld_restarts_random_stream plainEnv counterRand drawnWorld savedHeap Heap.empty []
    [("test_world.json", viewWorld drawnWorld savedHeap)] "test_world.json"
    (viewWorld drawnWorld savedHeap) rfl rfl rfl rfl

/-! ### Save and LoadWorld: what encoding/json does to property values -/

mutual
theorem decodedValue_of_native : ∀ v, jsonNative v = true → decodedValue v = v
  | .null, _ => rfl
  | .bool _, _ => rfl
  | .int _, h => by simp [jsonNative] at h
  | .num _, _ => rfl
  | .str _, _ => rfl
  | .list xs, h => by
    simp only [jsonNative] at h
    simp only [decodedValue, decodedList_of_native xs h]
  | .obj kvs, h => by
    simp only [jsonNative] at h
    simp only [decodedValue, decodedFields_of_native kvs h]
theorem decodedList_of_native : ∀ xs, nativeList xs = true → decodedList xs = xs
  | [], _ => rfl
  | v :: rest, h => by
    simp only [nativeList, Bool.and_eq_true] at h
    simp only [decodedList, decodedValue_of_native v h.1, decodedList_of_native rest h.2]
theorem decodedFields_of_native : ∀ kvs, nativeFields kvs = true → decodedFields kvs = kvs
  | [], _ => rfl
  | (k, v) :: rest, h => by
    simp only [nativeFields, Bool.and_eq_true] at h
    simp only [decodedFields, decodedValue_of_native v h.1,
      decodedFields_of_native rest h.2]
end

theorem decodedProps_of_native (m : Option (GoMap Value)) (hm : NativeProps m) :
    m.map decodedFields = m := by
  cases m with
  | none => rfl
  | some kvs => simp [decodedFields_of_native kvs hm]

theorem decodedObjects_of_native (ds : List ObjectDoc)
    (hds : ∀ o, o ∈ ds → NativeProps o.Properties) : ds.map decodedObjectDoc = ds := by
  induction ds with
  | nil => rfl
  | cons o rest ih =>
    have ho := decodedProps_of_native o.Properties (hds o (List.mem_cons_self _ _))
    have hrest := ih (fun o1 h1 => hds o1 (List.mem_cons_of_mem _ h1))
    simp only [List.map_cons, hrest, decodedObjectDoc, ho]

theorem decodedRoomDoc_of_native (d : RoomDoc) (hd : NativeRoom d) : decodedRoomDoc d = d := by
  obtain ⟨hp, ho⟩ := hd
  have h1 := decodedProps_of_native d.Properties hp
  have h2 : d.Objects.map (List.map decodedObjectDoc) = d.Objects := by
    cases hobj : d.Objects with
    | none => rfl
    | some ds => simp [decodedObjects_of_native ds (ho ds hobj)]
  simp only [decodedRoomDoc, h1, h2]

theorem decodedTable_of_native (rs : GoMap RoomDoc)
    (hrs : ∀ kv, kv ∈ rs → NativeRoom kv.2) : decodedTable rs = rs := by
  induction rs with
  | nil => rfl
  | cons kv rest ih =>
    have hkv := decodedRoomDoc_of_native kv.2 (hrs kv (List.mem_cons_self _ _))
    have hrest := ih (fun kv1 h1 => hrs kv1 (List.mem_cons_of_mem _ h1))
    unfold decodedTable at hrest ⊢
    simp only [List.map_cons, hrest, hkv]

theorem jsonEnv_codec : JsonCodec jsonEnv := by
  intro doc data hm
  cases hm
  rfl

theorem savedWorld_native : NativeRooms (viewWorld savedWorld savedHeap).Rooms := by
  intro rs hrs kv hkv
  have h1 : (viewWorld savedWorld savedHeap).Rooms = some [("room1",
      { ID := "room1", Description := "Test Room",
        Objects := some [{ ID := "obj1", Name := "Test Object",
                           Description := "A test object",
                           Properties := some [("portable", .bool true),
                             ("weight", .num (3 / 2))] }],
        Exits := some [("north", "room2")],
        Properties := some [("lit", .bool true), ("temperature", .num (41 / 2))] })] := rfl
  rw [h1] at hrs
  simp only [Option.some.injEq] at hrs
  subst hrs
  simp only [List.mem_singleton] at hkv
  subst hkv
  refine ⟨rfl, ?_⟩
  intro ds hds o ho
  simp only [Option.some.injEq] at hds
  subst hds
  simp only [List.mem_singleton] at ho
  subst ho
  rfl

/-- Counterexample to C10. A world whose room has the properties `visits = int(3)` and
`serial = int64(9007199254740993)` is saved and loaded through `encoding/json`: the loaded
room has `visits = float64(3)` and `serial = float64(9007199254740992)`, so its Properties
are not those of the saved room. -/
theorem Save_LoadWorld_changes_integers :
    JsonCodec jsonEnv ∧
    float64OfInt 3 = 3 ∧ float64OfInt 9007199254740993 = 9007199254740992 ∧
    Save jsonEnv countedWorld countedHeap [] "world.json"
      = (.ok, [("world.json", viewWorld countedWorld countedHeap)]) ∧
    ∃ w1 h1, LoadWorld jsonEnv counterRand
        [("world.json", viewWorld countedWorld countedHeap)] Heap.empty "world.json"
        = (.ok w1, h1) ∧
      (viewWorld w1 h1).Rooms = some [("room1",
        { ID := "room1", Description := "Test Room", Objects := some [],
          Exits := some [],
          Properties := some [("visits", .num (float64OfInt 3)),
            ("serial", .num (float64OfInt 9007199254740993))] })] ∧
      (viewWorld w1 h1).Rooms ≠ (viewWorld countedWorld countedHeap).Rooms := by
  refine ⟨jsonEnv_codec, by decide, by decide, rfl, _, _, rfl, rfl, ?_⟩
  change (some [("room1",
      ({ ID := "room1", Description := "Test Room", Objects := some [],
         Exits := some [],
         Properties := some [("visits", .num (float64OfInt 3)),
           ("serial", .num (float64OfInt 9007199254740993))] } : RoomDoc))]
      : Option (GoMap RoomDoc))
    ≠ some [("room1",
      { ID := "room1", Description := "Test Room", Objects := some [],
        Exits := some [],
        Properties := some [("visits", .int 3), ("serial", .int 9007199254740993)] })]
  simp

/-- C10, amended. With `encoding/json` as the codec and the file read being the file `Save`
wrote, `Save` returns no error and `LoadWorld`, in whatever heap it runs, returns a world
with the same `Seed` and the same room IDs, each room with the same ID, Description,
Objects and Exits, and with the Properties (its own and its objects') as `json.Unmarshal`
decodes them: every number a `float64`. For a world whose property values are all of the
kinds `json.Unmarshal` produces (nil, `bool`, `float64`, string, arrays and objects of
these) the rooms are the same as in the saved world; the random source is not compared. -/
theorem Save_LoadWorld_round_trip {R B F : Type} (env : Env B F) (ops : RandOps R)
    (w : World R) (h h2 : Heap) (fs fs1 : F) (filename : String) (data : B)
    (hjson : JsonCodec env)
    (hmarshal : env.MarshalIndent (viewWorld w h) = .ok data)
    (hwrite : env.WriteFile fs filename data = .ok fs1)
    (hread : env.ReadFile fs1 filename = .ok data) :
    Save env w h fs filename = (.ok, fs1) ∧
    ∃ w1 h1, LoadWorld env ops fs1 h2 filename = (.ok w1, h1) ∧
      w1.Seed = w.Seed ∧
      (viewWorld w1 h1).Rooms = (viewWorld w h).Rooms.map decodedTable ∧
      (NativeRooms (viewWorld w h).Rooms →
        (viewWorld w1 h1).Rooms = (viewWorld w h).Rooms) := by
  refine ⟨by simp [Save, hmarshal, hwrite], ?_⟩
  obtain ⟨w1, h1, hload, hseed, hrooms⟩ := LoadWorld_rebuilds_document env ops h2 fs1
    filename data _ hread (hjson _ _ hmarshal)
  refine ⟨w1, h1, hload, hseed, hrooms, ?_⟩
  intro hnative
  rw [hrooms]
  simp only [decodedWorldDoc]
  cases hr : (viewWorld w h).Rooms with
  | none => rfl
  | some rs =>
    simp only [Option.map_some', Option.some.injEq]
    exact decodedTable_of_native rs (hnative rs hr)

/-- Witness of C10 amended: the world of `TestSaveAndLoadWorld`, whose properties are
`true`, `1.5`, `true` and `20.5`, loaded into an empty heap. -/
theorem Save_LoadWorld_round_trip_witness :
    NativeRooms (viewWorld savedWorld savedHeap).Rooms ∧
    Save jsonEnv savedWorld savedHeap [] "test_world.json"
      = (.ok, [("test_world.json", viewWorld savedWorld savedHeap)]) ∧
    ∃ w1 h1, LoadWorld jsonEnv counterRand
        [("test_world.json", viewWorld savedWorld savedHeap)] Heap.empty "test_world.json"
        = (.ok w1, h1) ∧
      w1.Seed = savedWorld.Seed ∧
      (viewWorld w1 h1).Rooms = (viewWorld savedWorld savedHeap).Rooms.map decodedTable ∧
      (NativeRooms (viewWorld savedWorld savedHeap).Rooms →
        (viewWorld w1 h1).Rooms = (viewWorld savedWorld savedHeap).Rooms) :=
  ⟨savedWorld_native,
  Save_LoadWorld_round_trip jsonEnv counterRand savedWorld savedHeap Heap.empty []
    [("test_world.json", viewWorld savedWorld savedHeap)] "test_world.json"
    (viewWorld savedWorld savedHeap) jsonEnv_codec rfl rfl rfl⟩

/-! ### GenerateWorld with two or more rooms: what the call leaves -/

theorem GenerateWorld_fresh_id_state {R : Type} (ops : RandOps R) (p : Provider)
    (w : World R) (h : Heap) (prompt : String) (n : Int) (hn : 2 ≤ n) (hp : prompt ≠ "")
    (hrange : IntnInRange ops) (hfresh : hubID ops w ≠ firstAddedID ops w) :
    ∃ msg w1 h1, GenerateWorld ops p w h prompt n = (.error msg, w1, h1) ∧
      w1.Rooms = some [(hubID ops w, h.rooms.length)] ∧
      h1.rooms[h.rooms.length]? = some (hubRoom ops p w h prompt) ∧
      h1.exits[h.exits.length]? = some [] := by
  rw [GenerateWorld_valid ops p w h prompt n (by omega) hp]
  have hroom : (hubHeap ops p w h prompt).rooms[h.rooms.length]?
      = some (hubRoom ops p w h prompt) := by simp [hubHeap]
  have hex0 : (hubHeap ops p w h prompt).exits[h.exits.length]? = some [] := by
    simp [hubHeap]
  have hrem : ¬ (n - 1 ≤ 0) := by omega
  have hrem' : n - 1 > 0 := by omega
  cases hb : (wrapInt64 (n * 10)).toNat with
  | zero =>
    refine ⟨"failed to generate all rooms after " ++ toString (wrapInt64 (n * 10))
        ++ " attempts", hubWorld ops w h, hubHeap ops p w h prompt, ?_, rfl, hroom, hex0⟩
    simp only [growLoop, loopExit, hrem', if_true]
  | succ b =>
    obtain ⟨res, hstop, _, hrooms, hexits, herr⟩ :=
      growStep_hub_fresh ops p w h prompt (n - 1) hp hfresh
    have herr' := herr (hrange 1 _ (by decide)) (hrange 4 _ (by decide))
    have hnp : res.1.isPanic = false := by
      rw [herr']
      rfl
    obtain ⟨_, _, hpre, _⟩ := growStep_stop_cases _ _ _ _ _ _ _ _ hstop hnp
    refine ⟨"failed to connect rooms: " ++
        ("target room " ++ firstAddedID ops w ++ " not found"), res.2.1, res.2.2, ?_,
      hrooms, prefix_getElem? _ _ hpre _ _ hroom, hexits⟩
    simp only [growLoop, hrem, if_false, hstop]
    obtain ⟨st, w1, h1⟩ := res
    simp only at herr'
    rw [herr']

theorem single_fresh_room_count {R : Type} (w : World R) (h : Heap)
    (hs : SingleFreshRoom w h) : roomCount w = 1 := by
  obtain ⟨id, p, r, e, m, hR, _⟩ := hs
  simp [roomCount, hR, mapKeys]

/-- C1, evaluated on the code. For every non-empty prompt and every `n >= 2`, on any world
whose random source draws inside its range and gives the first additional room an ID other
than the hub's, `GenerateWorld(prompt, n)` returns an error and leaves one room, where the
tests require nil and `n` rooms. And whatever the random source and the world, a call
that returns nil leaves exactly one room: for `n >= 2` no call returns nil with `n`
rooms. -/
theorem GenerateWorld_never_ok_with_n_rooms {R : Type} (ops : RandOps R)
    (aiProvider : Provider) (w : World R) (h : Heap) (basePrompt : String)
    (numRooms : Int) (hn : 2 ≤ numRooms) (hp : basePrompt ≠ "")
    (hrange : IntnInRange ops) (hfresh : hubID ops w ≠ firstAddedID ops w) :
    (∃ msg w1 h1,
      GenerateWorld ops aiProvider w h basePrompt numRooms = (.error msg, w1, h1) ∧
      roomCount w1 = 1 ∧ (roomCount w1 : Int) ≠ numRooms) ∧
    (∀ (ops0 : RandOps R) (w0 w1 : World R) (h0 h1 : Heap),
      GenerateWorld ops0 aiProvider w0 h0 basePrompt numRooms = (.ok, w1, h1) →
      roomCount w1 = 1 ∧ (roomCount w1 : Int) ≠ numRooms) := by
  constructor
  · obtain ⟨msg, w1, h1, hres, hrooms, _, _⟩ := GenerateWorld_fresh_id_state ops aiProvider
      w h basePrompt numRooms hn hp hrange hfresh
    have hcount : roomCount w1 = 1 := by simp [roomCount, hrooms, mapKeys]
    refine ⟨msg, w1, h1, hres, hcount, ?_⟩
    rw [hcount]
    omega
  · intro ops0 w0 w1 h0 h1 hres
    have hcount := single_fresh_room_count w1 h1
      (GenerateWorld_ok_single ops0 aiProvider w0 w1 h0 h1 basePrompt numRooms hres)
    refine ⟨hcount, ?_⟩
    rw [hcount]
    omega

/-- Witness of C1: the case `valid_small_world` of `TestWorldGeneration`, seed 12345,
"test world" and three rooms, with a counter as random source. -/
theorem GenerateWorld_never_ok_with_n_rooms_witness :
    (∃ msg w1 h1,
      GenerateWorld counterRand none (NewWorld counterRand 12345) Heap.empty "test world" 3
        = (.error msg, w1, h1) ∧
      roomCount w1 = 1 ∧ (roomCount w1 : Int) ≠ 3) ∧
    (∀ (ops0 : RandOps Nat) (w0 w1 : World Nat) (h0 h1 : Heap),
      GenerateWorld ops0 none w0 h0 "test world" 3 = (.ok, w1, h1) →
      roomCount w1 = 1 ∧ (roomCount w1 : Int) ≠ 3) :=
  GenerateWorld_never_ok_with_n_rooms counterRand none (NewWorld counterRand 12345)
    Heap.empty "test world" 3 (by decide) (by decide)
    (fun n r hpos => Nat.mod_lt r hpos) (by decide)

/-- C3, evaluated on the code. For every non-empty prompt and every `n >= 2`, on any world
whose random source draws inside its range and gives the first additional room an ID other
than the hub's, `GenerateWorld(prompt, n)` returns an error and the one registered room,
the hub, has no exit at all, where the tests require nil and every room connected in both
directions. And whatever the random source and the world, after a call that returns nil
no exit of a registered room leads anywhere: every exit present is the unresolved `""`. -/
theorem GenerateWorld_resolves_no_exit {R : Type} (ops : RandOps R)
    (aiProvider : Provider) (w : World R) (h : Heap) (basePrompt : String)
    (numRooms : Int) (hn : 2 ≤ numRooms) (hp : basePrompt ≠ "")
    (hrange : IntnInRange ops) (hfresh : hubID ops w ≠ firstAddedID ops w) :
    (∃ msg w1 h1,
      GenerateWorld ops aiProvider w h basePrompt numRooms = (.error msg, w1, h1) ∧
      ∀ k p r d, GetRoom w1 k = some p → h1.rooms[p]? = some r →
        exitsLookup h1 r d = none) ∧
    (∀ (ops0 : RandOps R) (w0 w1 : World R) (h0 h1 : Heap),
      GenerateWorld ops0 aiProvider w0 h0 basePrompt numRooms = (.ok, w1, h1) →
      ∀ k p r d t, GetRoom w1 k = some p → h1.rooms[p]? = some r →
        exitsLookup h1 r d = some t → t = "") := by
  constructor
  · obtain ⟨msg, w1, h1, hres, hrooms, hhub, hexits⟩ := GenerateWorld_fresh_id_state ops
      aiProvider w h basePrompt numRooms hn hp hrange hfresh
    refine ⟨msg, w1, h1, hres, ?_⟩
    intro k p r d hg hr
    simp only [GetRoom, hrooms] at hg
    obtain ⟨_, hp'⟩ := mapGet_singleton _ _ _ _ hg
    rw [hp', hhub] at hr
    cases hr
    simp [exitsLookup, hubRoom, newRoom, exitsAt, hexits, mapGet]
  · intro ops0 w0 w1 h0 h1 hres k p r d t hg hr hx
    obtain ⟨id, p0, r0, e, m, hR, hr0, he, hm, hall⟩ :=
      GenerateWorld_ok_single ops0 aiProvider w0 w1 h0 h1 basePrompt numRooms hres
    simp only [GetRoom, hR] at hg
    obtain ⟨_, hp'⟩ := mapGet_singleton _ _ _ _ hg
    rw [hp', hr0] at hr
    cases hr
    simp only [exitsLookup, he, exitsAt, hm] at hx
    exact hall d t hx

/-- Witness of C3: the case `valid_small_world` of `TestWorldGeneration`, seed 12345,
"test world" and three rooms, with a counter as random source. -/
theorem GenerateWorld_resolves_no_exit_witness :
    (∃ msg w1 h1,
      GenerateWorld counterRand none (NewWorld counterRand 12345) Heap.empty "test world" 3
        = (.error msg, w1, h1) ∧
      ∀ k p r d, GetRoom w1 k = some p → h1.rooms[p]? = some r →
        exitsLookup h1 r d = none) ∧
    (∀ (ops0 : RandOps Nat) (w0 w1 : World Nat) (h0 h1 : Heap),
      GenerateWorld ops0 none w0 h0 "test world" 3 = (.ok, w1, h1) →
      ∀ k p r d t, GetRoom w1 k = some p → h1.rooms[p]? = some r →
        exitsLookup h1 r d = some t → t = "") :=
  GenerateWorld_resolves_no_exit counterRand none (NewWorld counterRand 12345)
    Heap.empty "test world" 3 (by decide) (by decide)
    (fun n r hpos => Nat.mod_lt r hpos) (by decide)

end Worldgen
